import Mathlib

/-!
# fb-page-service: client core, timestamp codec and request routers

A shallow embedding of `pkg/facebook` (`client.go`, `types.go`, `pages.go`,
`photos.go`, `insights.go`, `utils.go`, `router.go`, `simple_router.go`) and of the
root program `main.go`, and the properties of its specification.

Conventions of the embedding.

* Go strings are Lean strings; byte slicing `s[n:]` that the source only performs
  behind a `strings.HasPrefix` / `strings.HasSuffix` guard is the removal of that
  prefix or suffix.
* A Go `error` is represented by its message; `nil` is `none`.
* Calls into the Go standard library (`fmt`, `strings`, `strconv`, `net/url`,
  `encoding/json`, `time`) and into `gorilla/mux` are given by small executable
  models placed next to the code that uses them.
-/

namespace FbPageService

/-! ## `strings` -/

/-- Go `strings.HasPrefix`. -/
def HasPrefix (s pre : String) : Bool := pre.data.isPrefixOf s.data

/-- Go `strings.HasSuffix`. -/
def HasSuffix (s suf : String) : Bool := suf.data.isSuffixOf s.data

/-- Go `strings.TrimPrefix`: `s` without the leading `pre`, or `s` itself. -/
def TrimPrefix (s pre : String) : String :=
  if HasPrefix s pre then String.mk (s.data.drop pre.data.length) else s

/-- Whether the character list `sub` occurs in `l` as a contiguous block. -/
def containsChars (sub : List Char) : List Char → Bool
  | [] => sub.isEmpty
  | c :: cs => sub.isPrefixOf (c :: cs) || containsChars sub cs

/-- Go `strings.Contains`. -/
def Contains (s sub : String) : Bool := containsChars sub.data s.data

/-! ## `fmt` -/

/-- An operand of `fmt.Sprintf`: a string (also used for an `error`, which prints
as its message) or an `int`. -/
inductive FmtArg where
  | str (s : String)
  | int (n : Int)
  deriving DecidableEq, Repr

/-- Go type name and default rendering of an operand, as used in `%!verb(type=value)`. -/
def FmtArg.typeName : FmtArg → String
  | .str _ => "string"
  | .int _ => "int"

/-- Default (`%v`) rendering of an operand. -/
def FmtArg.render : FmtArg → String
  | .str s => s
  | .int n => toString n

/-- Rendering of one operand under the verb `v`. Only the verbs the repository
uses are modelled: `%s` and `%v` (and `%w`, which prints like `%v`) for strings
and errors, `%d` and `%v` for ints; any other pairing prints Go's bad-verb form. -/
def FmtArg.format (a : FmtArg) (v : Char) : List Char :=
  match a, v with
  | .str s, 's' => s.data
  | .str s, 'v' => s.data
  | .str s, 'w' => s.data
  | .int n, 'd' => (toString n).data
  | .int n, 'v' => (toString n).data
  | a, v => ['%', '!', v, '('] ++ a.typeName.data ++ ['='] ++ a.render.data ++ [')']

/-- Go's rendering of operands left over after the format is exhausted. -/
def fmtExtra : List FmtArg → List Char
  | [] => []
  | args => "%!(EXTRA ".data ++
      (", ".data.intercalate (args.map fun a => a.typeName.data ++ ['='] ++ a.render.data)) ++ [')']

/-- The format interpreter of `fmt.Sprintf` on character lists. -/
def sprintfAux : List Char → List FmtArg → List Char
  | [], args => fmtExtra args
  | [c], args => if c = '%' then "%!(NOVERB)".data ++ fmtExtra args else c :: fmtExtra args
  | c :: v :: rest, args =>
    if c = '%' then
      if v = '%' then '%' :: sprintfAux rest args
      else
        match args with
        | [] => ['%', '!', v] ++ "(MISSING)".data ++ sprintfAux rest []
        | a :: as => a.format v ++ sprintfAux rest as
    else c :: sprintfAux (v :: rest) args

/-- Go `fmt.Sprintf` (and the message of `fmt.Errorf`). -/
def Sprintf (format : String) (args : List FmtArg) : String :=
  String.mk (sprintfAux format.data args)

/-! ## `client.go` -/

/-- Constant `DefaultAPIVersion`. -/
def DefaultAPIVersion : String := "v23.0"

/-- Constant `BaseURL`. -/
def BaseURL : String := "https://graph.facebook.com"

/-- The `http.Client` held by a `Client`: only its timeout, in seconds, is kept. -/
structure HTTPClient where
  Timeout : Nat
  deriving DecidableEq, Repr

/-- Struct `Client`. -/
structure Client where
  AccessToken : String
  APIVersion : String
  HTTPClient : HTTPClient
  BaseURL : String
  deriving DecidableEq, Repr

/-- Function `NewClient`. -/
def NewClient (accessToken : String) : Client :=
  { AccessToken := accessToken
    APIVersion := DefaultAPIVersion
    HTTPClient := { Timeout := 30 }
    BaseURL := BaseURL }

/-- Method `Client.SetAPIVersion`: the client after the assignment. -/
def Client.SetAPIVersion (c : Client) (version : String) : Client :=
  { c with APIVersion := version }

/-- Method `Client.buildURL`. -/
def Client.buildURL (c : Client) (endpoint : String) : String :=
  Sprintf "%s/%s/%s" [.str c.BaseURL, .str c.APIVersion, .str endpoint]

/-! ## `net/url`, `net/http`, `strconv` -/

/-- Go `url.Values` and `http.Header` (`map[string][]string`), as an association
list in which the first entry for a key is the one in force. -/
structure Values where
  entries : List (String × List String)
  deriving DecidableEq, Repr

/-- The map index expression `v[key]`: the value list stored under `key`, if any. -/
def Values.lookup (v : Values) (key : String) : Option (List String) :=
  v.entries.lookup key

/-- Go `Values.Get` / `Header.Get`: the first value stored under `key`, or `""`. -/
def Values.Get (v : Values) (key : String) : String :=
  match v.lookup key with
  | some (x :: _) => x
  | _ => ""

/-- Go `Values.Set` / `Header.Set`: `key` now maps to the single value `value`. -/
def Values.Set (v : Values) (key value : String) : Values :=
  ⟨(key, [value]) :: v.entries.filter (fun e => e.1 != key)⟩

/-- Go `len(v)`: the number of distinct keys. -/
def Values.len (v : Values) : Nat :=
  (v.entries.map (·.1)).dedup.length

/-- Value of a decimal digit character. -/
def digitVal (c : Char) : Nat := c.toNat - '0'.toNat

/-- Value of a list of decimal digits, most significant first. -/
def digitsVal (cs : List Char) : Nat := cs.foldl (fun n c => 10 * n + digitVal c) 0

/-- Whether every character is a decimal digit and there is at least one. -/
def allDigits (cs : List Char) : Bool := !cs.isEmpty && cs.all Char.isDigit

/-- Go `strconv.Atoi` on a 64-bit platform: an optional sign, then decimal digits,
with a value in the range of `int`; `none` is a non-nil error. -/
def Atoi (s : String) : Option Int :=
  let (neg, ds) :=
    match s.data with
    | '-' :: ds => (true, ds)
    | '+' :: ds => (false, ds)
    | ds => (false, ds)
  if allDigits ds then
    let n : Int := if neg then -(digitsVal ds : Int) else (digitsVal ds : Int)
    if -(2 ^ 63 : Int) ≤ n ∧ n < 2 ^ 63 then some n else none
  else none

/-- Splitting of a character list at every occurrence of `sep`. -/
def splitChars (sep : Char) : List Char → List (List Char)
  | [] => [[]]
  | c :: cs =>
    if c = sep then [] :: splitChars sep cs
    else
      match splitChars sep cs with
      | [] => [[c]]
      | h :: t => (c :: h) :: t

/-- Go `strings.Split(s, ",")`. -/
def SplitComma (s : String) : List String := (splitChars ',' s.data).map String.mk

/-- A JSON value: the payload of a response body and the parse tree of a received
one. A number written as an integer is `num`; one written with a fraction or an
exponent is `real` and keeps its text. -/
inductive Json where
  | null
  | bool (b : Bool)
  | num (n : Int)
  | real (literal : String)
  | str (s : String)
  | arr (items : List Json)
  | obj (members : List (String × Json))
  deriving Repr

/-! ## `encoding/json`: reading a document -/

/-- JSON insignificant whitespace is skipped. -/
def skipWs : List Char → List Char
  | [] => []
  | c :: cs => if c = ' ' ∨ c = '\t' ∨ c = '\n' ∨ c = '\r' then skipWs cs else c :: cs

/-- Value of a hexadecimal digit. -/
def hexVal (c : Char) : Option Nat :=
  if '0' ≤ c ∧ c ≤ '9' then some (c.toNat - '0'.toNat)
  else if 'a' ≤ c ∧ c ≤ 'f' then some (c.toNat - 'a'.toNat + 10)
  else if 'A' ≤ c ∧ c ≤ 'F' then some (c.toNat - 'A'.toNat + 10)
  else none

/-- The four hexadecimal digits of a `\u` escape (Go `getu4`). -/
def parse4hex : List Char → Option (Nat × List Char)
  | a :: b :: c :: d :: rest =>
    match hexVal a, hexVal b, hexVal c, hexVal d with
    | some x, some y, some z, some w => some (((x * 16 + y) * 16 + z) * 16 + w, rest)
    | _, _, _, _ => none
  | _ => none

/-- The rune of a `\u` escape with code unit `n`, followed by the text `rest`: a
valid surrogate pair is combined and consumed, a lone surrogate becomes U+FFFD. -/
def decodeEscapedUnit (n : Nat) (rest : List Char) : Char × List Char :=
  if 0xD800 ≤ n ∧ n < 0xE000 then
    match rest with
    | '\\' :: 'u' :: r2 =>
      match parse4hex r2 with
      | some (n2, r3) =>
        if n < 0xDC00 ∧ 0xDC00 ≤ n2 ∧ n2 < 0xE000 then
          (Char.ofNat (0x10000 + (n - 0xD800) * 0x400 + (n2 - 0xDC00)), r3)
        else (Char.ofNat 0xFFFD, rest)
      | none => (Char.ofNat 0xFFFD, rest)
    | _ => (Char.ofNat 0xFFFD, rest)
  else (Char.ofNat n, rest)

/-- A string literal after its opening quote: the text it denotes and what follows
the closing quote. -/
def parseStringBody : Nat → List Char → List Char → Option (String × List Char)
  | 0, _, _ => none
  | fuel + 1, cs, acc =>
    match cs with
    | [] => none
    | '"' :: rest => some (String.mk acc.reverse, rest)
    | '\\' :: rest =>
      match rest with
      | '"' :: r => parseStringBody fuel r ('"' :: acc)
      | '\\' :: r => parseStringBody fuel r ('\\' :: acc)
      | '/' :: r => parseStringBody fuel r ('/' :: acc)
      | 'b' :: r => parseStringBody fuel r (Char.ofNat 8 :: acc)
      | 'f' :: r => parseStringBody fuel r (Char.ofNat 12 :: acc)
      | 'n' :: r => parseStringBody fuel r ('\n' :: acc)
      | 'r' :: r => parseStringBody fuel r ('\r' :: acc)
      | 't' :: r => parseStringBody fuel r ('\t' :: acc)
      | 'u' :: r =>
        match parse4hex r with
        | none => none
        | some (n, r1) =>
          let (ch, r2) := decodeEscapedUnit n r1
          parseStringBody fuel r2 (ch :: acc)
      | _ => none
    | c :: rest => if c.toNat < 0x20 then none else parseStringBody fuel rest (c :: acc)

/-- A number literal: `-? (0 | [1-9][0-9]*) (. [0-9]+)? ([eE] [+-]? [0-9]+)?`. -/
def parseNumber (cs : List Char) : Option (Json × List Char) :=
  let (neg, r0) := match cs with
    | '-' :: r => (true, r)
    | r => (false, r)
  let (intDs, r1) := r0.span Char.isDigit
  if intDs.isEmpty || (intDs.length > 1 && intDs.head? == some '0') then none
  else
    let frac : Option (List Char × List Char) :=
      match r1 with
      | '.' :: r =>
        let (ds, r') := r.span Char.isDigit
        if ds.isEmpty then none else some ('.' :: ds, r')
      | r => some ([], r)
    match frac with
    | none => none
    | some (fr, r2) =>
      let ex : Option (List Char × List Char) :=
        match r2 with
        | e :: r =>
          if e = 'e' ∨ e = 'E' then
            let (sg, r') := match r with
              | '+' :: t => (['+'], t)
              | '-' :: t => (['-'], t)
              | t => ([], t)
            let (ds, r'') := r'.span Char.isDigit
            if ds.isEmpty then none else some (e :: sg ++ ds, r'')
          else some ([], r2)
        | [] => some ([], [])
      match ex with
      | none => none
      | some (exs, r3) =>
        if fr.isEmpty && exs.isEmpty then
          some (.num (if neg then -(digitsVal intDs : Int) else (digitsVal intDs : Int)), r3)
        else
          some (.real (String.mk ((if neg then ['-'] else []) ++ intDs ++ fr ++ exs)), r3)

/-- What the parser is reading: one value, the rest of an array, or the rest of an
object. -/
inductive ParseMode where
  | value
  | elems (acc : List Json)
  | members (acc : List (String × Json))

/-- Recursive-descent JSON reader; each recursive call spends one unit of fuel. -/
def parseJsonAux : Nat → ParseMode → List Char → Option (Json × List Char)
  | 0, _, _ => none
  | fuel + 1, .value, cs =>
    match skipWs cs with
    | '{' :: rest =>
      match skipWs rest with
      | '}' :: r => some (.obj [], r)
      | r => parseJsonAux fuel (.members []) r
    | '[' :: rest =>
      match skipWs rest with
      | ']' :: r => some (.arr [], r)
      | r => parseJsonAux fuel (.elems []) r
    | '"' :: rest =>
      match parseStringBody (rest.length + 1) rest [] with
      | some (str, r) => some (.str str, r)
      | none => none
    | 't' :: 'r' :: 'u' :: 'e' :: r => some (.bool true, r)
    | 'f' :: 'a' :: 'l' :: 's' :: 'e' :: r => some (.bool false, r)
    | 'n' :: 'u' :: 'l' :: 'l' :: r => some (.null, r)
    | r => parseNumber r
  | fuel + 1, .elems acc, cs =>
    match parseJsonAux fuel .value cs with
    | none => none
    | some (v, r) =>
      match skipWs r with
      | ',' :: r' => parseJsonAux fuel (.elems (v :: acc)) r'
      | ']' :: r' => some (.arr (v :: acc).reverse, r')
      | _ => none
  | fuel + 1, .members acc, cs =>
    match skipWs cs with
    | '"' :: r =>
      match parseStringBody (r.length + 1) r [] with
      | none => none
      | some (k, r1) =>
        match skipWs r1 with
        | ':' :: r2 =>
          match parseJsonAux fuel .value r2 with
          | none => none
          | some (v, r3) =>
            match skipWs r3 with
            | ',' :: r4 => parseJsonAux fuel (.members ((k, v) :: acc)) r4
            | '}' :: r4 => some (.obj ((k, v) :: acc).reverse, r4)
            | _ => none
        | _ => none
    | _ => none

/-- The document `s` denotes, when `s` is valid JSON (one value, optionally
surrounded by whitespace); `none` is the syntax error of `json.Unmarshal`. The
nesting limit of the Go scanner is not modelled. -/
def parseJson (s : String) : Option Json :=
  match parseJsonAux (2 * s.data.length + 2) .value s.data with
  | some (v, rest) => if (skipWs rest).isEmpty then some v else none
  | none => none

/-! ## `types.go`: the error envelope, and `json.Unmarshal` into it -/

/-- Struct `ErrorDetail` (its field `Type` is `Type_` here). -/
structure ErrorDetail where
  Message : String := ""
  Type_ : String := ""
  Code : Int := 0
  ErrorCode : Int := 0
  FBTraceID : String := ""
  deriving DecidableEq, Repr

/-- Struct `ErrorResponse`. -/
structure ErrorResponse where
  Error : ErrorDetail := {}
  deriving DecidableEq, Repr

/-- Case folding of `encoding/json` key matching on the letters that occur in the
field names: ASCII case, the long s and the Kelvin sign. -/
def foldChar (c : Char) : Char :=
  if c = Char.ofNat 0x17F then 's'
  else if c = Char.ofNat 0x212A then 'k'
  else c.toLower

/-- Whether the object key `key` selects the struct field tagged `name`. -/
def keyMatches (key name : String) : Bool :=
  key.data.map foldChar == name.data.map foldChar

/-- Decoding of a JSON value into a `string` field holding `cur`: the new field
value, and whether a type error was recorded. -/
def decodeStringField (v : Json) (cur : String) : String × Bool :=
  match v with
  | .str x => (x, false)
  | .null => (cur, false)
  | _ => (cur, true)

/-- Decoding of a JSON value into an `int` field holding `cur`. -/
def decodeIntField (v : Json) (cur : Int) : Int × Bool :=
  match v with
  | .num n => if -(2 ^ 63 : Int) ≤ n ∧ n < 2 ^ 63 then (n, false) else (cur, true)
  | .null => (cur, false)
  | _ => (cur, true)

/-- One member of the object decoded into an `ErrorDetail`. -/
def decodeDetailMember (st : ErrorDetail × Bool) (m : String × Json) : ErrorDetail × Bool :=
  let (d, bad) := st
  if keyMatches m.1 "message" then
    let (x, b) := decodeStringField m.2 d.Message
    ({ d with Message := x }, bad || b)
  else if keyMatches m.1 "type" then
    let (x, b) := decodeStringField m.2 d.Type_
    ({ d with Type_ := x }, bad || b)
  else if keyMatches m.1 "code" then
    let (x, b) := decodeIntField m.2 d.Code
    ({ d with Code := x }, bad || b)
  else if keyMatches m.1 "error_code" then
    let (x, b) := decodeIntField m.2 d.ErrorCode
    ({ d with ErrorCode := x }, bad || b)
  else if keyMatches m.1 "fbtrace_id" then
    let (x, b) := decodeStringField m.2 d.FBTraceID
    ({ d with FBTraceID := x }, bad || b)
  else (d, bad)

/-- Decoding of a JSON value into the struct field `Error`. -/
def decodeDetail (v : Json) (cur : ErrorDetail) : ErrorDetail × Bool :=
  match v with
  | .obj members => members.foldl decodeDetailMember (cur, false)
  | .null => (cur, false)
  | _ => (cur, true)

/-- One member of the object decoded into an `ErrorResponse`. -/
def decodeResponseMember (st : ErrorResponse × Bool) (m : String × Json) :
    ErrorResponse × Bool :=
  let (r, bad) := st
  if keyMatches m.1 "error" then
    let (d, b) := decodeDetail m.2 r.Error
    ({ r with Error := d }, bad || b)
  else (r, bad)

/-- The call `json.Unmarshal(body, &errorResp)` on a zero `ErrorResponse`: the
decoded envelope, or `none` when the call returns an error (invalid JSON, or a
value of the wrong JSON type for the envelope or one of its fields). -/
def unmarshalErrorResponse (body : String) : Option ErrorResponse :=
  match parseJson body with
  | none => none
  | some (.obj members) =>
    let (r, bad) := members.foldl decodeResponseMember (({} : ErrorResponse), false)
    if bad then none else some r
  | some .null => some {}
  | some _ => none

/-! ## `client.go`: `handleResponse` -/

/-- The part of `*http.Response` that `handleResponse` reads: the status code and
what `io.ReadAll(resp.Body)` returns, the body text or a read error. -/
structure HTTPResponse where
  StatusCode : Int
  Body : Except String String
  deriving Repr

/-- Method `Client.handleResponse`. The target `result` is `none` for a nil
interface and otherwise the value pointed to, of a type `α` whose decoder
`unmarshal body v` stands for `json.Unmarshal(body, result)` on a target holding
`v`: the error it returns, and the value the target holds afterwards. The
function returns the error of `handleResponse` and the target afterwards. -/
def Client.handleResponse {α : Type} (_c : Client) (unmarshal : String → α → Option String × α)
    (resp : HTTPResponse) (result : Option α) : Option String × Option α :=
  match resp.Body with
  | .error err => (some (Sprintf "reading response body: %w" [.str err]), result)
  | .ok body =>
    if resp.StatusCode ≥ 400 then
      match unmarshalErrorResponse body with
      | none =>
        (some (Sprintf "API error (status %d): %s" [.int resp.StatusCode, .str body]), result)
      | some errorResp =>
        (some (Sprintf "API error: %s (code: %d)"
          [.str errorResp.Error.Message, .int errorResp.Error.Code]), result)
    else
      match result with
      | some target =>
        match unmarshal body target with
        | (some err, target') =>
          (some (Sprintf "unmarshaling response: %w" [.str err]), some target')
        | (none, target') => (none, some target')
      | none => (none, none)

/-- The part of `*http.Request` the routers read: the method, `URL.Path`,
`URL.Query()`, the header, and the route variables `mux.Vars` yields. -/
structure Request where
  Method : String
  Path : String
  Query : Values
  Header : Values
  Vars : List (String × String) := []
  deriving Repr

/-- The state of an `http.ResponseWriter`: header, written status (0 while none
was written) and the JSON document written as body, if any. -/
structure ResponseWriter where
  Header : Values := ⟨[]⟩
  StatusCode : Int := 0
  Body : Option Json := none
  deriving Repr

/-- The process environment read by `os.Getenv`. -/
abbrev Env := String → String

/-! ## Resource Methods as seen by the routers -/

/-- An invocation of a Resource Method: the receiving client and the arguments. -/
inductive Call where
  | GetPage (c : Client) (pageID : String) (fields : List String)
  | GetPages (c : Client)
  | GetPosts (c : Client) (pageID : String) (limit : Int) (fields : List String)
  | GetPostComments (c : Client) (postID : String) (limit : Int) (order : String)
      (fields : List String)
  | GetComment (c : Client) (commentID : String) (fields : List String)
  | GetCommentReplies (c : Client) (commentID : String) (limit : Int) (fields : List String)
  deriving DecidableEq, Repr

/-- What the Resource Methods answer: an error, or the value the handler
serialises, given as the JSON document it encodes to. -/
abbrev API := Call → Except String Json

/-- The result of running a handler: the response written and the Resource
Methods invoked on the way, in order. -/
structure Outcome where
  w : ResponseWriter
  calls : List Call
  deriving Repr

/-- The `limit` parsing shared by the handlers: default 10, replaced by a
parameter that `strconv.Atoi` accepts and that is positive. -/
def parseLimit (req : Request) : Int :=
  let limitParam := req.Query.Get "limit"
  if limitParam != "" then
    match Atoi limitParam with
    | some l => if l > 0 then l else 10
    | none => 10
  else 10

/-- The `fields` parsing shared by the handlers: `nil` unless the parameter is
non-empty, then its comma-separated parts. -/
def parseFields (req : Request) : List String :=
  let fieldsParam := req.Query.Get "fields"
  if fieldsParam != "" then SplitComma fieldsParam else []

/-- The `order` parsing of the post-comments handlers. -/
def parseOrder (req : Request) : String :=
  let order := req.Query.Get "order"
  if order == "" then "reverse_chronological" else order

/-- Methods `Router.writeJSON` and `SimpleRouter.writeJSON` (same body); the
encoder's failure branch is not reachable for the documents written here. -/
def writeJSON (w : ResponseWriter) (statusCode : Int) (data : Json) : ResponseWriter :=
  { Header := w.Header.Set "Content-Type" "application/json"
    StatusCode := statusCode
    Body := some data }

/-- Methods `Router.writeError` and `SimpleRouter.writeError` (same body). -/
def writeError (w : ResponseWriter) (statusCode : Int) (message : String) : ResponseWriter :=
  writeJSON w statusCode (.obj [("error", .str message), ("code", .num statusCode)])

/-- Tail of every handler: invoke the Resource Method, answer 500 with the
prefixed error or 200 with the (possibly wrapped) value. -/
def finish (api : API) (w : ResponseWriter) (call : Call) (errFormat : String)
    (wrap : Json → Json) : Outcome :=
  match api call with
  | .error err => ⟨writeError w 500 (Sprintf errFormat [.str err]), [call]⟩
  | .ok v => ⟨writeJSON w 200 (wrap v), [call]⟩

/-- The 401 answer of every handler. -/
def unauthorized (w : ResponseWriter) (err : String) : Outcome :=
  ⟨writeError w 401 (Sprintf "Authentication error: %v" [.str err]), []⟩

/-! ## `router.go` -/

/-- Struct `Router`. -/
structure Router where
  defaultClient : Option Client
  deriving DecidableEq, Repr

/-- Function `NewRouter`. -/
def NewRouter (defaultAccessToken : String) : Router :=
  { defaultClient := if defaultAccessToken != "" then some (NewClient defaultAccessToken) else none }

/-- Method `Router.getClientFromRequest`. -/
def Router.getClientFromRequest (r : Router) (req : Request) : Except String Client :=
  let accessToken := req.Query.Get "access_token"
  let accessToken :=
    if accessToken == "" then
      let authHeader := req.Header.Get "Authorization"
      if authHeader != "" && HasPrefix authHeader "Bearer " then TrimPrefix authHeader "Bearer "
      else accessToken
    else accessToken
  if accessToken == "" then
    match r.defaultClient with
    | none => .error "no access token provided and no default token configured"
    | some c => .ok c
  else .ok (NewClient accessToken)

/-- The map read `vars[name]` on `mux.Vars(req)`: `""` when absent. -/
def Request.var (req : Request) (name : String) : String :=
  (req.Vars.lookup name).getD ""

/-- Method `Router.getPage`. -/
def Router.getPage (r : Router) (api : API) (w : ResponseWriter) (req : Request) : Outcome :=
  let pageID := req.var "pageId"
  if pageID == "" then ⟨writeError w 400 "Page ID is required", []⟩
  else
    match r.getClientFromRequest req with
    | .error err => unauthorized w err
    | .ok client =>
      finish api w (.GetPage client pageID (parseFields req)) "Error getting page: %v" id

/-- Method `Router.getPages`. -/
def Router.getPages (r : Router) (api : API) (w : ResponseWriter) (req : Request) : Outcome :=
  match r.getClientFromRequest req with
  | .error err => unauthorized w err
  | .ok client =>
    finish api w (.GetPages client) "Error getting pages: %v" (fun pages => .obj [("data", pages)])

/-- Method `Router.getPosts`. -/
def Router.getPosts (r : Router) (api : API) (w : ResponseWriter) (req : Request) : Outcome :=
  let pageID := req.var "pageId"
  if pageID == "" then ⟨writeError w 400 "Page ID is required", []⟩
  else
    match r.getClientFromRequest req with
    | .error err => unauthorized w err
    | .ok client =>
      finish api w (.GetPosts client pageID (parseLimit req) (parseFields req))
        "Error getting posts: %v" id

/-- Method `Router.getPostComments`. -/
def Router.getPostComments (r : Router) (api : API) (w : ResponseWriter) (req : Request) :
    Outcome :=
  let postID := req.var "postId"
  if postID == "" then ⟨writeError w 400 "Post ID is required", []⟩
  else
    match r.getClientFromRequest req with
    | .error err => unauthorized w err
    | .ok client =>
      finish api w
        (.GetPostComments client postID (parseLimit req) (parseOrder req) (parseFields req))
        "Error getting comments: %v" id

/-- Method `Router.getComment`. -/
def Router.getComment (r : Router) (api : API) (w : ResponseWriter) (req : Request) : Outcome :=
  let commentID := req.var "commentId"
  if commentID == "" then ⟨writeError w 400 "Comment ID is required", []⟩
  else
    match r.getClientFromRequest req with
    | .error err => unauthorized w err
    | .ok client =>
      finish api w (.GetComment client commentID (parseFields req)) "Error getting comment: %v" id

/-- Method `Router.getCommentReplies`. -/
def Router.getCommentReplies (r : Router) (api : API) (w : ResponseWriter) (req : Request) :
    Outcome :=
  let commentID := req.var "commentId"
  if commentID == "" then ⟨writeError w 400 "Comment ID is required", []⟩
  else
    match r.getClientFromRequest req with
    | .error err => unauthorized w err
    | .ok client =>
      finish api w (.GetCommentReplies client commentID (parseLimit req) (parseFields req))
        "Error getting comment replies: %v" id

/-- Method `Router.healthCheck`. -/
def Router.healthCheck (r : Router) (w : ResponseWriter) : Outcome :=
  let version := match r.defaultClient with
    | some c => c.APIVersion
    | none => "v23.0"
  ⟨writeJSON w 200 (.obj [("status", .str "ok"), ("service", .str "facebook-pages-api"),
    ("version", .str version)]), []⟩

/-! ## `simple_router.go` -/

/-- Struct `SimpleRouter`. -/
structure SimpleRouter where
  defaultClient : Option Client
  deriving DecidableEq, Repr

/-- Function `NewSimpleRouter`. -/
def NewSimpleRouter (accessToken : String) : SimpleRouter :=
  { defaultClient := if accessToken != "" then some (NewClient accessToken) else none }

/-- Method `SimpleRouter.getClientFromRequest`; `env` is the process environment
at the time of the request. -/
def SimpleRouter.getClientFromRequest (r : SimpleRouter) (env : Env) (req : Request) :
    Except String Client :=
  let accessToken := req.Query.Get "access_token"
  let accessToken :=
    if accessToken == "" then
      let authHeader := req.Header.Get "Authorization"
      if HasPrefix authHeader "Bearer " then TrimPrefix authHeader "Bearer " else accessToken
    else accessToken
  if accessToken != "" then .ok (NewClient accessToken)
  else
    match r.defaultClient with
    | some c => .ok c
    | none =>
      let envToken := env "PAGE_ACCESS_TOKEN"
      if envToken != "" then .ok (NewClient envToken)
      else .error ("no access token provided - use access_token query parameter, " ++
        "Authorization header, or PAGE_ACCESS_TOKEN environment variable")

/-- Method `SimpleRouter.extractPathParam`. -/
def extractPathParam (path pre suffix : String) : String :=
  if !HasPrefix path pre then ""
  else
    let param := String.mk (path.data.drop pre.data.length)
    if suffix != "" && HasSuffix param suffix then
      String.mk (param.data.take (param.data.length - suffix.data.length))
    else param

/-- Method `SimpleRouter.getPage`. -/
def SimpleRouter.getPage (r : SimpleRouter) (env : Env) (api : API) (w : ResponseWriter)
    (req : Request) : Outcome :=
  if req.Method != "GET" then ⟨writeError w 405 "Method not allowed", []⟩
  else
    let pageID := extractPathParam req.Path "/api/pages/" ""
    if pageID == "" then ⟨writeError w 400 "Page ID is required", []⟩
    else
      match r.getClientFromRequest env req with
      | .error err => unauthorized w err
      | .ok client =>
        finish api w (.GetPage client pageID (parseFields req)) "Error getting page: %v" id

/-- Method `SimpleRouter.getPages`. -/
def SimpleRouter.getPages (r : SimpleRouter) (env : Env) (api : API) (w : ResponseWriter)
    (req : Request) : Outcome :=
  if req.Method != "GET" then ⟨writeError w 405 "Method not allowed", []⟩
  else
    match r.getClientFromRequest env req with
    | .error err => unauthorized w err
    | .ok client =>
      finish api w (.GetPages client) "Error getting pages: %v"
        (fun pages => .obj [("data", pages)])

/-- Method `SimpleRouter.getPosts`. -/
def SimpleRouter.getPosts (r : SimpleRouter) (env : Env) (api : API) (w : ResponseWriter)
    (req : Request) : Outcome :=
  if req.Method != "GET" then ⟨writeError w 405 "Method not allowed", []⟩
  else
    let pageID := extractPathParam req.Path "/api/pages/" "/posts"
    if pageID == "" then ⟨writeError w 400 "Page ID is required", []⟩
    else
      match r.getClientFromRequest env req with
      | .error err => unauthorized w err
      | .ok client =>
        finish api w (.GetPosts client pageID (parseLimit req) (parseFields req))
          "Error getting posts: %v" id

/-- Method `SimpleRouter.getPostComments`. -/
def SimpleRouter.getPostComments (r : SimpleRouter) (env : Env) (api : API)
    (w : ResponseWriter) (req : Request) : Outcome :=
  if req.Method != "GET" then ⟨writeError w 405 "Method not allowed", []⟩
  else
    let postID := extractPathParam req.Path "/api/posts/" "/comments"
    if postID == "" then ⟨writeError w 400 "Post ID is required", []⟩
    else
      match r.getClientFromRequest env req with
      | .error err => unauthorized w err
      | .ok client =>
        finish api w
          (.GetPostComments client postID (parseLimit req) (parseOrder req) (parseFields req))
          "Error getting comments: %v" id

/-- Method `SimpleRouter.getComment`. -/
def SimpleRouter.getComment (r : SimpleRouter) (env : Env) (api : API) (w : ResponseWriter)
    (req : Request) : Outcome :=
  if req.Method != "GET" then ⟨writeError w 405 "Method not allowed", []⟩
  else
    let commentID := extractPathParam req.Path "/api/comments/" ""
    if commentID == "" || Contains commentID "/" then
      ⟨writeError w 400 "Comment ID is required", []⟩
    else
      match r.getClientFromRequest env req with
      | .error err => unauthorized w err
      | .ok client =>
        finish api w (.GetComment client commentID (parseFields req))
          "Error getting comment: %v" id

/-- Method `SimpleRouter.getCommentReplies`. -/
def SimpleRouter.getCommentReplies (r : SimpleRouter) (env : Env) (api : API)
    (w : ResponseWriter) (req : Request) : Outcome :=
  if req.Method != "GET" then ⟨writeError w 405 "Method not allowed", []⟩
  else
    let commentID := extractPathParam req.Path "/api/comments/" "/replies"
    if commentID == "" then ⟨writeError w 400 "Comment ID is required", []⟩
    else
      match r.getClientFromRequest env req with
      | .error err => unauthorized w err
      | .ok client =>
        finish api w (.GetCommentReplies client commentID (parseLimit req) (parseFields req))
          "Error getting comment replies: %v" id

/-- Method `SimpleRouter.healthCheck`. -/
def SimpleRouter.healthCheck (r : SimpleRouter) (w : ResponseWriter) (req : Request) :
    Outcome :=
  if req.Method != "GET" then ⟨writeError w 405 "Method not allowed", []⟩
  else
    let version := match r.defaultClient with
      | some c => c.APIVersion
      | none => "v23.0"
    ⟨writeJSON w 200 (.obj [("status", .str "ok"), ("service", .str "facebook-pages-api"),
      ("version", .str version)]), []⟩

/-- The handlers `SimpleRouter.ServeHTTP` chooses between. -/
inductive Route where
  | healthCheck
  | getPosts
  | getPage
  | getPages
  | getPostComments
  | getCommentReplies
  | getComment
  | notFound
  deriving DecidableEq, Repr

/-- The `switch` of `SimpleRouter.ServeHTTP`: the first case that holds, in the
order of the source. -/
def route (path : String) : Route :=
  if path == "/health" then .healthCheck
  else if HasPrefix path "/api/pages/" && HasSuffix path "/posts" then .getPosts
  else if HasPrefix path "/api/pages/" && !Contains (String.mk (path.data.drop 11)) "/" then
    .getPage
  else if path == "/api/pages" then .getPages
  else if HasPrefix path "/api/posts/" && HasSuffix path "/comments" then .getPostComments
  else if HasPrefix path "/api/comments/" && HasSuffix path "/replies" then .getCommentReplies
  else if HasPrefix path "/api/comments/" then .getComment
  else .notFound

/-- The three `w.Header().Set` calls that open `SimpleRouter.ServeHTTP`. -/
def enableCORS (w : ResponseWriter) : ResponseWriter :=
  let w := { w with Header := w.Header.Set "Access-Control-Allow-Origin" "*" }
  let w := { w with Header := w.Header.Set "Access-Control-Allow-Methods" "GET, POST, OPTIONS" }
  { w with Header := w.Header.Set "Access-Control-Allow-Headers" "Content-Type" }

/-- Method `SimpleRouter.ServeHTTP`, started on a fresh response writer. -/
def SimpleRouter.ServeHTTP (r : SimpleRouter) (env : Env) (api : API) (req : Request) :
    Outcome :=
  let w := enableCORS {}
  if req.Method == "OPTIONS" then ⟨{ w with StatusCode := 200 }, []⟩
  else
    match route req.Path with
    | .healthCheck => r.healthCheck w req
    | .getPosts => r.getPosts env api w req
    | .getPage => r.getPage env api w req
    | .getPages => r.getPages env api w req
    | .getPostComments => r.getPostComments env api w req
    | .getCommentReplies => r.getCommentReplies env api w req
    | .getComment => r.getComment env api w req
    | .notFound => ⟨writeError w 404 "Endpoint not found", []⟩

/-! ## `client.go`: `makeRequest` -/

/-- The `*http.Request` that `makeRequest` builds. `RawQuery` is `none` while the
query is the one `http.NewRequest` parsed out of the URL, and `some params` once
`req.URL.RawQuery = params.Encode()` ran: the parameters are kept as the
`url.Values` that were encoded. `Body` is `none` for a nil reader. -/
structure OutRequest where
  Method : String
  URL : String
  RawQuery : Option Values := none
  Header : Values := ⟨[]⟩
  Body : Option String := none
  deriving DecidableEq, Repr

/-- The two library calls of `makeRequest` that depend on the outside world:
`NewRequestErr method url` is the error of `http.NewRequest`, `none` when the
request is created, and `Do` is `c.HTTPClient.Do`. -/
structure Transport where
  NewRequestErr : String → String → Option String
  Do : OutRequest → Except String HTTPResponse

/-- Method `Client.makeRequest`: what it returns, and the requests it handed to
the HTTP client. `params` is `none` for a nil map. -/
def Client.makeRequest (c : Client) (t : Transport) (method endpoint : String)
    (params : Option Values) (body : Option String) :
    Except String HTTPResponse × List OutRequest :=
  let apiURL := c.buildURL endpoint
  match t.NewRequestErr method apiURL with
  | some err => (.error (Sprintf "creating request: %w" [.str err]), [])
  | none =>
    let req : OutRequest := { Method := method, URL := apiURL, Body := body }
    let params : Values := match params with
      | none => ⟨[]⟩
      | some p => p
    let params := params.Set "access_token" c.AccessToken
    let req := if params.len > 0 then { req with RawQuery := some params } else req
    let req :=
      if method == "POST" && body.isSome then
        { req with Header := req.Header.Set "Content-Type" "application/json" }
      else req
    match t.Do req with
    | .error err => (.error (Sprintf "making request: %w" [.str err]), [req])
    | .ok resp => (.ok resp, [req])

/-! ## `time`: the calendar -/

/-- A `time.Time`: the instant as seconds since January 1, year 1, 00:00:00 UTC
(Go's internal `sec()`) plus nanoseconds, and the UTC offset in seconds (east
positive) that the location of the value has at that instant. -/
structure Time where
  sec : Int
  nsec : Int
  offset : Int
  deriving DecidableEq, Repr

/-- The zero value `time.Time{}`: January 1, year 1, 00:00:00 UTC. -/
def Time.zero : Time := ⟨0, 0, 0⟩

/-- Go `Time.IsZero`. -/
def Time.IsZero (t : Time) : Bool := t.sec == 0 && t.nsec == 0

/-- Go `Time.Equal`: the two values denote the same instant. -/
def Time.Equal (t u : Time) : Bool := t.sec == u.sec && t.nsec == u.nsec

/-- Go `isLeap`. -/
def isLeap (year : Int) : Bool := year % 4 == 0 && (year % 100 != 0 || year % 400 == 0)

/-- Go table `daysBefore`: days in a non-leap year before month `m + 1`. -/
def daysBefore (m : Int) : Int :=
  if m = 0 then 0 else if m = 1 then 31 else if m = 2 then 59 else if m = 3 then 90
  else if m = 4 then 120 else if m = 5 then 151 else if m = 6 then 181
  else if m = 7 then 212 else if m = 8 then 243 else if m = 9 then 273
  else if m = 10 then 304 else if m = 11 then 334 else 365

/-- Go `daysIn`. -/
def daysIn (month year : Int) : Int :=
  if month = 2 ∧ isLeap year then 29 else daysBefore month - daysBefore (month - 1)

/-- Go `daysSinceEpoch`, counted from January 1 of year 1. Go counts from year
-292277022399, a whole number of 400-year cycles earlier, to stay in unsigned
arithmetic; floor division on `Int` takes its place. -/
def daysSinceEpoch (year : Int) : Int :=
  let y := year - 1
  let n := y / 400
  let y := y - 400 * n
  let d := 146097 * n
  let n := y / 100
  let y := y - 100 * n
  let d := d + 36524 * n
  let n := y / 4
  let y := y - 4 * n
  let d := d + 1461 * n
  d + 365 * y

/-- Day of the year, from 0, of a calendar date in a leap or non-leap year (the
middle of Go `Date`). -/
def yearDay (leap : Bool) (month day : Int) : Int :=
  daysBefore (month - 1) + (if leap = true ∧ month ≥ 3 then 1 else 0) + (day - 1)

/-- Go `Date(year, month, day, hour, min, sec, nsec, UTC)` for fields that are in
range, which is how `Parse` calls it; the normalisation of overflowing fields is
not modelled. -/
def Date (year month day hour min sec nsec : Int) : Time :=
  { sec := (daysSinceEpoch year + yearDay (isLeap year) month day) * 86400
      + hour * 3600 + min * 60 + sec
    nsec := nsec
    offset := 0 }

/-- The year and the day of that year of a day count (first half of Go `absDate`). -/
def yearOfDays (d : Int) : Int × Int :=
  let n := d / 146097
  let y := 400 * n
  let d := d - 146097 * n
  let n := d / 36524
  let n := n - n / 4
  let y := y + 100 * n
  let d := d - 36524 * n
  let n := d / 1461
  let y := y + 4 * n
  let d := d - 1461 * n
  let n := d / 365
  let n := n - n / 4
  let y := y + n
  let d := d - 365 * n
  (y + 1, d)

/-- Month and day of the month of a day of a leap or non-leap year (second half of
Go `absDate`). -/
def monthDay (leap : Bool) (yday : Int) : Int × Int :=
  if leap = true ∧ yday = 31 + 29 - 1 then (2, 29)
  else
    let day := if leap = true ∧ yday > 31 + 29 - 1 then yday - 1 else yday
    let month := day / 31
    let e := daysBefore (month + 1)
    if day ≥ e then (month + 2, day - e + 1)
    else (month + 1, day - daysBefore month + 1)

/-- Go `absDate` on a count of seconds in the zone of the time: year, month, day. -/
def absDate (abs : Int) : Int × Int × Int :=
  let (year, yday) := yearOfDays (abs / 86400)
  let (month, day) := monthDay (isLeap year) yday
  (year, month, day)

/-- Go `absClock`: hour, minute, second. -/
def absClock (abs : Int) : Int × Int × Int :=
  let s := abs % 86400
  (s / 3600, s % 3600 / 60, s % 60)

/-! ## `time`: `Format` and `Parse` for the layout `2006-01-02T15:04:05-0700` -/

/-- The decimal digit `u`, for `u < 10` (Go `utod`). -/
def utod (u : Nat) : Char := Char.ofNat ('0'.toNat + u)

/-- Go `appendInt`: `x` in decimal, zero-padded to `width` digits, after a minus
sign when negative. -/
def appendInt (x : Int) (width : Nat) : List Char :=
  let u := x.natAbs
  (if x < 0 then ['-'] else []) ++
    (if width = 2 ∧ u < 100 then [utod (u / 10), utod (u % 10)]
     else if width = 4 ∧ u < 10000 then
       [utod (u / 1000), utod (u / 100 % 10), utod (u / 10 % 10), utod (u % 10)]
     else List.replicate (width - (Nat.toDigits 10 u).length) '0' ++ Nat.toDigits 10 u)

/-- The text of the layout `2006-01-02T15:04:05-0700` for the given field values:
what `Format` appends for each element of the layout, in order. -/
def renderStamp (year month day hour min sec : Int) (sign : Char) (zh zm : Int) : List Char :=
  appendInt year 4 ++ ['-'] ++ appendInt month 2 ++ ['-'] ++ appendInt day 2
    ++ ['T'] ++ appendInt hour 2 ++ [':'] ++ appendInt min 2 ++ [':'] ++ appendInt sec 2
    ++ [sign] ++ appendInt zh 2 ++ appendInt zm 2

/-- Go `Time.Format("2006-01-02T15:04:05-0700")`. The zone is the offset in
minutes, truncated toward zero as Go's integer division does. -/
def Time.Format (t : Time) : String :=
  let abs := t.sec + t.offset
  let (year, month, day) := absDate abs
  let (hour, min, sec) := absClock abs
  let zone := t.offset.tdiv 60
  let sign := if zone < 0 then '-' else '+'
  let zone := if zone < 0 then -zone else zone
  String.mk (renderStamp year month day hour min sec sign (zone / 60) (zone % 60))

/-- Why `time.Parse` rejected its input. The text of Go's error message is not
modelled. -/
inductive ParseError where
  | bad
  | outOfRange (what : String)
  | extraText
  deriving DecidableEq, Repr

/-- Go `getnum`: a two-digit number, or a one-digit one unless `fixed`. -/
def getnum (s : List Char) (fixed : Bool) : Except ParseError (Int × List Char) :=
  match s with
  | [] => .error .bad
  | [a] => if a.isDigit && !fixed then .ok (digitVal a, []) else .error .bad
  | a :: b :: rest =>
    if !a.isDigit then .error .bad
    else if !b.isDigit then
      (if fixed then .error .bad else .ok (digitVal a, b :: rest))
    else .ok (digitVal a * 10 + digitVal b, rest)

/-- The four-digit year (`stdLongYear`). -/
def getYear (s : List Char) : Except ParseError (Int × List Char) :=
  match s with
  | a :: b :: c :: d :: rest =>
    if a.isDigit && b.isDigit && c.isDigit && d.isDigit then .ok (digitsVal [a, b, c, d], rest)
    else .error .bad
  | _ => .error .bad

/-- Go `skip` for a one-character literal of the layout. -/
def skipChar (c : Char) (s : List Char) : Except ParseError (List Char) :=
  match s with
  | x :: rest => if x = c then .ok rest else .error .bad
  | [] => .error .bad

/-- The fractional second that `Parse` accepts after the seconds although the
layout has none: a period or comma and digits, of which nine are kept. -/
def getFraction (s : List Char) : Int × List Char :=
  match s with
  | c :: d :: rest =>
    if (c = '.' ∨ c = ',') ∧ d.isDigit then
      let ds := (d :: rest).takeWhile Char.isDigit
      let used := ds.take 9
      ((digitsVal used * 10 ^ (9 - used.length) : Nat), (d :: rest).drop ds.length)
    else (0, s)
  | _ => (0, s)

/-- The numeric zone `-0700` (`stdNumTZ`): the offset in seconds. As in Go 1.20 and
later, the hours may be up to 24 and the minutes up to 60, and no more. -/
def getZone (s : List Char) : Except ParseError (Int × List Char) :=
  match s with
  | sg :: h1 :: h2 :: m1 :: m2 :: rest =>
    match getnum [h1, h2] true with
    | .error e => .error e
    | .ok (hr, _) =>
      match getnum [m1, m2] true with
      | .error e => .error e
      | .ok (mm, _) =>
        if mm > 60 then .error (.outOfRange "time zone offset minute")
        else if hr > 24 then .error (.outOfRange "time zone offset hour")
        else if sg = '+' then .ok ((hr * 60 + mm) * 60, rest)
        else if sg = '-' then .ok (-((hr * 60 + mm) * 60), rest)
        else .error .bad
  | _ => .error .bad

/-- Go `time.Parse("2006-01-02T15:04:05-0700", value)`. -/
def Parse (value : String) : Except ParseError Time := do
  let (year, v) ← getYear value.data
  let v ← skipChar '-' v
  let (month, v) ← getnum v true
  if month ≤ 0 ∨ 12 < month then throw (.outOfRange "month")
  let v ← skipChar '-' v
  let (day, v) ← getnum v true
  let v ← skipChar 'T' v
  let (hour, v) ← getnum v false
  if 24 ≤ hour then throw (.outOfRange "hour")
  let v ← skipChar ':' v
  let (min, v) ← getnum v true
  if 60 ≤ min then throw (.outOfRange "minute")
  let v ← skipChar ':' v
  let (sec, v) ← getnum v true
  if 60 ≤ sec then throw (.outOfRange "second")
  let (nsec, v) := getFraction v
  let (zoneOffset, v) ← getZone v
  if !v.isEmpty then throw .extraText
  if day < 1 ∨ day > daysIn month year then throw (.outOfRange "day")
  let t := Date year month day hour min sec nsec
  return { t with sec := t.sec - zoneOffset, offset := zoneOffset }

/-! ## `types.go`: `FacebookTime` -/

/-- Struct `FacebookTime`. -/
structure FacebookTime where
  Time : Time
  deriving DecidableEq, Repr

/-- Go `strings.Trim(s, "\"")`: `s` without leading and trailing double quotes. -/
def TrimQuotes (s : String) : String :=
  String.mk ((s.data.dropWhile (· = '"')).rdropWhile (· = '"'))

/-- Method `FacebookTime.UnmarshalJSON`: the error returned (`none` for nil) and
the receiver afterwards. -/
def FacebookTime.UnmarshalJSON (ft : FacebookTime) (data : String) :
    Option ParseError × FacebookTime :=
  let timeStr := TrimQuotes data
  if timeStr == "null" || timeStr == "" then (none, ft)
  else
    match Parse timeStr with
    | .error err => (some err, ft)
    | .ok parsedTime => (none, { ft with Time := parsedTime })

/-- Method `FacebookTime.MarshalJSON`: the bytes returned; its error is always nil. -/
def FacebookTime.MarshalJSON (ft : FacebookTime) : String :=
  if ft.Time.IsZero then "null" else "\"" ++ ft.Time.Format ++ "\""

/-- The time that `Parse` builds from in-range fields and a zone of `zone` minutes:
`Date` in UTC, moved back by the offset, in a location with that offset. -/
def stampTime (year month day hour min sec zone : Int) : Time :=
  { sec := (Date year month day hour min sec 0).sec - zone * 60, nsec := 0, offset := zone * 60 }

/-- The vendor's textual format `YYYY-MM-DDTHH:MM:SS±HHMM`: twenty-four characters,
digits in the numeric fields and the separators of the layout between them. -/
def isVendorFormat (s : String) : Bool :=
  match s.data with
  | [y1, y2, y3, y4, p1, m1, m2, p2, d1, d2, pt, h1, h2, c1, n1, n2, c2, s1, s2, sg,
      z1, z2, z3, z4] =>
    y1.isDigit && y2.isDigit && y3.isDigit && y4.isDigit && p1 == '-'
      && m1.isDigit && m2.isDigit && p2 == '-' && d1.isDigit && d2.isDigit && pt == 'T'
      && h1.isDigit && h2.isDigit && c1 == ':' && n1.isDigit && n2.isDigit && c2 == ':'
      && s1.isDigit && s2.isDigit && (sg == '+' || sg == '-')
      && z1.isDigit && z2.isDigit && z3.isDigit && z4.isDigit
  | _ => false

/-- The outcome is the 401 answer whose error text is `Authentication error: `
followed by `msg`, reached without invoking any Resource Method. -/
def Outcome.isUnauthorized (o : Outcome) (msg : String) : Prop :=
  o.w.StatusCode = 401 ∧
  o.w.Body = some (.obj [("error", .str ("Authentication error: " ++ msg)), ("code", .num 401)]) ∧
  o.calls = []

/-! ## The route table of the specification -/

/-- A path value of the route table: one non-empty segment without `/`. -/
def isPathValue (x : String) : Bool := x != "" && !Contains x "/"

/-- Whether `path` is `pre`, then one path value, then `suf`: a pattern
`pre{value}suf` of the route table. -/
def matchesPattern (path pre suf : String) : Bool :=
  HasPrefix path pre &&
    (suf.data.isSuffixOf (path.data.drop pre.data.length) &&
      isPathValue (String.mk ((path.data.drop pre.data.length).take
        ((path.data.drop pre.data.length).length - suf.data.length))))

/-- Whether `path` matches one of the seven patterns of the route table. -/
def matchesRouteTable (path : String) : Bool :=
  matchesPattern path "/api/pages/" "" || path == "/api/pages"
    || matchesPattern path "/api/pages/" "/posts"
    || matchesPattern path "/api/posts/" "/comments"
    || matchesPattern path "/api/comments/" ""
    || matchesPattern path "/api/comments/" "/replies"
    || path == "/health"

/-- The response is the error envelope `error` → `msg`, `code` → `status`, sent
with HTTP status `status`. The members are listed in the order of the map literal
of `writeError`; a JSON object does not order them. -/
def ResponseWriter.isErrorEnvelope (w : ResponseWriter) (status : Int) (msg : String) : Prop :=
  w.StatusCode = status ∧ w.Body = some (.obj [("error", .str msg), ("code", .num status)])

/-! ## `pages.go`: Resource Methods -/

/-- The call `json.Unmarshal(body, target)` for a target of type `α` holding `v`:
the error returned and the value the target holds afterwards. -/
abbrev Decoder (α : Type) := String → α → Option String × α

/-- The loop `for i, field := range fields` that builds `fieldsStr`: a comma before
every field but the first. The state is the index and the string so far. -/
def joinFields (fields : List String) : String :=
  (fields.foldl
    (fun (st : Nat × String) field =>
      (st.1 + 1, (if st.1 > 0 then st.2 ++ "," else st.2) ++ field))
    (0, "")).2

/-- The default field list in the body of `GetPage`. -/
def GetPage.defaultFields : List String :=
  ["id", "name", "category", "about", "description",
   "website", "phone", "username", "link",
   "fan_count", "followers_count",
   "talking_about_count", "picture", "cover",
   "location", "hours", "is_published", "is_verified",
   "can_post", "access_token"]

/-- The default field list in the body of `GetPosts`. -/
def GetPosts.defaultFields : List String :=
  ["id", "message", "created_time"]

/-- The default field list in the body of `GetPostComments`. -/
def GetPostComments.defaultFields : List String :=
  ["id", "message", "created_time", "from\x7bid,name,picture\x7d",
   "like_count", "comment_count", "attachment"]

/-- The default field list in the body of `GetCommentReplies`. -/
def GetCommentReplies.defaultFields : List String :=
  ["id", "message", "created_time", "from\x7bid,name,picture\x7d",
   "like_count", "comment_count", "attachment"]

/-- The default field list in the body of `GetComment`. -/
def GetComment.defaultFields : List String :=
  ["id", "message", "created_time", "from\x7bid,name,picture\x7d",
   "like_count", "comment_count", "attachment", "parent"]

/-- The two steps every Resource Method applies to `fields`: the default list when
none is given, then `params.Set("fields", ...)` of the joined list when it is not
empty. -/
def setFields (params : Values) (fields defaults : List String) : Values :=
  let fields := if fields.length == 0 then defaults else fields
  if fields.length > 0 then params.Set "fields" (joinFields fields) else params

/-- The step `if limit > 0 { params.Set("limit", fmt.Sprintf("%d", limit)) }`. -/
def setLimit (params : Values) (limit : Int) : Values :=
  if limit > 0 then params.Set "limit" (Sprintf "%d" [.int limit]) else params

/-- The tail of every GET Resource Method: `makeRequest`, whose error is wrapped
with `errFormat`, then `handleResponse` into a zero value of the result type, whose
error is returned as it is. The second component lists the requests handed to the
HTTP client. -/
def Client.fetch {α : Type} (c : Client) (t : Transport) (dec : Decoder α) (zero : α)
    (endpoint : String) (params : Values) (errFormat : String) :
    Except String α × List OutRequest :=
  match c.makeRequest t "GET" endpoint (some params) none with
  | (.error err, sent) => (.error (Sprintf errFormat [.str err]), sent)
  | (.ok resp, sent) =>
    match c.handleResponse dec resp (some zero) with
    | (some err, _) => (.error err, sent)
    | (none, v) => (.ok (v.getD zero), sent)

/-- Method `Client.GetPage`, for a `Page` type `α` with its decoder and zero value. -/
def Client.GetPage {α : Type} (c : Client) (t : Transport) (dec : Decoder α) (zero : α)
    (pageID : String) (fields : List String) : Except String α × List OutRequest :=
  let params : Values := ⟨[]⟩
  let params := setFields params fields GetPage.defaultFields
  c.fetch t dec zero pageID params "getting page: %w"

/-- Method `Client.GetPages`; `ω` is the anonymous struct with the member `Data`,
read by `data`. -/
def Client.GetPages {ω α : Type} (c : Client) (t : Transport) (dec : Decoder ω) (zero : ω)
    (data : ω → α) : Except String α × List OutRequest :=
  let params : Values := ⟨[]⟩
  let params := params.Set "fields" "id,name,category,access_token,can_post"
  match c.fetch t dec zero "me/accounts" params
      "getting pages (requires user access token): %w" with
  | (.error err, sent) => (.error err, sent)
  | (.ok pagesResp, sent) => (.ok (data pagesResp), sent)

/-- Method `Client.GetPosts`. -/
def Client.GetPosts {α : Type} (c : Client) (t : Transport) (dec : Decoder α) (zero : α)
    (pageID : String) (limit : Int) (fields : List String) :
    Except String α × List OutRequest :=
  let params : Values := ⟨[]⟩
  let params := setLimit params limit
  let params := setFields params fields GetPosts.defaultFields
  let endpoint := Sprintf "%s/posts" [.str pageID]
  c.fetch t dec zero endpoint params "getting posts: %w"

/-- Method `Client.GetPostComments`. -/
def Client.GetPostComments {α : Type} (c : Client) (t : Transport) (dec : Decoder α)
    (zero : α) (postID : String) (limit : Int) (order : String) (fields : List String) :
    Except String α × List OutRequest :=
  let params : Values := ⟨[]⟩
  let params := setLimit params limit
  let params :=
    if order != "" then params.Set "order" order
    else params.Set "order" "reverse_chronological"
  let params := params.Set "summary" "true"
  let params := setFields params fields GetPostComments.defaultFields
  let endpoint := Sprintf "%s/comments" [.str postID]
  c.fetch t dec zero endpoint params "getting comments: %w"

/-- Method `Client.GetCommentReplies`. -/
def Client.GetCommentReplies {α : Type} (c : Client) (t : Transport) (dec : Decoder α)
    (zero : α) (commentID : String) (limit : Int) (fields : List String) :
    Except String α × List OutRequest :=
  let params : Values := ⟨[]⟩
  let params := setLimit params limit
  let params := setFields params fields GetCommentReplies.defaultFields
  let endpoint := Sprintf "%s/comments" [.str commentID]
  c.fetch t dec zero endpoint params "getting comment replies: %w"

/-- Method `Client.GetComment`. -/
def Client.GetComment {α : Type} (c : Client) (t : Transport) (dec : Decoder α) (zero : α)
    (commentID : String) (fields : List String) : Except String α × List OutRequest :=
  let params : Values := ⟨[]⟩
  let params := setFields params fields GetComment.defaultFields
  c.fetch t dec zero commentID params "getting comment: %w"

/-! ## `photos.go`: `DeletePhoto` -/

/-- The anonymous struct `result` of `DeletePhoto`. -/
structure DeleteResult where
  Success : Bool := false
  deriving DecidableEq, Repr

/-- Decoding of a JSON value into a `bool` field holding `cur`: the new field value,
and whether a type error was recorded. -/
def decodeBoolField (v : Json) (cur : Bool) : Bool × Bool :=
  match v with
  | .bool b => (b, false)
  | .null => (cur, false)
  | _ => (cur, true)

/-- One member of the object decoded into a `DeleteResult`. -/
def decodeDeleteMember (st : DeleteResult × Bool) (m : String × Json) : DeleteResult × Bool :=
  let (r, bad) := st
  if keyMatches m.1 "success" then
    let (x, b) := decodeBoolField m.2 r.Success
    ({ r with Success := x }, bad || b)
  else (r, bad)

/-- The call `json.Unmarshal(body, &result)` of `DeletePhoto`. The text of the error
is not modelled beyond telling a syntax error from a type error. -/
def unmarshalDeleteResult : Decoder DeleteResult := fun body cur =>
  match parseJson body with
  | none => (some "invalid JSON", cur)
  | some (.obj members) =>
    let (r, bad) := members.foldl decodeDeleteMember (cur, false)
    (if bad then some "json: cannot unmarshal" else none, r)
  | some .null => (none, cur)
  | some _ => (some "json: cannot unmarshal", cur)

/-- Method `Client.DeletePhoto`: the error returned (`none` for nil) and the
requests handed to the HTTP client. -/
def Client.DeletePhoto (c : Client) (t : Transport) (photoID : String) :
    Option String × List OutRequest :=
  match c.makeRequest t "DELETE" photoID none none with
  | (.error err, sent) => (some (Sprintf "deleting photo: %w" [.str err]), sent)
  | (.ok resp, sent) =>
    match c.handleResponse unmarshalDeleteResult resp (some ({} : DeleteResult)) with
    | (some err, _) => (some err, sent)
    | (none, result) =>
      if !(result.getD {}).Success then (some "failed to delete photo", sent)
      else (none, sent)

/-! ## The Resource Methods behind the routers -/

/-- A result type of a Resource Method, its values represented by the JSON document
they encode to: the zero value and `json.Unmarshal` into the type. -/
structure Codec where
  zero : Json
  unmarshal : Decoder Json

/-- The result types of the six Resource Methods the routers call; `pagesData`
reads the member `Data` of the struct `GetPages` decodes into. -/
structure Codecs where
  page : Codec
  pages : Codec
  pagesData : Json → Json
  posts : Codec
  comments : Codec
  comment : Codec

/-- The Resource Methods of a client over a transport, as the routers see them. -/
def clientAPI (t : Transport) (k : Codecs) : API
  | .GetPage c pageID fields => (c.GetPage t k.page.unmarshal k.page.zero pageID fields).1
  | .GetPages c => (c.GetPages t k.pages.unmarshal k.pages.zero k.pagesData).1
  | .GetPosts c pageID limit fields =>
    (c.GetPosts t k.posts.unmarshal k.posts.zero pageID limit fields).1
  | .GetPostComments c postID limit order fields =>
    (c.GetPostComments t k.comments.unmarshal k.comments.zero postID limit order fields).1
  | .GetComment c commentID fields =>
    (c.GetComment t k.comment.unmarshal k.comment.zero commentID fields).1
  | .GetCommentReplies c commentID limit fields =>
    (c.GetCommentReplies t k.comments.unmarshal k.comments.zero commentID limit fields).1

/-- Every failure of a Resource Method that the handler invoked is answered with the
error envelope of status 500 whose text is `pre` followed by the message of the
failure (and so contains that message). -/
def Outcome.surfacesFailure (o : Outcome) (api : API) (pre : String) : Prop :=
  ∀ call ∈ o.calls, ∀ e : String, api call = .error e →
    o.w.isErrorEnvelope 500 (pre ++ e) ∧ Contains (pre ++ e) e = true

/-- The limit argument of an invocation of a Resource Method, if it takes one. -/
def Call.limit : Call → Option Int
  | .GetPosts _ _ limit _ => some limit
  | .GetPostComments _ _ limit _ _ => some limit
  | .GetCommentReplies _ _ limit _ => some limit
  | _ => none

/-- Every Resource Method that the handler invoked takes a limit and was passed
`limit`. -/
def Outcome.passesLimit (o : Outcome) (limit : Int) : Prop :=
  ∀ call ∈ o.calls, call.limit = some limit

/-- The requests handed to the HTTP client are one request, whose query has the
parameter `limit` with the decimal text of `limit` as its only value. -/
def carriesLimit (reqs : List OutRequest) (limit : Int) : Prop :=
  ∃ (r : OutRequest) (q : Values),
    reqs = [r] ∧ r.RawQuery = some q ∧ q.lookup "limit" = some [toString limit]

/-! ## `time`: `Format` for the layout `2006-01-02` -/

/-- Go `Time.Format("2006-01-02")`: the year (`stdLongYear`, at least four digits),
the month and the day of the month (`stdZeroMonth`, `stdZeroDay`, two digits) of the
time in its location, with the two hyphens of the layout. -/
def Time.FormatDate (t : Time) : String :=
  let abs := t.sec + t.offset
  let (year, month, day) := absDate abs
  String.mk (appendInt year 4 ++ ['-'] ++ appendInt month 2 ++ ['-'] ++ appendInt day 2)

/-! ## `insights.go` -/

/-- The default metric list in the body of `GetPageInsights`. -/
def GetPageInsights.defaultMetrics : List String :=
  ["page_fans",
   "page_fan_adds",
   "page_fan_removes",
   "page_views_total",
   "page_impressions",
   "page_posts_impressions",
   "page_engaged_users"]

/-- The default metric list in the body of `GetPostInsights`. -/
def GetPostInsights.defaultMetrics : List String :=
  ["post_impressions",
   "post_impressions_unique",
   "post_engaged_users",
   "post_reactions_by_type_total",
   "post_clicks",
   "post_video_views"]

/-- The two steps the insights methods apply to `metrics`: the default list when none
is given, then `params.Set("metric", ...)` of the joined list, whatever it is. The loop
that joins the metrics is the loop that joins fields. -/
def setMetrics (params : Values) (metrics defaults : List String) : Values :=
  let metrics := if metrics.length == 0 then defaults else metrics
  params.Set "metric" (joinFields metrics)

/-- The step `if since != nil { params.Set("since", since.Format("2006-01-02")) }`,
and the same step for `until`; a nil pointer is `none`. -/
def setDate (params : Values) (key : String) (date : Option Time) : Values :=
  match date with
  | some d => params.Set key d.FormatDate
  | none => params

/-- Method `Client.GetPageInsights`; `since` and `until` are `none` for nil
pointers. -/
def Client.GetPageInsights {α : Type} (c : Client) (t : Transport) (dec : Decoder α)
    (zero : α) (pageID : String) (metrics : List String) (period : String)
    (since until_ : Option Time) : Except String α × List OutRequest :=
  let params : Values := ⟨[]⟩
  let params := setMetrics params metrics GetPageInsights.defaultMetrics
  let params := if period != "" then params.Set "period" period else params.Set "period" "day"
  let params := setDate params "since" since
  let params := setDate params "until" until_
  let endpoint := Sprintf "%s/insights" [.str pageID]
  c.fetch t dec zero endpoint params "getting page insights: %w"

/-- Method `Client.GetPostInsights`. -/
def Client.GetPostInsights {α : Type} (c : Client) (t : Transport) (dec : Decoder α)
    (zero : α) (postID : String) (metrics : List String) : Except String α × List OutRequest :=
  let params : Values := ⟨[]⟩
  let params := setMetrics params metrics GetPostInsights.defaultMetrics
  let endpoint := Sprintf "%s/insights" [.str postID]
  c.fetch t dec zero endpoint params "getting post insights: %w"

/-- The list `pageMetrics` in the body of `GetAvailableMetrics`. -/
def GetAvailableMetrics.pageMetrics : List String :=
  ["page_fans",
   "page_fan_adds",
   "page_fan_removes",
   "page_fan_adds_by_likes_source",
   "page_fan_adds_by_unlikes_source",
   "page_views_total",
   "page_views_logged_in_total",
   "page_views_logged_in_unique",
   "page_views_external_referrals",
   "page_impressions",
   "page_impressions_unique",
   "page_impressions_paid",
   "page_impressions_paid_unique",
   "page_impressions_organic",
   "page_impressions_organic_unique",
   "page_impressions_viral",
   "page_impressions_viral_unique",
   "page_posts_impressions",
   "page_posts_impressions_unique",
   "page_posts_impressions_paid",
   "page_posts_impressions_paid_unique",
   "page_posts_impressions_organic",
   "page_posts_impressions_organic_unique",
   "page_posts_impressions_viral",
   "page_posts_impressions_viral_unique",
   "page_engaged_users",
   "page_consumptions",
   "page_consumptions_unique",
   "page_places_checkin_total",
   "page_places_checkin_total_unique",
   "page_places_checkin_mobile",
   "page_places_checkin_mobile_unique",
   "page_negative_feedback",
   "page_negative_feedback_unique",
   "page_positive_feedback_by_type",
   "page_positive_feedback_by_type_unique"]

/-- Method `Client.GetAvailableMetrics`: the list and the error returned (`none` for
nil), and the requests handed to the HTTP client over the transport `t`, which the
body never touches. -/
def Client.GetAvailableMetrics (_c : Client) (_t : Transport) (_pageID : String) :
    (List String × Option String) × List OutRequest :=
  ((GetAvailableMetrics.pageMetrics, none), [])

/-! ## `photos.go`: `UploadPhotoByURL`, `GetPhotos` -/

/-- Method `Client.UploadPhotoByURL`, for a `PhotoResponse` type `α`. -/
def Client.UploadPhotoByURL {α : Type} (c : Client) (t : Transport) (dec : Decoder α)
    (zero : α) (pageID imageURL message : String) (published : Bool) :
    Except String α × List OutRequest :=
  let params : Values := ⟨[]⟩
  let params := params.Set "url" imageURL
  let params := params.Set "access_token" c.AccessToken
  let params := if message != "" then params.Set "message" message else params
  let publishedStr := "true"
  let publishedStr := if !published then "false" else publishedStr
  let params := params.Set "published" publishedStr
  let endpoint := Sprintf "%s/photos" [.str pageID]
  match c.makeRequest t "POST" endpoint (some params) none with
  | (.error err, sent) => (.error (Sprintf "uploading photo by URL: %w" [.str err]), sent)
  | (.ok resp, sent) =>
    match c.handleResponse dec resp (some zero) with
    | (some err, _) => (.error err, sent)
    | (none, v) => (.ok (v.getD zero), sent)

/-- Method `Client.GetPhotos`; `ω` is the anonymous struct with the member `Data`,
read by `data`. -/
def Client.GetPhotos {ω α : Type} (c : Client) (t : Transport) (dec : Decoder ω) (zero : ω)
    (data : ω → α) (pageID : String) (limit : Int) : Except String α × List OutRequest :=
  let params : Values := ⟨[]⟩
  let params := setLimit params limit
  let params := params.Set "fields" "id,name,picture,source,created_time,updated_time,link"
  let endpoint := Sprintf "%s/photos" [.str pageID]
  match c.fetch t dec zero endpoint params "getting photos: %w" with
  | (.error err, sent) => (.error err, sent)
  | (.ok photosResp, sent) => (.ok (data photosResp), sent)

/-! ## `utils.go` -/

/-- The anonymous struct `result` of `ValidateAccessToken`. -/
structure IdentityResult where
  ID : String := ""
  Name : String := ""
  deriving DecidableEq, Repr

/-- One member of the object decoded into an `IdentityResult`. -/
def decodeIdentityMember (st : IdentityResult × Bool) (m : String × Json) :
    IdentityResult × Bool :=
  let (r, bad) := st
  if keyMatches m.1 "id" then
    let (x, b) := decodeStringField m.2 r.ID
    ({ r with ID := x }, bad || b)
  else if keyMatches m.1 "name" then
    let (x, b) := decodeStringField m.2 r.Name
    ({ r with Name := x }, bad || b)
  else (r, bad)

/-- The call `json.Unmarshal(body, &result)` of `ValidateAccessToken`. The text of the
error is not modelled beyond telling a syntax error from a type error. -/
def unmarshalIdentity : Decoder IdentityResult := fun body cur =>
  match parseJson body with
  | none => (some "invalid JSON", cur)
  | some (.obj members) =>
    let (r, bad) := members.foldl decodeIdentityMember (cur, false)
    (if bad then some "json: cannot unmarshal" else none, r)
  | some .null => (none, cur)
  | some _ => (some "json: cannot unmarshal", cur)

/-- Method `Client.ValidateAccessToken`: the error returned (`none` for nil) and the
requests handed to the HTTP client. -/
def Client.ValidateAccessToken (c : Client) (t : Transport) : Option String × List OutRequest :=
  match c.makeRequest t "GET" "me" none none with
  | (.error err, sent) => (some (Sprintf "validating access token: %w" [.str err]), sent)
  | (.ok resp, sent) =>
    match c.handleResponse unmarshalIdentity resp (some ({} : IdentityResult)) with
    | (some err, _) => (some (Sprintf "invalid access token: %w" [.str err]), sent)
    | (none, _) => (none, sent)

/-- Method `Client.GetTokenInfo`; `ω` is the anonymous struct with the member `Data`,
read by `data`. -/
def Client.GetTokenInfo {ω α : Type} (c : Client) (t : Transport) (dec : Decoder ω)
    (zero : ω) (data : ω → α) : Except String α × List OutRequest :=
  let params : Values := ⟨[]⟩
  let params := params.Set "input_token" c.AccessToken
  match c.fetch t dec zero "debug_token" params "getting token info: %w" with
  | (.error err, sent) => (.error err, sent)
  | (.ok tokenResp, sent) => (.ok (data tokenResp), sent)

/-- Method `Client.GetUserInfo`. -/
def Client.GetUserInfo {α : Type} (c : Client) (t : Transport) (dec : Decoder α) (zero : α) :
    Except String α × List OutRequest :=
  let params : Values := ⟨[]⟩
  let params := params.Set "fields" "id,name,email"
  c.fetch t dec zero "me" params "getting user info: %w"

/-! ## Error propagation of the Resource Methods -/

/-- The error of a result, `none` when there is none. -/
def errorOf {α : Type} : Except String α → Option String
  | .error e => some e
  | .ok _ => none

/-- How a Resource Method with the error `err` passes on the two underlying failures:
when `makeRequest` returned `sent`, a failure of it comes back behind the prefix `pre`,
and when it returned a response, a failure of `handleResponse` on that response
(`handled`) comes back as it is. -/
def propagates (err : Option String) (sent : Except String HTTPResponse)
    (handled : HTTPResponse → Option String) (pre : String) : Prop :=
  match sent with
  | .error e => err = some (pre ++ e)
  | .ok resp => ∀ e : String, handled resp = some e → err = some e

/-! ## The client as a mutable value -/

/-- The methods of `Client`, with their arguments. -/
inductive ClientOp where
  | SetAPIVersion (version : String)
  | buildURL (endpoint : String)
  | makeRequest (method endpoint : String) (params : Option Values) (body : Option String)
  | handleResponse (resp : HTTPResponse)
  | GetPage (pageID : String) (fields : List String)
  | GetPages
  | GetPosts (pageID : String) (limit : Int) (fields : List String)
  | GetPostComments (postID : String) (limit : Int) (order : String) (fields : List String)
  | GetCommentReplies (commentID : String) (limit : Int) (fields : List String)
  | GetComment (commentID : String) (fields : List String)
  | UploadPhoto (pageID imagePath message : String) (published : Bool)
  | UploadPhotoFromReader (pageID image message : String) (published : Bool)
  | UploadPhotoByURL (pageID imageURL message : String) (published : Bool)
  | GetPhotos (pageID : String) (limit : Int)
  | DeletePhoto (photoID : String)
  | GetPageInsights (pageID : String) (metrics : List String) (period : String)
      (since until_ : Option Time)
  | GetPostInsights (postID : String) (metrics : List String)
  | GetAvailableMetrics (pageID : String)
  | ValidateAccessToken
  | GetTokenInfo
  | GetUserInfo

/-- The receiver `*c` after a method returned: the assignments to fields of the
receiver in the body of the method. `SetAPIVersion` holds the only one in the package
(`c.APIVersion = version`); every other body only reads the fields. -/
def Client.after (c : Client) : ClientOp → Client
  | .SetAPIVersion version => c.SetAPIVersion version
  | _ => c

/-- The receiver after a sequence of method calls. -/
def Client.afterAll (c : Client) (ops : List ClientOp) : Client :=
  ops.foldl Client.after c

/-- The version of the last `SetAPIVersion` in a sequence of method calls, if any. -/
def lastVersion : List ClientOp → Option String
  | [] => none
  | .SetAPIVersion version :: ops => (lastVersion ops).orElse (fun _ => some version)
  | _ :: ops => lastVersion ops

/-! ## `main.go`: the root demo program -/

/-- The bytes of a Go string, for a string that is valid UTF-8. -/
def stringBytes (s : String) : List Nat :=
  (s.data.flatMap String.utf8EncodeChar).map UInt8.toNat

/-- The slice expression `s[lo:hi]` on the bytes of a string: the bytes from `lo` up to
`hi`, or the run-time panic of an index out of range (`hi` is tested first, as the Go
runtime does). -/
def sliceBytes (b : List Nat) (lo hi : Int) : Except String (List Nat) :=
  if hi < 0 ∨ (b.length : Int) < hi then
    .error (Sprintf "runtime error: slice bounds out of range [:%d] with length %d"
      [.int hi, .int b.length])
  else if lo < 0 then
    .error (Sprintf "runtime error: slice bounds out of range [%d:]" [.int lo])
  else if hi < lo then
    .error (Sprintf "runtime error: slice bounds out of range [%d:%d]" [.int lo, .int hi])
  else .ok ((b.drop lo.toNat).take (hi.toNat - lo.toNat))

/-- Where a run of `main` stands when it stops or reaches its first API call. -/
inductive MainState where
  | usageToken
  | usagePageID
  | panicked (msg : String)
  | firstCall (client : Client) (pageID : String) (head tail : List Nat)
  deriving DecidableEq, Repr

/-- Function `main` of the root program up to the call `client.GetPage(pageID)`:
`args` is `os.Args` (the program name first) and `env` the environment. The two
operands `pageAccessToken[:10]` and `pageAccessToken[len(pageAccessToken)-10:]` of the
token line are evaluated in this order. -/
def main (args : List String) (env : Env) : MainState :=
  let (pageAccessToken, pageID, apiVersion) :=
    if args.length ≥ 3 then
      (args.getD 1 "", args.getD 2 "", if args.length ≥ 4 then args.getD 3 "" else "")
    else (env "PAGE_ACCESS_TOKEN", env "PAGE_ID", env "API_VERSION")
  if pageAccessToken == "" then .usageToken
  else if pageID == "" then .usagePageID
  else
    let client := NewClient pageAccessToken
    let client := if apiVersion != "" then client.SetAPIVersion apiVersion else client
    let b := stringBytes pageAccessToken
    match sliceBytes b 0 10 with
    | .error msg => .panicked msg
    | .ok head =>
      match sliceBytes b ((b.length : Int) - 10) b.length with
      | .error msg => .panicked msg
      | .ok tail => .firstCall client pageID head tail

/-! ## `github.com/gorilla/mux`: the router that `SetupRoutes` builds -/

/-- Go `path.Clean` on the segments of a rooted path: empty segments and `.` are
dropped, and `..` removes the segment kept before it (at the root it is dropped). `acc`
holds the segments kept so far, the last one first. -/
def cleanSegments : List (List Char) → List (List Char) → List (List Char)
  | [], acc => acc.reverse
  | seg :: rest, acc =>
    if seg = [] ∨ seg = ['.'] then cleanSegments rest acc
    else if seg = ['.', '.'] then cleanSegments rest acc.tail
    else cleanSegments rest (seg :: acc)

/-- Function `cleanPath` of mux: `path.Clean` of the path made rooted, with the trailing
slash put back. -/
def cleanPath (p : String) : String :=
  if p == "" then "/"
  else
    let p := if p.data.head? != some '/' then "/" ++ p else p
    let np := String.mk ('/' :: ['/'].intercalate (cleanSegments (splitChars '/' p.data) []))
    if p.data.getLast? == some '/' && np != "/" then np ++ "/" else np

/-- The match of the mux path template `pre{name}suf` against a path, that is of the
regular expression `^pre([^/]+)suf$` mux compiles it to: the text of the group. -/
def muxVar (path pre suf : String) : Option String :=
  if HasPrefix path pre then
    let rest := path.data.drop pre.data.length
    if suf.data.isSuffixOf rest then
      let v := rest.take (rest.length - suf.data.length)
      if v ≠ [] ∧ '/' ∉ v then some (String.mk v) else none
    else none
  else none

/-- The routes registered by `Router.SetupRoutes`, tried in the order of registration
on the path of the request: the handler of the first template that matches, run on the
request with the route variables mux stores for it. -/
def Router.matchRoute (r : Router) (api : API) (w : ResponseWriter) (req : Request) :
    Option Outcome :=
  match muxVar req.Path "/api/pages/" "" with
  | some v => some (r.getPage api w { req with Vars := [("pageId", v)] })
  | none =>
    if req.Path == "/api/pages" then some (r.getPages api w { req with Vars := [] })
    else
      match muxVar req.Path "/api/pages/" "/posts" with
      | some v => some (r.getPosts api w { req with Vars := [("pageId", v)] })
      | none =>
        match muxVar req.Path "/api/posts/" "/comments" with
        | some v => some (r.getPostComments api w { req with Vars := [("postId", v)] })
        | none =>
          match muxVar req.Path "/api/comments/" "" with
          | some v => some (r.getComment api w { req with Vars := [("commentId", v)] })
          | none =>
            match muxVar req.Path "/api/comments/" "/replies" with
            | some v =>
              some (r.getCommentReplies api w { req with Vars := [("commentId", v)] })
            | none =>
              if req.Path == "/health" then some (r.healthCheck w) else none

/-- Method `Router.SetupRoutes`: the mux router it returns, serving one request on a
fresh response writer. mux first redirects (301) a path that `cleanPath` changes; the
`Location` kept here is the cleaned path without the query. Every route is registered
with `.Methods("GET")`: when a template matches the path but the method is not GET, mux
answers 405, and when no template matches it answers with `http.NotFound`, whose
plain-text body `404 page not found` is not kept by the writer. -/
def Router.SetupRoutes (r : Router) (api : API) (req : Request) : Outcome :=
  let w : ResponseWriter := {}
  if cleanPath req.Path != req.Path then
    ⟨{ w with Header := w.Header.Set "Location" (cleanPath req.Path), StatusCode := 301 }, []⟩
  else
    match r.matchRoute api w req with
    | some o => if req.Method == "GET" then o else ⟨{ w with StatusCode := 405 }, []⟩
    | none =>
      ⟨{ w with
          Header := (w.Header.Set "Content-Type" "text/plain; charset=utf-8").Set
            "X-Content-Type-Options" "nosniff"
          StatusCode := 404 }, []⟩

/-- The two front ends answer alike: they invoked the same Resource Method with the
same arguments, or neither invoked one and they answered with the same status code. -/
def Outcome.agrees (a b : Outcome) : Prop :=
  (a.calls ≠ [] ∧ a.calls = b.calls)
    ∨ (a.calls = [] ∧ b.calls = [] ∧ a.w.StatusCode = b.w.StatusCode)

/-- The two outcomes list the same invocations of Resource Methods and carry the same
status code. -/
def Outcome.sameAnswer (a b : Outcome) : Prop :=
  a.calls = b.calls ∧ a.w.StatusCode = b.w.StatusCode

/-! ## Properties -/

theorem HasPrefix_iff (s p : String) : HasPrefix s p = true ↔ ∃ t, s = p ++ t := by
  unfold HasPrefix
  rw [List.isPrefixOf_iff_prefix]
  constructor
  · rintro ⟨t, ht⟩
    exact ⟨String.mk t, String.ext (by simp [ht])⟩
  · rintro ⟨t, rfl⟩
    exact ⟨t.data, by simp⟩

theorem HasPrefix_append (p t : String) : HasPrefix (p ++ t) p = true :=
  (HasPrefix_iff _ _).2 ⟨t, rfl⟩

theorem drop_prefix_append (p t : String) :
    String.mk ((p ++ t).data.drop p.data.length) = t := by
  apply String.ext
  simp

theorem TrimPrefix_append (p t : String) : TrimPrefix (p ++ t) p = t := by
  unfold TrimPrefix
  rw [if_pos (HasPrefix_append p t), drop_prefix_append]

theorem HasSuffix_iff (s p : String) : HasSuffix s p = true ↔ ∃ t, s = t ++ p := by
  unfold HasSuffix
  rw [List.isSuffixOf_iff_suffix]
  constructor
  · rintro ⟨t, ht⟩
    exact ⟨String.mk t, String.ext (by simp [ht])⟩
  · rintro ⟨t, rfl⟩
    exact ⟨t.data, by simp⟩

theorem HasSuffix_append (t p : String) : HasSuffix (t ++ p) p = true :=
  (HasSuffix_iff _ _).2 ⟨t, rfl⟩

theorem take_suffix_append (t p : String) :
    String.mk ((t ++ p).data.take ((t ++ p).data.length - p.data.length)) = t := by
  apply String.ext
  simp

/-- The access token both routers extract from the request itself: the query
parameter, else the text after `Bearer ` in the Authorization header. -/
theorem requestToken_cases (a h : String) :
    (if (a == "") = true then
        (if HasPrefix h "Bearer " = true then TrimPrefix h "Bearer " else a)
      else a)
    = (if (a == "") = true then
        (if (h != "" && HasPrefix h "Bearer ") = true then TrimPrefix h "Bearer " else a)
      else a) := by
  by_cases hp : HasPrefix h "Bearer " = true
  · have hne : h ≠ "" := by
      rintro rfl
      exact absurd hp (by decide)
    simp [hp, hne]
  · simp [hp]

/-- C1: credential resolution order of `Router.getClientFromRequest` and
`SimpleRouter.getClientFromRequest`. (1) A non-empty `access_token` query parameter
is the token of the returned client, whatever the header holds; otherwise (2) the
non-empty text after `Bearer ` in the Authorization header; otherwise (3) the
default client when one is configured; otherwise (4), for `SimpleRouter` only, a
non-empty `PAGE_ACCESS_TOKEN`; otherwise an error. -/
theorem getClientFromRequest_order (r : Router) (sr : SimpleRouter) (env : Env)
    (req : Request) :
    (req.Query.Get "access_token" ≠ "" →
      r.getClientFromRequest req = .ok (NewClient (req.Query.Get "access_token")) ∧
      sr.getClientFromRequest env req = .ok (NewClient (req.Query.Get "access_token")))
    ∧ (∀ t : String, req.Query.Get "access_token" = "" →
        req.Header.Get "Authorization" = "Bearer " ++ t → t ≠ "" →
        r.getClientFromRequest req = .ok (NewClient t) ∧
        sr.getClientFromRequest env req = .ok (NewClient t))
    ∧ (∀ d : Client, req.Query.Get "access_token" = "" →
        (∀ t : String, req.Header.Get "Authorization" = "Bearer " ++ t → t = "") →
        (r.defaultClient = some d → r.getClientFromRequest req = .ok d) ∧
        (sr.defaultClient = some d → sr.getClientFromRequest env req = .ok d))
    ∧ (req.Query.Get "access_token" = "" →
        (∀ t : String, req.Header.Get "Authorization" = "Bearer " ++ t → t = "") →
        sr.defaultClient = none → env "PAGE_ACCESS_TOKEN" ≠ "" →
        sr.getClientFromRequest env req = .ok (NewClient (env "PAGE_ACCESS_TOKEN")))
    ∧ (req.Query.Get "access_token" = "" →
        (∀ t : String, req.Header.Get "Authorization" = "Bearer " ++ t → t = "") →
        (r.defaultClient = none → r.getClientFromRequest req
          = .error "no access token provided and no default token configured") ∧
        (sr.defaultClient = none → env "PAGE_ACCESS_TOKEN" = "" →
          sr.getClientFromRequest env req
          = .error ("no access token provided - use access_token query parameter, " ++
              "Authorization header, or PAGE_ACCESS_TOKEN environment variable"))) := by
  have hR := requestToken_cases (req.Query.Get "access_token") (req.Header.Get "Authorization")
  -- the token found in the request, when the header carries no usable bearer token
  have noBearer : req.Query.Get "access_token" = "" →
      (∀ t : String, req.Header.Get "Authorization" = "Bearer " ++ t → t = "") →
      (if (req.Query.Get "access_token" == "") = true then
        (if HasPrefix (req.Header.Get "Authorization") "Bearer " = true then
          TrimPrefix (req.Header.Get "Authorization") "Bearer "
        else req.Query.Get "access_token")
      else req.Query.Get "access_token") = "" := by
    intro hq hb
    rw [hq]
    by_cases hp : HasPrefix (req.Header.Get "Authorization") "Bearer " = true
    · obtain ⟨t, ht⟩ := (HasPrefix_iff _ _).1 hp
      have := hb t ht
      subst this
      rw [ht, if_pos (HasPrefix_append _ _), TrimPrefix_append]
      rfl
    · simp [hp]
  refine ⟨?_, ?_, ?_, ?_, ?_⟩
  · intro hq
    simp [Router.getClientFromRequest, SimpleRouter.getClientFromRequest, hq]
  · intro t hq hh ht
    have hne : "Bearer " ++ t ≠ "" := by
      intro h
      have := congrArg String.length h
      simp only [String.length_append] at this
      have h7 : "Bearer ".length = 7 := rfl
      have h0 : "".length = 0 := rfl
      omega
    simp [Router.getClientFromRequest, SimpleRouter.getClientFromRequest, hq, hh,
      HasPrefix_append, TrimPrefix_append, ht, hne]
  · intro d hq hb
    have h0 := noBearer hq hb
    refine ⟨fun hd => ?_, fun hd => ?_⟩
    · simp only [Router.getClientFromRequest, ← hR, h0, hd]
      simp
    · simp only [SimpleRouter.getClientFromRequest, h0, hd]
      simp
  · intro hq hb hd he
    have h0 := noBearer hq hb
    simp only [SimpleRouter.getClientFromRequest, h0, hd]
    simp [he]
  · intro hq hb
    have h0 := noBearer hq hb
    refine ⟨fun hd => ?_, fun hd he => ?_⟩
    · simp only [Router.getClientFromRequest, ← hR, h0, hd]
      simp
    · simp only [SimpleRouter.getClientFromRequest, h0, hd]
      simp [he]

theorem bearer_ne_empty (t : String) : "" ≠ "Bearer " ++ t := by
  intro h
  have := congrArg String.length h
  simp only [String.length_append] at this
  have h7 : "Bearer ".length = 7 := rfl
  have h0 : "".length = 0 := rfl
  omega

/-- C1 at concrete requests: a request bearing both a query token and a header
token resolves to the query token, a request bearing only a header token resolves
to it, and a request bearing neither resolves to the default client. -/
theorem getClientFromRequest_order_witness :
    (Router.getClientFromRequest ⟨some (NewClient "D")⟩
        { Method := "GET", Path := "/api/pages",
          Query := ⟨[("access_token", ["Q"])]⟩,
          Header := ⟨[("Authorization", ["Bearer H"])]⟩ } = .ok (NewClient "Q")
      ∧ SimpleRouter.getClientFromRequest ⟨some (NewClient "D")⟩ (fun _ => "E")
        { Method := "GET", Path := "/api/pages",
          Query := ⟨[("access_token", ["Q"])]⟩,
          Header := ⟨[("Authorization", ["Bearer H"])]⟩ } = .ok (NewClient "Q"))
    ∧ (Router.getClientFromRequest ⟨some (NewClient "D")⟩
        { Method := "GET", Path := "/api/pages", Query := ⟨[]⟩,
          Header := ⟨[("Authorization", ["Bearer H"])]⟩ } = .ok (NewClient "H")
      ∧ SimpleRouter.getClientFromRequest ⟨some (NewClient "D")⟩ (fun _ => "E")
        { Method := "GET", Path := "/api/pages", Query := ⟨[]⟩,
          Header := ⟨[("Authorization", ["Bearer H"])]⟩ } = .ok (NewClient "H"))
    ∧ (Router.getClientFromRequest ⟨some (NewClient "D")⟩
        { Method := "GET", Path := "/api/pages", Query := ⟨[]⟩, Header := ⟨[]⟩ }
        = .ok (NewClient "D")
      ∧ SimpleRouter.getClientFromRequest ⟨some (NewClient "D")⟩ (fun _ => "E")
        { Method := "GET", Path := "/api/pages", Query := ⟨[]⟩, Header := ⟨[]⟩ }
        = .ok (NewClient "D")) :=
  ⟨(getClientFromRequest_order ⟨some (NewClient "D")⟩ ⟨some (NewClient "D")⟩ (fun _ => "E")
      { Method := "GET", Path := "/api/pages",
        Query := ⟨[("access_token", ["Q"])]⟩,
        Header := ⟨[("Authorization", ["Bearer H"])]⟩ }).1 (by decide),
   (getClientFromRequest_order ⟨some (NewClient "D")⟩ ⟨some (NewClient "D")⟩ (fun _ => "E")
      { Method := "GET", Path := "/api/pages", Query := ⟨[]⟩,
        Header := ⟨[("Authorization", ["Bearer H"])]⟩ }).2.1 "H" (by decide) (by decide)
      (by decide),
   let h := (getClientFromRequest_order ⟨some (NewClient "D")⟩ ⟨some (NewClient "D")⟩
      (fun _ => "E")
      { Method := "GET", Path := "/api/pages", Query := ⟨[]⟩, Header := ⟨[]⟩ }).2.2.1
      (NewClient "D") (by decide) (fun t ht => absurd ht (bearer_ne_empty t))
   ⟨h.1 rfl, h.2 rfl⟩⟩

theorem sprintfAux_cons (c : Char) (tl : List Char) (args : List FmtArg) (hc : c ≠ '%') :
    sprintfAux (c :: tl) args = c :: sprintfAux tl args := by
  cases tl with
  | nil => simp [sprintfAux, hc]
  | cons v rest => simp [sprintfAux, hc]

theorem sprintfAux_literal (pre rest : List Char) (args : List FmtArg) (h : '%' ∉ pre) :
    sprintfAux (pre ++ rest) args = pre ++ sprintfAux rest args := by
  induction pre with
  | nil => rfl
  | cons c tl ih =>
    have hc : c ≠ '%' := fun e => h (by simp [e])
    have ht : '%' ∉ tl := fun e => h (by simp [e])
    rw [List.cons_append, sprintfAux_cons _ _ _ hc, ih ht, List.cons_append]

/-- A format that is literal text followed by a final `%v` (or `%s`, `%w`), applied
to one string or error operand, is the text followed by the operand. -/
theorem Sprintf_text_then_operand (format pre e : String) (v : Char)
    (hv : v = 'v' ∨ v = 's' ∨ v = 'w')
    (hf : format.data = pre.data ++ ['%', v]) (hp : '%' ∉ pre.data) :
    Sprintf format [.str e] = pre ++ e := by
  apply String.ext
  rw [Sprintf, hf, sprintfAux_literal _ _ _ hp]
  rcases hv with rfl | rfl | rfl <;> simp [sprintfAux, FmtArg.format, fmtExtra]

theorem unauthorized_isUnauthorized (w : ResponseWriter) (msg : String) :
    (unauthorized w msg).isUnauthorized msg := by
  refine ⟨rfl, ?_, rfl⟩
  have h := Sprintf_text_then_operand "Authentication error: %v" "Authentication error: " msg
    'v' (Or.inl rfl) rfl (by decide)
  simp [unauthorized, writeError, writeJSON, h]

theorem router_no_credential (r : Router) (req : Request)
    (hq : req.Query.Get "access_token" = "")
    (hb : ∀ t : String, req.Header.Get "Authorization" = "Bearer " ++ t → t = "")
    (hd : r.defaultClient = none) :
    r.getClientFromRequest req
      = .error "no access token provided and no default token configured" := by
  unfold Router.getClientFromRequest
  by_cases hp : HasPrefix (req.Header.Get "Authorization") "Bearer " = true
  · obtain ⟨t, ht⟩ := (HasPrefix_iff _ _).1 hp
    have := hb t ht
    subst this
    have h1 : TrimPrefix "Bearer " "Bearer " = "" := TrimPrefix_append "Bearer " ""
    simp [hq, hd, ht, h1]
  · simp [hq, hd, hp]

theorem simple_router_no_credential (r : SimpleRouter) (env : Env) (req : Request)
    (hq : req.Query.Get "access_token" = "")
    (hb : ∀ t : String, req.Header.Get "Authorization" = "Bearer " ++ t → t = "")
    (hd : r.defaultClient = none) (he : env "PAGE_ACCESS_TOKEN" = "") :
    r.getClientFromRequest env req
      = .error ("no access token provided - use access_token query parameter, " ++
          "Authorization header, or PAGE_ACCESS_TOKEN environment variable") := by
  unfold SimpleRouter.getClientFromRequest
  by_cases hp : HasPrefix (req.Header.Get "Authorization") "Bearer " = true
  · obtain ⟨t, ht⟩ := (HasPrefix_iff _ _).1 hp
    have := hb t ht
    subst this
    have h1 : TrimPrefix "Bearer " "Bearer " = "" := TrimPrefix_append "Bearer " ""
    simp [hq, hd, ht, h1, he]
  · simp [hq, hd, hp, he]

/-- C2: when no credential can be resolved (no query token, no Bearer header
token, no default client, and for `SimpleRouter` no `PAGE_ACCESS_TOKEN`), every
credentialed handler of both routers, on a GET request with a non-empty path
value, answers 401 with an `Authentication error: ...` body and invokes no
Resource Method; and `SimpleRouter.ServeHTTP` invokes none on any such request. -/
theorem no_credential_unauthorized (r : Router) (sr : SimpleRouter) (env : Env) (api : API)
    (w : ResponseWriter) (req : Request)
    (hq : req.Query.Get "access_token" = "")
    (hb : ∀ t : String, req.Header.Get "Authorization" = "Bearer " ++ t → t = "")
    (hdr : r.defaultClient = none) (hds : sr.defaultClient = none)
    (he : env "PAGE_ACCESS_TOKEN" = "") :
    ((r.getPages api w req).isUnauthorized
        "no access token provided and no default token configured"
      ∧ (req.var "pageId" ≠ "" →
          (r.getPage api w req).isUnauthorized
            "no access token provided and no default token configured" ∧
          (r.getPosts api w req).isUnauthorized
            "no access token provided and no default token configured")
      ∧ (req.var "postId" ≠ "" →
          (r.getPostComments api w req).isUnauthorized
            "no access token provided and no default token configured")
      ∧ (req.var "commentId" ≠ "" →
          (r.getComment api w req).isUnauthorized
            "no access token provided and no default token configured" ∧
          (r.getCommentReplies api w req).isUnauthorized
            "no access token provided and no default token configured"))
    ∧ (req.Method = "GET" →
        (sr.getPages env api w req).isUnauthorized
          ("no access token provided - use access_token query parameter, " ++
            "Authorization header, or PAGE_ACCESS_TOKEN environment variable")
        ∧ (extractPathParam req.Path "/api/pages/" "" ≠ "" →
            (sr.getPage env api w req).isUnauthorized
              ("no access token provided - use access_token query parameter, " ++
                "Authorization header, or PAGE_ACCESS_TOKEN environment variable"))
        ∧ (extractPathParam req.Path "/api/pages/" "/posts" ≠ "" →
            (sr.getPosts env api w req).isUnauthorized
              ("no access token provided - use access_token query parameter, " ++
                "Authorization header, or PAGE_ACCESS_TOKEN environment variable"))
        ∧ (extractPathParam req.Path "/api/posts/" "/comments" ≠ "" →
            (sr.getPostComments env api w req).isUnauthorized
              ("no access token provided - use access_token query parameter, " ++
                "Authorization header, or PAGE_ACCESS_TOKEN environment variable"))
        ∧ (extractPathParam req.Path "/api/comments/" "" ≠ "" →
            Contains (extractPathParam req.Path "/api/comments/" "") "/" = false →
            (sr.getComment env api w req).isUnauthorized
              ("no access token provided - use access_token query parameter, " ++
                "Authorization header, or PAGE_ACCESS_TOKEN environment variable"))
        ∧ (extractPathParam req.Path "/api/comments/" "/replies" ≠ "" →
            (sr.getCommentReplies env api w req).isUnauthorized
              ("no access token provided - use access_token query parameter, " ++
                "Authorization header, or PAGE_ACCESS_TOKEN environment variable")))
    ∧ (sr.ServeHTTP env api req).calls = [] := by
  have hR := router_no_credential r req hq hb hdr
  have hS := simple_router_no_credential sr env req hq hb hds he
  refine ⟨⟨?_, ?_, ?_, ?_⟩, ?_, ?_⟩
  · simp only [Router.getPages, hR]
    exact unauthorized_isUnauthorized w _
  · intro h
    constructor
    · simp only [Router.getPage, hR, beq_iff_eq, if_neg h]
      exact unauthorized_isUnauthorized w _
    · simp only [Router.getPosts, hR, beq_iff_eq, if_neg h]
      exact unauthorized_isUnauthorized w _
  · intro h
    simp only [Router.getPostComments, hR, beq_iff_eq, if_neg h]
    exact unauthorized_isUnauthorized w _
  · intro h
    constructor
    · simp only [Router.getComment, hR, beq_iff_eq, if_neg h]
      exact unauthorized_isUnauthorized w _
    · simp only [Router.getCommentReplies, hR, beq_iff_eq, if_neg h]
      exact unauthorized_isUnauthorized w _
  · intro hm
    have hm' : (req.Method != "GET") = false := by simp [hm]
    refine ⟨?_, ?_, ?_, ?_, ?_, ?_⟩
    · simp only [SimpleRouter.getPages, hS, hm']
      exact unauthorized_isUnauthorized w _
    · intro h
      simp only [SimpleRouter.getPage, hS, hm', beq_iff_eq, if_neg h]
      exact unauthorized_isUnauthorized w _
    · intro h
      simp only [SimpleRouter.getPosts, hS, hm', beq_iff_eq, if_neg h]
      exact unauthorized_isUnauthorized w _
    · intro h
      simp only [SimpleRouter.getPostComments, hS, hm', beq_iff_eq, if_neg h]
      exact unauthorized_isUnauthorized w _
    · intro h hc
      have hor : ((extractPathParam req.Path "/api/comments/" "" == "") ||
          Contains (extractPathParam req.Path "/api/comments/" "") "/") = false := by
        simp [h, hc]
      simp only [SimpleRouter.getComment, hS, hm', hor]
      exact unauthorized_isUnauthorized w _
    · intro h
      simp only [SimpleRouter.getCommentReplies, hS, hm', beq_iff_eq, if_neg h]
      exact unauthorized_isUnauthorized w _
  · simp only [SimpleRouter.ServeHTTP]
    split
    · rfl
    · split
      · simp only [SimpleRouter.healthCheck]
        split <;> rfl
      · simp only [SimpleRouter.getPosts, hS]
        split_ifs <;> rfl
      · simp only [SimpleRouter.getPage, hS]
        split_ifs <;> rfl
      · simp only [SimpleRouter.getPages, hS]
        split_ifs <;> rfl
      · simp only [SimpleRouter.getPostComments, hS]
        split_ifs <;> rfl
      · simp only [SimpleRouter.getCommentReplies, hS]
        split_ifs <;> rfl
      · simp only [SimpleRouter.getComment, hS]
        split_ifs <;> rfl
      · rfl

/-- C2 at a concrete request: `GET /api/pages/123` without any credential, on routers
without default client and with an empty environment, is answered 401 by both
`getPage` handlers and `SimpleRouter.ServeHTTP` invokes no Resource Method. -/
theorem no_credential_unauthorized_witness :
    (Router.getPage ⟨none⟩ (fun _ => .ok .null) {}
        { Method := "GET", Path := "/api/pages/123", Query := ⟨[]⟩, Header := ⟨[]⟩,
          Vars := [("pageId", "123")] }).isUnauthorized
      "no access token provided and no default token configured"
    ∧ (SimpleRouter.getPage ⟨none⟩ (fun _ => "") (fun _ => .ok .null) {}
        { Method := "GET", Path := "/api/pages/123", Query := ⟨[]⟩, Header := ⟨[]⟩,
          Vars := [("pageId", "123")] }).isUnauthorized
      ("no access token provided - use access_token query parameter, " ++
        "Authorization header, or PAGE_ACCESS_TOKEN environment variable")
    ∧ (SimpleRouter.ServeHTTP ⟨none⟩ (fun _ => "") (fun _ => .ok .null)
        { Method := "GET", Path := "/api/pages/123", Query := ⟨[]⟩, Header := ⟨[]⟩,
          Vars := [("pageId", "123")] }).calls = [] :=
  let T := no_credential_unauthorized ⟨none⟩ ⟨none⟩ (fun _ => "") (fun _ => .ok .null) {}
    { Method := "GET", Path := "/api/pages/123", Query := ⟨[]⟩, Header := ⟨[]⟩,
      Vars := [("pageId", "123")] }
    (by decide) (fun t ht => absurd ht (bearer_ne_empty t)) rfl rfl rfl
  ⟨(T.1.2.1 (by decide)).1, (T.2.1 rfl).2.1 (by decide), T.2.2⟩

theorem HasPrefix_append_false (a t p : String) (hlen : p.data.length ≤ a.data.length)
    (hn : HasPrefix a p = false) : HasPrefix (a ++ t) p = false := by
  cases h : HasPrefix (a ++ t) p with
  | false => rfl
  | true =>
    exfalso
    unfold HasPrefix at h hn
    rw [List.isPrefixOf_iff_prefix] at h
    have h2 : a.data <+: (a ++ t).data := by simp
    have h3 : p.data <+: a.data := List.prefix_of_prefix_length_le h h2 hlen
    rw [← List.isPrefixOf_iff_prefix] at h3
    rw [h3] at hn
    exact Bool.noConfusion hn

theorem ne_of_length_lt (a b : String) (h : b.length < a.length) : a ≠ b := by
  rintro rfl
  exact Nat.lt_irrefl _ h

theorem extractPathParam_between (p id suf : String) (hs : suf ≠ "") :
    extractPathParam (p ++ id ++ suf) p suf = id := by
  unfold extractPathParam
  rw [String.append_assoc, HasPrefix_append, drop_prefix_append]
  simp only [Bool.not_true, Bool.false_eq_true, if_false]
  have h1 : (suf != "") = true := by simp [hs]
  rw [h1, HasSuffix_append, Bool.and_self, if_pos rfl, take_suffix_append]

theorem finish_calls (api : API) (w : ResponseWriter) (call : Call) (errFormat : String)
    (wrap : Json → Json) : (finish api w call errFormat wrap).calls = [call] := by
  unfold finish
  split <;> rfl

/-- C10: route dispatch of `SimpleRouter.ServeHTTP`. For every non-empty id and every
GET request, the path `/api/pages/<id>/posts` selects the posts handler (not the
single-page handler), which extracts page id `<id>` and, once a client is
resolved, calls `GetPosts` on that id with the parsed limit and fields; and the
path `/api/comments/<id>/replies` selects the replies handler (not the plain
comment handler), which calls `GetCommentReplies` on comment id `<id>`. -/
theorem route_dispatch (r : SimpleRouter) (env : Env) (api : API) (req : Request)
    (x : String) (hm : req.Method = "GET") (hid : x ≠ "") :
    (req.Path = "/api/pages/" ++ x ++ "/posts" →
      route req.Path = .getPosts ∧ route req.Path ≠ .getPage
      ∧ r.ServeHTTP env api req = r.getPosts env api (enableCORS {}) req
      ∧ extractPathParam req.Path "/api/pages/" "/posts" = x
      ∧ ∀ c : Client, r.getClientFromRequest env req = .ok c →
          (r.ServeHTTP env api req).calls = [.GetPosts c x (parseLimit req) (parseFields req)])
    ∧ (req.Path = "/api/comments/" ++ x ++ "/replies" →
      route req.Path = .getCommentReplies ∧ route req.Path ≠ .getComment
      ∧ r.ServeHTTP env api req = r.getCommentReplies env api (enableCORS {}) req
      ∧ extractPathParam req.Path "/api/comments/" "/replies" = x
      ∧ ∀ c : Client, r.getClientFromRequest env req = .ok c →
          (r.ServeHTTP env api req).calls
            = [.GetCommentReplies c x (parseLimit req) (parseFields req)]) := by
  have hopt : (req.Method == "OPTIONS") = false := by rw [hm]; rfl
  have hget : (req.Method != "GET") = false := by rw [hm]; rfl
  constructor
  · intro hp
    have hroute : route req.Path = .getPosts := by
      have h1 : "/api/pages/" ++ x ++ "/posts" ≠ "/health" := by
        apply ne_of_length_lt
        simp only [String.length_append]
        have : "/api/pages/".length = 11 := rfl
        have : "/posts".length = 6 := rfl
        have : "/health".length = 7 := rfl
        omega
      have h2 : HasPrefix ("/api/pages/" ++ x ++ "/posts") "/api/pages/" = true := by
        rw [String.append_assoc]
        exact HasPrefix_append _ _
      simp [route, hp, h1, h2, HasSuffix_append]
    have hx : extractPathParam req.Path "/api/pages/" "/posts" = x := by
      rw [hp]
      exact extractPathParam_between _ _ _ (by decide)
    have hserve : r.ServeHTTP env api req = r.getPosts env api (enableCORS {}) req := by
      simp only [SimpleRouter.ServeHTTP, hopt, hroute]
      rfl
    refine ⟨hroute, by rw [hroute]; decide, hserve, hx, ?_⟩
    intro c hc
    rw [hserve]
    simp only [SimpleRouter.getPosts, hget, hx, hc, beq_iff_eq, if_neg hid, Bool.false_eq_true,
      if_false, finish_calls]
  · intro hp
    have hroute : route req.Path = .getCommentReplies := by
      have h1 : "/api/comments/" ++ x ++ "/replies" ≠ "/health" := by
        apply ne_of_length_lt
        simp only [String.length_append]
        have : "/api/comments/".length = 14 := rfl
        have : "/replies".length = 8 := rfl
        have : "/health".length = 7 := rfl
        omega
      have h1' : "/api/comments/" ++ x ++ "/replies" ≠ "/api/pages" := by
        apply ne_of_length_lt
        simp only [String.length_append]
        have : "/api/comments/".length = 14 := rfl
        have : "/replies".length = 8 := rfl
        have : "/api/pages".length = 10 := rfl
        omega
      have h2 : HasPrefix ("/api/comments/" ++ x ++ "/replies") "/api/comments/" = true := by
        rw [String.append_assoc]
        exact HasPrefix_append _ _
      have h3 : HasPrefix ("/api/comments/" ++ x ++ "/replies") "/api/pages/" = false := by
        rw [String.append_assoc]
        exact HasPrefix_append_false _ _ _ (by decide) (by decide)
      have h4 : HasPrefix ("/api/comments/" ++ x ++ "/replies") "/api/posts/" = false := by
        rw [String.append_assoc]
        exact HasPrefix_append_false _ _ _ (by decide) (by decide)
      simp [route, hp, h1, h1', h2, h3, h4, HasSuffix_append]
    have hx : extractPathParam req.Path "/api/comments/" "/replies" = x := by
      rw [hp]
      exact extractPathParam_between _ _ _ (by decide)
    have hserve : r.ServeHTTP env api req
        = r.getCommentReplies env api (enableCORS {}) req := by
      simp only [SimpleRouter.ServeHTTP, hopt, hroute]
      rfl
    refine ⟨hroute, by rw [hroute]; decide, hserve, hx, ?_⟩
    intro c hc
    rw [hserve]
    simp only [SimpleRouter.getCommentReplies, hget, hx, hc, beq_iff_eq, if_neg hid, Bool.false_eq_true,
      if_false, finish_calls]

/-- C10 at the two requests of the specification: `GET /api/pages/123/posts?limit=2`
calls `GetPosts("123", 2)` and `GET /api/comments/55/replies` calls
`GetCommentReplies("55", 10)`, here on the default client of the router. -/
theorem route_dispatch_witness :
    (SimpleRouter.ServeHTTP ⟨some (NewClient "D")⟩ (fun _ => "") (fun _ => .ok .null)
        { Method := "GET", Path := "/api/pages/123/posts",
          Query := ⟨[("limit", ["2"])]⟩, Header := ⟨[]⟩ }).calls
      = [.GetPosts (NewClient "D") "123" 2 []]
    ∧ (SimpleRouter.ServeHTTP ⟨some (NewClient "D")⟩ (fun _ => "") (fun _ => .ok .null)
        { Method := "GET", Path := "/api/comments/55/replies",
          Query := ⟨[]⟩, Header := ⟨[]⟩ }).calls
      = [.GetCommentReplies (NewClient "D") "55" 10 []] :=
  ⟨((route_dispatch ⟨some (NewClient "D")⟩ (fun _ => "") (fun _ => .ok .null)
      { Method := "GET", Path := "/api/pages/123/posts",
        Query := ⟨[("limit", ["2"])]⟩, Header := ⟨[]⟩ } "123" rfl (by decide)).1
      rfl).2.2.2.2 (NewClient "D") rfl,
   ((route_dispatch ⟨some (NewClient "D")⟩ (fun _ => "") (fun _ => .ok .null)
      { Method := "GET", Path := "/api/comments/55/replies",
        Query := ⟨[]⟩, Header := ⟨[]⟩ } "55" rfl (by decide)).2
      rfl).2.2.2.2 (NewClient "D") rfl⟩

theorem sprintfAux_verb (v : Char) (rest : List Char) (a : FmtArg) (as : List FmtArg)
    (hv : v ≠ '%') :
    sprintfAux ('%' :: v :: rest) (a :: as) = a.format v ++ sprintfAux rest as := by
  simp [sprintfAux, hv]

theorem sprintfAux_text (p : List Char) (hp : '%' ∉ p) : sprintfAux p [] = p := by
  have := sprintfAux_literal p [] [] hp
  simpa [sprintfAux, fmtExtra] using this

/-- A format with two verbs between three pieces of literal text. -/
theorem Sprintf_two_operands (format p1 p2 p3 : String) (v1 v2 : Char) (a1 a2 : FmtArg)
    (hf : format.data = p1.data ++ '%' :: v1 :: (p2.data ++ '%' :: v2 :: p3.data))
    (h1 : '%' ∉ p1.data) (h2 : '%' ∉ p2.data) (h3 : '%' ∉ p3.data)
    (hv1 : v1 ≠ '%') (hv2 : v2 ≠ '%') :
    Sprintf format [a1, a2]
      = p1 ++ String.mk (a1.format v1) ++ p2 ++ String.mk (a2.format v2) ++ p3 := by
  apply String.ext
  rw [Sprintf, hf, sprintfAux_literal _ _ _ h1, sprintfAux_verb _ _ _ _ hv1,
    sprintfAux_literal _ _ _ h2, sprintfAux_verb _ _ _ _ hv2, sprintfAux_text _ h3]
  simp

theorem Sprintf_api_error (m : String) (code : Int) :
    Sprintf "API error: %s (code: %d)" [.str m, .int code]
      = "API error: " ++ m ++ " (code: " ++ toString code ++ ")" := by
  rw [Sprintf_two_operands "API error: %s (code: %d)" "API error: " " (code: " ")" 's' 'd'
    (.str m) (.int code) rfl (by decide) (by decide) (by decide) (by decide) (by decide)]
  rfl

theorem Sprintf_api_status (status : Int) (body : String) :
    Sprintf "API error (status %d): %s" [.int status, .str body]
      = "API error (status " ++ toString status ++ "): " ++ body := by
  rw [Sprintf_two_operands "API error (status %d): %s" "API error (status " "): " "" 'd' 's'
    (.int status) (.str body) rfl (by decide) (by decide) (by decide) (by decide) (by decide)]
  apply String.ext
  simp [FmtArg.format]

theorem unmarshalErrorResponse_envelope (body m : String) (code : Int)
    (hp : parseJson body
      = some (.obj [("error", .obj [("message", .str m), ("code", .num code)])]))
    (hlo : -(2 ^ 63 : Int) ≤ code) (hhi : code < 2 ^ 63) :
    unmarshalErrorResponse body = some { Error := { Message := m, Code := code } } := by
  have k1 : keyMatches "error" "error" = true := by decide
  have k2 : keyMatches "message" "message" = true := by decide
  have k3 : keyMatches "code" "message" = false := by decide
  have k4 : keyMatches "code" "type" = false := by decide
  have k5 : keyMatches "code" "code" = true := by decide
  have hr : decodeIntField (.num code) 0 = (code, false) := by
    unfold decodeIntField
    exact if_pos ⟨hlo, hhi⟩
  simp [unmarshalErrorResponse, hp, decodeResponseMember, decodeDetail, decodeDetailMember,
    decodeStringField, hr, k1, k2, k3, k4, k5]

/-- C3: for a response with status ≥ 400 whose body `json.Unmarshal` decodes into
the error envelope, `handleResponse` fails with `API error: m (code: c)` for the
decoded message `m` and code `c`, and the target is left as it was; in particular
when the body is the object `error` → (`message` → `m`, `code` → `c`). -/
theorem handleResponse_error_envelope {α : Type} (c : Client)
    (unmarshal : String → α → Option String × α) (resp : HTTPResponse) (result : Option α)
    (body : String) (hb : resp.Body = .ok body) (hs : resp.StatusCode ≥ 400) :
    (∀ er : ErrorResponse, unmarshalErrorResponse body = some er →
      c.handleResponse unmarshal resp result
        = (some ("API error: " ++ er.Error.Message ++ " (code: " ++ toString er.Error.Code
            ++ ")"), result))
    ∧ (∀ (m : String) (code : Int),
        parseJson body
          = some (.obj [("error", .obj [("message", .str m), ("code", .num code)])]) →
        -(2 ^ 63 : Int) ≤ code → code < 2 ^ 63 →
        c.handleResponse unmarshal resp result
          = (some ("API error: " ++ m ++ " (code: " ++ toString code ++ ")"), result)) := by
  have main : ∀ er : ErrorResponse, unmarshalErrorResponse body = some er →
      c.handleResponse unmarshal resp result
        = (some ("API error: " ++ er.Error.Message ++ " (code: " ++ toString er.Error.Code
            ++ ")"), result) := by
    intro er he
    simp only [Client.handleResponse, hb, he, if_pos hs, Sprintf_api_error]
  refine ⟨main, ?_⟩
  intro m code hp hlo hhi
  exact main _ (unmarshalErrorResponse_envelope body m code hp hlo hhi)

/-- C3 at the response of the specification: status 400 with body
`{"error":{"message":"Invalid token","code":190}}` yields the remote-API error with
message `Invalid token` and code 190, and the target keeps its value. -/
theorem handleResponse_error_envelope_witness :
    Client.handleResponse (NewClient "T") (fun (_ : String) (v : Nat) => (none, v))
        { StatusCode := 400,
          Body := .ok "\x7b\"error\":\x7b\"message\":\"Invalid token\",\"code\":190\x7d\x7d" }
        (some 7)
      = (some "API error: Invalid token (code: 190)", some 7) :=
  (handleResponse_error_envelope (NewClient "T") (fun (_ : String) (v : Nat) => (none, v))
    { StatusCode := 400,
      Body := .ok "\x7b\"error\":\x7b\"message\":\"Invalid token\",\"code\":190\x7d\x7d" }
    (some 7) "\x7b\"error\":\x7b\"message\":\"Invalid token\",\"code\":190\x7d\x7d"
    rfl (by decide)).1 { Error := { Message := "Invalid token", Code := 190 } } (by decide)

/-- C4: for a response with status ≥ 400 whose body `json.Unmarshal` cannot decode
into the error envelope, `handleResponse` fails with
`API error (status <status>): <body>`, the status in decimal and the body verbatim. -/
theorem handleResponse_transport_error {α : Type} (c : Client)
    (unmarshal : String → α → Option String × α) (resp : HTTPResponse) (result : Option α)
    (body : String) (hb : resp.Body = .ok body) (hs : resp.StatusCode ≥ 400)
    (he : unmarshalErrorResponse body = none) :
    c.handleResponse unmarshal resp result
      = (some ("API error (status " ++ toString resp.StatusCode ++ "): " ++ body), result) := by
  simp only [Client.handleResponse, hb, he, if_pos hs, Sprintf_api_status]

/-- C4 at a concrete response: status 502 with the HTML body of a gateway. -/
theorem handleResponse_transport_error_witness :
    Client.handleResponse (NewClient "T") (fun (_ : String) (v : Nat) => (none, v))
        { StatusCode := 502, Body := .ok "<html>Bad Gateway</html>" } (some 7)
      = (some "API error (status 502): <html>Bad Gateway</html>", some 7) :=
  handleResponse_transport_error (NewClient "T") (fun (_ : String) (v : Nat) => (none, v))
    { StatusCode := 502, Body := .ok "<html>Bad Gateway</html>" } (some 7)
    "<html>Bad Gateway</html>" rfl (by decide) (by decide)

theorem Sprintf_unmarshaling (e : String) :
    Sprintf "unmarshaling response: %w" [.str e] = "unmarshaling response: " ++ e :=
  Sprintf_text_then_operand _ "unmarshaling response: " e 'w' (Or.inr (Or.inr rfl)) rfl
    (by decide)

/-- C5: for a response with status < 400 and a non-nil target, `handleResponse`
returns no error exactly when `json.Unmarshal` of the body into the target returns
none, the target then holds what was decoded, any decode error is reported with
the prefix `unmarshaling response: `, and no error it reports is a remote-API
error (none starts with `API error`). -/
theorem handleResponse_success_path {α : Type} (c : Client)
    (unmarshal : String → α → Option String × α) (resp : HTTPResponse) (target : α)
    (body : String) (hb : resp.Body = .ok body) (hs : resp.StatusCode < 400) :
    ((c.handleResponse unmarshal resp (some target)).1 = none
        ↔ (unmarshal body target).1 = none)
    ∧ (c.handleResponse unmarshal resp (some target)).2 = some (unmarshal body target).2
    ∧ (∀ e : String, (unmarshal body target).1 = some e →
        (c.handleResponse unmarshal resp (some target)).1
          = some ("unmarshaling response: " ++ e))
    ∧ (∀ e : String, (c.handleResponse unmarshal resp (some target)).1 = some e →
        HasPrefix e "API error" = false) := by
  have hs' : ¬ resp.StatusCode ≥ 400 := by omega
  cases hu : unmarshal body target with
  | mk err target' =>
    cases err with
    | none =>
      simp [Client.handleResponse, hb, hs', hu]
    | some e =>
      have hp : HasPrefix ("unmarshaling response: " ++ e) "API error" = false :=
        HasPrefix_append_false _ _ _ (by decide) (by decide)
      simp [Client.handleResponse, hb, hs', hu, Sprintf_unmarshaling, hp]

/-- C5 at two concrete responses with status 200, for a target decoded by a
decoder that accepts exactly the body `42`. -/
theorem handleResponse_success_path_witness :
    Client.handleResponse (NewClient "T")
        (fun (b : String) (v : Nat) =>
          if b = "42" then (none, 42) else (some "invalid character", v))
        { StatusCode := 200, Body := .ok "42" } (some 0) = (none, some 42)
    ∧ (Client.handleResponse (NewClient "T")
        (fun (b : String) (v : Nat) =>
          if b = "42" then (none, 42) else (some "invalid character", v))
        { StatusCode := 200, Body := .ok "x" } (some 0)).1
      = some "unmarshaling response: invalid character" :=
  ⟨Prod.ext
    ((handleResponse_success_path (NewClient "T")
      (fun (b : String) (v : Nat) =>
        if b = "42" then (none, 42) else (some "invalid character", v))
      { StatusCode := 200, Body := .ok "42" } 0 "42" rfl (by decide)).1.2 rfl)
    ((handleResponse_success_path (NewClient "T")
      (fun (b : String) (v : Nat) =>
        if b = "42" then (none, 42) else (some "invalid character", v))
      { StatusCode := 200, Body := .ok "42" } 0 "42" rfl (by decide)).2.1),
   (handleResponse_success_path (NewClient "T")
      (fun (b : String) (v : Nat) =>
        if b = "42" then (none, 42) else (some "invalid character", v))
      { StatusCode := 200, Body := .ok "x" } 0 "x" rfl (by decide)).2.2.1
      "invalid character" rfl⟩

theorem lookup_filter_ne (k k' : String) (hk : k' ≠ k) (l : List (String × List String)) :
    (l.filter (fun e => e.1 != k)).lookup k' = l.lookup k' := by
  induction l with
  | nil => rfl
  | cons e es ih =>
    obtain ⟨a, b⟩ := e
    by_cases ha : a = k
    · subst ha
      have h1 : (k' == a) = false := by simp [hk]
      simp [List.filter, List.lookup, h1, ih]
    · have h2 : (a != k) = true := by simp [ha]
      simp only [List.filter, h2, List.lookup, ih]

theorem Values.lookup_Set_self (v : Values) (k x : String) :
    (v.Set k x).lookup k = some [x] := by
  simp [Values.Set, Values.lookup, List.lookup]

theorem Values.lookup_Set_ne (v : Values) (k k' x : String) (hk : k' ≠ k) :
    (v.Set k x).lookup k' = v.lookup k' := by
  have h1 : (k' == k) = false := by simp [hk]
  simp only [Values.Set, Values.lookup, List.lookup, h1]
  exact lookup_filter_ne k k' hk _

theorem Values.len_Set_pos (v : Values) (k x : String) : (v.Set k x).len > 0 := by
  unfold Values.len Values.Set
  apply List.length_pos_of_ne_nil
  intro h
  rw [List.dedup_eq_nil] at h
  simp at h

theorem Values.entries_Set_self (v : Values) (k x : String) :
    (v.Set k x).entries.filter (fun e => e.1 == k) = [(k, [x])] := by
  simp [Values.Set, List.filter_cons, List.filter_filter]

theorem Values.entries_Set_ne (v : Values) (k x : String) :
    (v.Set k x).entries.filter (fun e => e.1 != k) = v.entries.filter (fun e => e.1 != k) := by
  simp [Values.Set, List.filter_cons, List.filter_filter]

/-- C7: whenever `makeRequest` gets as far as a request (that is, `http.NewRequest`
accepts the method and URL), exactly one request is handed to the HTTP client, its
query parameters hold exactly one `access_token` entry with the single value
`c.AccessToken`, whatever the caller put in `params` (nil included), and every
other parameter is the caller's. -/
theorem makeRequest_access_token (c : Client) (t : Transport) (method endpoint : String)
    (params : Option Values) (body : Option String) :
    t.NewRequestErr method (c.buildURL endpoint) = none →
    ∃ (req : OutRequest) (q : Values),
      (c.makeRequest t method endpoint params body).2 = [req]
      ∧ req.RawQuery = some q
      ∧ q.lookup "access_token" = some [c.AccessToken]
      ∧ q.Get "access_token" = c.AccessToken
      ∧ q.entries.filter (fun e => e.1 == "access_token")
          = [("access_token", [c.AccessToken])]
      ∧ (∀ k : String, k ≠ "access_token" →
          q.lookup k = (params.getD ⟨[]⟩).lookup k ∧ q.Get k = (params.getD ⟨[]⟩).Get k)
      ∧ q.entries.filter (fun e => e.1 != "access_token")
          = (params.getD ⟨[]⟩).entries.filter (fun e => e.1 != "access_token") := by
  intro hn
  have hp : (match params with
      | none => (⟨[]⟩ : Values)
      | some p => p) = params.getD ⟨[]⟩ := by
    cases params <;> rfl
  have hlen := Values.len_Set_pos (params.getD ⟨[]⟩) "access_token" c.AccessToken
  refine ⟨if (method == "POST" && body.isSome) = true then
        { Method := method, URL := c.buildURL endpoint, Body := body,
          RawQuery := some ((params.getD ⟨[]⟩).Set "access_token" c.AccessToken),
          Header := (⟨[]⟩ : Values).Set "Content-Type" "application/json" }
      else
        { Method := method, URL := c.buildURL endpoint, Body := body,
          RawQuery := some ((params.getD ⟨[]⟩).Set "access_token" c.AccessToken) },
    (params.getD ⟨[]⟩).Set "access_token" c.AccessToken, ?_, ?_,
    Values.lookup_Set_self _ _ _, ?_, Values.entries_Set_self _ _ _, ?_,
    Values.entries_Set_ne _ _ _⟩
  · simp only [Client.makeRequest, hn, hp, if_pos hlen]
    split <;> split <;> rfl
  · split <;> rfl
  · simp [Values.Get, Values.lookup_Set_self]
  · intro k hk
    have h := Values.lookup_Set_ne (params.getD ⟨[]⟩) "access_token" k c.AccessToken hk
    exact ⟨h, by simp only [Values.Get, h]⟩

/-- C7 at a concrete call: a caller that put two `access_token` values and a
`fields` parameter into `params` sends the token of the client and its `fields`. -/
theorem makeRequest_access_token_witness :
    ∃ (req : OutRequest) (q : Values),
      (Client.makeRequest (NewClient "T")
          ⟨fun _ _ => none, fun _ => .ok { StatusCode := 200, Body := .ok "" }⟩ "GET" "me"
          (some ⟨[("access_token", ["A", "B"]), ("fields", ["id"])]⟩) none).2 = [req]
      ∧ req.RawQuery = some q
      ∧ q.lookup "access_token" = some [(NewClient "T").AccessToken]
      ∧ q.Get "access_token" = (NewClient "T").AccessToken
      ∧ q.entries.filter (fun e => e.1 == "access_token")
          = [("access_token", [(NewClient "T").AccessToken])]
      ∧ (∀ k : String, k ≠ "access_token" →
          q.lookup k
            = ((some ⟨[("access_token", ["A", "B"]), ("fields", ["id"])]⟩ :
                Option Values).getD ⟨[]⟩).lookup k
          ∧ q.Get k
            = ((some ⟨[("access_token", ["A", "B"]), ("fields", ["id"])]⟩ :
                Option Values).getD ⟨[]⟩).Get k)
      ∧ q.entries.filter (fun e => e.1 != "access_token")
          = ((some ⟨[("access_token", ["A", "B"]), ("fields", ["id"])]⟩ :
                Option Values).getD ⟨[]⟩).entries.filter (fun e => e.1 != "access_token") :=
  makeRequest_access_token (NewClient "T")
    ⟨fun _ _ => none, fun _ => .ok { StatusCode := 200, Body := .ok "" }⟩ "GET" "me"
    (some ⟨[("access_token", ["A", "B"]), ("fields", ["id"])]⟩) none rfl

/-- C9 fails as stated: a receiver that holds 2024-11-26T04:54:25Z still holds it
after `UnmarshalJSON` of `null`, and that is not the zero time. -/
theorem unmarshal_null_not_zero :
    (FacebookTime.UnmarshalJSON ⟨⟨63868193665, 0, 0⟩⟩ "null").1 = none
    ∧ (FacebookTime.UnmarshalJSON ⟨⟨63868193665, 0, 0⟩⟩ "null").2 = ⟨⟨63868193665, 0, 0⟩⟩
    ∧ (FacebookTime.UnmarshalJSON ⟨⟨63868193665, 0, 0⟩⟩ "null").2 ≠ ⟨Time.zero⟩
    ∧ (FacebookTime.UnmarshalJSON ⟨⟨63868193665, 0, 0⟩⟩ "null").2.Time.IsZero = false := by
  decide

/-- C9, amended: on the inputs `null`, `""`, `"null"` and the empty byte string,
`UnmarshalJSON` returns no error and leaves the receiver as it was, whatever time
it held; a receiver that is the zero value therefore stays the zero time. -/
theorem unmarshal_null_keeps_receiver (ft : FacebookTime) :
    ft.UnmarshalJSON "null" = (none, ft)
    ∧ ft.UnmarshalJSON "\"\"" = (none, ft)
    ∧ ft.UnmarshalJSON "\"null\"" = (none, ft)
    ∧ ft.UnmarshalJSON "" = (none, ft)
    ∧ (FacebookTime.UnmarshalJSON ⟨Time.zero⟩ "null").2.Time.IsZero = true
    ∧ (FacebookTime.UnmarshalJSON ⟨Time.zero⟩ "\"\"").2.Time.IsZero = true
    ∧ (FacebookTime.UnmarshalJSON ⟨Time.zero⟩ "\"null\"").2.Time.IsZero = true
    ∧ (FacebookTime.UnmarshalJSON ⟨Time.zero⟩ "").2.Time.IsZero = true := by
  have h1 : TrimQuotes "null" = "null" := by decide
  have h2 : TrimQuotes "\"\"" = "" := by decide
  have h3 : TrimQuotes "\"null\"" = "null" := by decide
  have h4 : TrimQuotes "" = "" := by decide
  refine ⟨?_, ?_, ?_, ?_, ?_, ?_, ?_, ?_⟩ <;>
    simp [FacebookTime.UnmarshalJSON, h1, h2, h3, h4, Time.IsZero, Time.zero]

theorem yearOfDays_parts (q a b c yday : Int)
    (ha0 : 0 ≤ a) (ha : a ≤ 3) (hb0 : 0 ≤ b) (hb : b ≤ 24) (hc0 : 0 ≤ c) (hc : c ≤ 3)
    (hy0 : 0 ≤ yday) (hy : yday ≤ 365)
    (hl : yday = 365 → c = 3 ∧ (b ≠ 24 ∨ a = 3)) :
    yearOfDays (146097 * q + 36524 * a + 1461 * b + 365 * c + yday)
      = (400 * q + 100 * a + 4 * b + c + 1, yday) := by
  have e1 : (146097 * q + 36524 * a + 1461 * b + 365 * c + yday) / 146097 = q := by omega
  have e2 : (36524 * a + 1461 * b + 365 * c + yday) / 36524
      - (36524 * a + 1461 * b + 365 * c + yday) / 36524 / 4 = a := by
    by_cases hR : 1461 * b + 365 * c + yday = 36524
    · have ha3 : a = 3 := by omega
      subst ha3
      have : (36524 * 3 + 1461 * b + 365 * c + yday) / 36524 = 4 := by omega
      rw [this]
      rfl
    · have : (36524 * a + 1461 * b + 365 * c + yday) / 36524 = a := by omega
      rw [this]
      omega
  have e3 : (1461 * b + 365 * c + yday) / 1461 = b := by omega
  have e4 : (365 * c + yday) / 365 - (365 * c + yday) / 365 / 4 = c := by
    by_cases hR : yday = 365
    · have hc3 : c = 3 := by omega
      subst hc3 hR
      rfl
    · have : (365 * c + yday) / 365 = c := by omega
      rw [this]
      omega
  have d1 : 146097 * q + 36524 * a + 1461 * b + 365 * c + yday - 146097 * q
      = 36524 * a + 1461 * b + 365 * c + yday := by ring
  have d2 : 36524 * a + 1461 * b + 365 * c + yday - 36524 * a
      = 1461 * b + 365 * c + yday := by ring
  have d3 : 1461 * b + 365 * c + yday - 1461 * b = 365 * c + yday := by ring
  have d4 : 365 * c + yday - 365 * c = yday := by ring
  simp only [yearOfDays, e1, d1, e2, d2, e3, d3, e4, d4]

theorem daysSinceEpoch_parts (year : Int) :
    daysSinceEpoch year = 146097 * ((year - 1) / 400) + 36524 * ((year - 1) % 400 / 100)
      + 1461 * ((year - 1) % 400 % 100 / 4) + 365 * ((year - 1) % 400 % 100 % 4) := by
  simp only [daysSinceEpoch]
  omega

theorem isLeap_iff (year : Int) :
    isLeap year = true ↔ year % 4 = 0 ∧ (year % 100 ≠ 0 ∨ year % 400 = 0) := by
  simp [isLeap]

/-- The year and day of year are recovered from the day count of a date. -/
theorem yearOfDays_daysSinceEpoch (year yday : Int) (h0 : 0 ≤ yday)
    (h1 : yday < 365 ∨ (yday = 365 ∧ isLeap year = true)) :
    yearOfDays (daysSinceEpoch year + yday) = (year, yday) := by
  rw [isLeap_iff] at h1
  rw [daysSinceEpoch_parts, yearOfDays_parts _ _ _ _ _ (by omega) (by omega) (by omega) (by omega)
    (by omega) (by omega) h0 (by omega) (by omega)]
  simp only [Prod.mk.injEq, and_true]
  omega

theorem daysIn_eq (month year : Int) :
    daysIn month year
      = if month = 2 ∧ isLeap year = true then 29 else daysBefore month - daysBefore (month - 1) :=
  rfl

/-- Month and day are recovered from the day of the year of a valid date. -/
theorem monthDay_yearDay (leap : Bool) (month day : Int) (hm1 : 1 ≤ month) (hm : month ≤ 12)
    (hd1 : 1 ≤ day)
    (hd : day ≤ if month = 2 ∧ leap = true then 29 else daysBefore month - daysBefore (month - 1)) :
    monthDay leap (yearDay leap month day) = (month, day)
    ∧ 0 ≤ yearDay leap month day
    ∧ (yearDay leap month day < 365 ∨ (yearDay leap month day = 365 ∧ leap = true)) := by
  cases leap <;> interval_cases month <;> simp [daysBefore] at hd <;> interval_cases day <;> decide

/-- The calendar date and the clock reading are recovered from the seconds of `Date`. -/
theorem absDate_absClock_Date (year month day hour min sec nsec : Int)
    (hm1 : 1 ≤ month) (hm : month ≤ 12) (hd1 : 1 ≤ day) (hd : day ≤ daysIn month year)
    (hh0 : 0 ≤ hour) (hh : hour < 24) (hn0 : 0 ≤ min) (hn : min < 60)
    (hs0 : 0 ≤ sec) (hs : sec < 60) :
    absDate (Date year month day hour min sec nsec).sec = (year, month, day)
    ∧ absClock (Date year month day hour min sec nsec).sec = (hour, min, sec) := by
  obtain ⟨h1, h2, h3⟩ := monthDay_yearDay (isLeap year) month day hm1 hm hd1
    (by rw [daysIn_eq] at hd; exact hd)
  have hy := yearOfDays_daysSinceEpoch year (yearDay (isLeap year) month day) h2 h3
  have hq : ((daysSinceEpoch year + yearDay (isLeap year) month day) * 86400
      + hour * 3600 + min * 60 + sec) / 86400
      = daysSinceEpoch year + yearDay (isLeap year) month day := by omega
  have hr : ((daysSinceEpoch year + yearDay (isLeap year) month day) * 86400
      + hour * 3600 + min * 60 + sec) % 86400 = hour * 3600 + min * 60 + sec := by omega
  constructor
  · simp only [absDate, Date, hq, hy, h1]
  · simp only [absClock, Date, hr, Prod.mk.injEq]
    omega

theorem utod_isDigit (k : Nat) (hk : k < 10) : (utod k).isDigit = true := by
  interval_cases k <;> rfl

theorem digitVal_utod (k : Nat) (hk : k < 10) : digitVal (utod k) = k := by
  interval_cases k <;> rfl

theorem appendInt_two (n : Int) (h0 : 0 ≤ n) (h : n < 100) :
    appendInt n 2 = [utod (n.toNat / 10), utod (n.toNat % 10)] := by
  have h1 : ¬ n < 0 := by omega
  have h2 : n.natAbs = n.toNat := by omega
  have h3 : n.toNat < 100 := by omega
  simp [appendInt, h1, h2, h3]

theorem appendInt_four (n : Int) (h0 : 0 ≤ n) (h : n < 10000) :
    appendInt n 4 = [utod (n.toNat / 1000), utod (n.toNat / 100 % 10),
      utod (n.toNat / 10 % 10), utod (n.toNat % 10)] := by
  have h1 : ¬ n < 0 := by omega
  have h2 : n.natAbs = n.toNat := by omega
  have h3 : n.toNat < 10000 := by omega
  simp [appendInt, h1, h2, h3]

theorem getnum_two (a b : Nat) (ha : a < 10) (hb : b < 10) (rest : List Char) (fixed : Bool) :
    getnum (utod a :: utod b :: rest) fixed = .ok ((a : Int) * 10 + b, rest) := by
  simp [getnum, utod_isDigit, digitVal_utod, ha, hb]

theorem getnum_appendInt (n : Int) (h0 : 0 ≤ n) (h : n < 100) (rest : List Char)
    (fixed : Bool) : getnum (appendInt n 2 ++ rest) fixed = .ok (n, rest) := by
  rw [appendInt_two n h0 h]
  have e : ((n.toNat / 10 : Nat) : Int) * 10 + ((n.toNat % 10 : Nat) : Int) = n := by omega
  rw [List.cons_append, List.cons_append, List.nil_append,
    getnum_two _ _ (by omega) (by omega), e]

theorem getYear_appendInt (n : Int) (h0 : 0 ≤ n) (h : n < 10000) (rest : List Char) :
    getYear (appendInt n 4 ++ rest) = .ok (n, rest) := by
  rw [appendInt_four n h0 h]
  have e : (((((n.toNat / 1000) * 10 + n.toNat / 100 % 10) * 10 + n.toNat / 10 % 10) * 10
      + n.toNat % 10 : Nat) : Int) = n := by omega
  have d1 := digitVal_utod (n.toNat / 1000) (by omega)
  have d2 := digitVal_utod (n.toNat / 100 % 10) (by omega)
  have d3 := digitVal_utod (n.toNat / 10 % 10) (by omega)
  have d4 := digitVal_utod (n.toNat % 10) (by omega)
  have i1 := utod_isDigit (n.toNat / 1000) (by omega)
  have i2 := utod_isDigit (n.toNat / 100 % 10) (by omega)
  have i3 := utod_isDigit (n.toNat / 10 % 10) (by omega)
  have i4 := utod_isDigit (n.toNat % 10) (by omega)
  simp only [List.cons_append, List.nil_append, getYear, i1, i2, i3, i4, Bool.and_self,
    if_true, digitsVal, List.foldl, d1, d2, d3, d4, Nat.mul_zero, Nat.zero_add]
  have e' : ((10 * (10 * (10 * (n.toNat / 1000) + n.toNat / 100 % 10) + n.toNat / 10 % 10)
      + n.toNat % 10 : Nat) : Int) = n := by omega
  rw [e']

theorem skipChar_cons (c : Char) (rest : List Char) : skipChar c (c :: rest) = .ok rest := by
  simp [skipChar]

theorem getFraction_sign (sg : Char) (rest : List Char) (h : sg = '+' ∨ sg = '-') :
    getFraction (sg :: rest) = (0, sg :: rest) := by
  rcases h with rfl | rfl <;> cases rest <;> simp [getFraction]

theorem getZone_appendInt (sg : Char) (zh zm : Int) (h1 : 0 ≤ zh) (h2 : zh < 100)
    (h3 : 0 ≤ zm) (h4 : zm < 100) :
    getZone (sg :: (appendInt zh 2 ++ appendInt zm 2))
      = if zm > 60 then .error (.outOfRange "time zone offset minute")
        else if zh > 24 then .error (.outOfRange "time zone offset hour")
        else if sg = '+' then .ok ((zh * 60 + zm) * 60, [])
        else if sg = '-' then .ok (-((zh * 60 + zm) * 60), [])
        else .error .bad := by
  have ez : ((zh.toNat / 10 : Nat) : Int) * 10 + ((zh.toNat % 10 : Nat) : Int) = zh := by omega
  have em : ((zm.toNat / 10 : Nat) : Int) * 10 + ((zm.toNat % 10 : Nat) : Int) = zm := by omega
  rw [appendInt_two zh h1 h2, appendInt_two zm h3 h4]
  simp only [List.cons_append, List.nil_append, getZone,
    getnum_two _ _ (show zh.toNat / 10 < 10 by omega) (show zh.toNat % 10 < 10 by omega),
    getnum_two _ _ (show zm.toNat / 10 < 10 by omega) (show zm.toNat % 10 < 10 by omega), ez, em]

theorem Parse_renderStamp (year month day hour min sec : Int) (sg : Char) (zh zm : Int)
    (hy0 : 0 ≤ year) (hy : year < 10000) (hm0 : 0 ≤ month) (hm : month < 100)
    (hd0 : 0 ≤ day) (hd : day < 100) (hh0 : 0 ≤ hour) (hh : hour < 100)
    (hn0 : 0 ≤ min) (hn : min < 100) (hs0 : 0 ≤ sec) (hs : sec < 100)
    (hsg : sg = '+' ∨ sg = '-')
    (hzh0 : 0 ≤ zh) (hzh : zh < 100) (hzm0 : 0 ≤ zm) (hzm : zm < 100) :
    Parse (String.mk (renderStamp year month day hour min sec sg zh zm))
      = if month ≤ 0 ∨ 12 < month then .error (.outOfRange "month")
        else if 24 ≤ hour then .error (.outOfRange "hour")
        else if 60 ≤ min then .error (.outOfRange "minute")
        else if 60 ≤ sec then .error (.outOfRange "second")
        else if zm > 60 then .error (.outOfRange "time zone offset minute")
        else if zh > 24 then .error (.outOfRange "time zone offset hour")
        else if day < 1 ∨ day > daysIn month year then .error (.outOfRange "day")
        else .ok (stampTime year month day hour min sec
          (if sg = '+' then zh * 60 + zm else -(zh * 60 + zm))) := by
  have hr : renderStamp year month day hour min sec sg zh zm
      = appendInt year 4 ++ ('-' :: (appendInt month 2 ++ ('-' :: (appendInt day 2
        ++ ('T' :: (appendInt hour 2 ++ (':' :: (appendInt min 2 ++ (':' :: (appendInt sec 2
        ++ (sg :: (appendInt zh 2 ++ appendInt zm 2)))))))))))) := by
    simp [renderStamp]
  simp only [Parse, hr, bind, Except.bind, getYear_appendInt year hy0 hy, skipChar_cons,
    getnum_appendInt month hm0 hm, getnum_appendInt day hd0 hd, getnum_appendInt hour hh0 hh,
    getnum_appendInt min hn0 hn, getnum_appendInt sec hs0 hs, getFraction_sign _ _ hsg,
    getZone_appendInt sg zh zm hzh0 hzh hzm0 hzm]
  simp only [pure, Except.pure]
  by_cases c1 : month ≤ 0 ∨ 12 < month
  · simp only [if_pos c1]
  simp only [if_neg c1]
  by_cases c2 : 24 ≤ hour
  · simp only [if_pos c2]
  simp only [if_neg c2]
  by_cases c3 : 60 ≤ min
  · simp only [if_pos c3]
  simp only [if_neg c3]
  by_cases c4 : 60 ≤ sec
  · simp only [if_pos c4]
  simp only [if_neg c4]
  by_cases c5 : zm > 60
  · simp only [if_pos c5]
  simp only [if_neg c5]
  by_cases c6 : zh > 24
  · simp only [if_pos c6]
  simp only [if_neg c6]
  have hminus : ('-' : Char) ≠ '+' := by decide
  rcases hsg with rfl | rfl
  · simp only [if_true, List.isEmpty_nil, Bool.not_true, Bool.false_eq_true, if_false]
    by_cases c7 : day < 1 ∨ day > daysIn month year
    · simp only [if_pos c7]
    simp only [if_neg c7, stampTime, Except.ok.injEq, Time.mk.injEq, Date]
  · simp only [if_neg hminus, if_true, List.isEmpty_nil, Bool.not_true, Bool.false_eq_true,
      if_false]
    by_cases c7 : day < 1 ∨ day > daysIn month year
    · simp only [if_pos c7]
    simp only [if_neg c7, stampTime, Except.ok.injEq, Time.mk.injEq, Date]
    exact ⟨by ring, trivial, by ring⟩

theorem digit_bounds (c : Char) (h : c.isDigit = true) : 48 ≤ c.toNat ∧ c.toNat ≤ 57 := by
  simp only [Char.isDigit, Bool.and_eq_true, decide_eq_true_eq, UInt32.le_def, ge_iff_le] at h
  exact ⟨h.1, h.2⟩

theorem digitVal_lt (c : Char) (h : c.isDigit = true) : digitVal c < 10 := by
  have := digit_bounds c h
  simp only [digitVal]
  have : '0'.toNat = 48 := rfl
  omega

theorem utod_digitVal (c : Char) (h : c.isDigit = true) : utod (digitVal c) = c := by
  have hb := digit_bounds c h
  have h0 : '0'.toNat = 48 := rfl
  have : '0'.toNat + digitVal c = c.toNat := by
    simp only [digitVal]
    omega
  rw [utod, this, Char.ofNat_toNat]

theorem two_digits (a b : Char) (ha : a.isDigit = true) (hb : b.isDigit = true) :
    appendInt ((digitVal a * 10 + digitVal b : Nat) : Int) 2 = [a, b]
    ∧ 0 ≤ ((digitVal a * 10 + digitVal b : Nat) : Int)
    ∧ ((digitVal a * 10 + digitVal b : Nat) : Int) < 100 := by
  have la := digitVal_lt a ha
  have lb := digitVal_lt b hb
  refine ⟨?_, by omega, by omega⟩
  rw [appendInt_two _ (by omega) (by omega)]
  have e1 : ((digitVal a * 10 + digitVal b : Nat) : Int).toNat / 10 = digitVal a := by omega
  have e2 : ((digitVal a * 10 + digitVal b : Nat) : Int).toNat % 10 = digitVal b := by omega
  rw [e1, e2, utod_digitVal a ha, utod_digitVal b hb]

theorem four_digits (a b c d : Char) (ha : a.isDigit = true) (hb : b.isDigit = true)
    (hc : c.isDigit = true) (hd : d.isDigit = true) :
    appendInt ((digitVal a * 1000 + digitVal b * 100 + digitVal c * 10 + digitVal d : Nat) : Int) 4
      = [a, b, c, d]
    ∧ 0 ≤ ((digitVal a * 1000 + digitVal b * 100 + digitVal c * 10 + digitVal d : Nat) : Int)
    ∧ ((digitVal a * 1000 + digitVal b * 100 + digitVal c * 10 + digitVal d : Nat) : Int)
        < 10000 := by
  have la := digitVal_lt a ha
  have lb := digitVal_lt b hb
  have lc := digitVal_lt c hc
  have ld := digitVal_lt d hd
  refine ⟨?_, by omega, by omega⟩
  rw [appendInt_four _ (by omega) (by omega)]
  have e1 : ((digitVal a * 1000 + digitVal b * 100 + digitVal c * 10 + digitVal d : Nat)
      : Int).toNat / 1000 = digitVal a := by omega
  have e2 : ((digitVal a * 1000 + digitVal b * 100 + digitVal c * 10 + digitVal d : Nat)
      : Int).toNat / 100 % 10 = digitVal b := by omega
  have e3 : ((digitVal a * 1000 + digitVal b * 100 + digitVal c * 10 + digitVal d : Nat)
      : Int).toNat / 10 % 10 = digitVal c := by omega
  have e4 : ((digitVal a * 1000 + digitVal b * 100 + digitVal c * 10 + digitVal d : Nat)
      : Int).toNat % 10 = digitVal d := by omega
  rw [e1, e2, e3, e4, utod_digitVal a ha, utod_digitVal b hb, utod_digitVal c hc,
    utod_digitVal d hd]

/-- A string in the vendor format is the rendering of its field values. -/
theorem isVendorFormat_fields (s : String) (h : isVendorFormat s = true) :
    ∃ (year month day hour min sec : Int) (sg : Char) (zh zm : Int),
      s.data = renderStamp year month day hour min sec sg zh zm
      ∧ (0 ≤ year ∧ year < 10000) ∧ (0 ≤ month ∧ month < 100) ∧ (0 ≤ day ∧ day < 100)
      ∧ (0 ≤ hour ∧ hour < 100) ∧ (0 ≤ min ∧ min < 100) ∧ (0 ≤ sec ∧ sec < 100)
      ∧ (sg = '+' ∨ sg = '-') ∧ (0 ≤ zh ∧ zh < 100) ∧ (0 ≤ zm ∧ zm < 100) := by
  unfold isVendorFormat at h
  split at h
  · rename_i y1 y2 y3 y4 p1 m1 m2 p2 d1 d2 pt h1 h2 c1 n1 n2 c2 s1 s2 sg z1 z2 z3 z4 hs
    simp only [Bool.and_eq_true, beq_iff_eq, Bool.or_eq_true] at h
    obtain ⟨⟨⟨⟨⟨⟨⟨⟨⟨⟨⟨⟨⟨⟨⟨⟨⟨⟨⟨⟨⟨⟨⟨hy1, hy2⟩, hy3⟩, hy4⟩, rfl⟩, hm1⟩, hm2⟩, rfl⟩, hd1⟩, hd2⟩, rfl⟩,
      hh1⟩, hh2⟩, rfl⟩, hn1⟩, hn2⟩, rfl⟩, hs1⟩, hs2⟩, hsg⟩, hz1⟩, hz2⟩, hz3⟩, hz4⟩ := h
    obtain ⟨ey, ey0, ey1⟩ := four_digits y1 y2 y3 y4 hy1 hy2 hy3 hy4
    obtain ⟨em, em0, em1⟩ := two_digits m1 m2 hm1 hm2
    obtain ⟨ed, ed0, ed1⟩ := two_digits d1 d2 hd1 hd2
    obtain ⟨eh, eh0, eh1⟩ := two_digits h1 h2 hh1 hh2
    obtain ⟨en, en0, en1⟩ := two_digits n1 n2 hn1 hn2
    obtain ⟨es, es0, es1⟩ := two_digits s1 s2 hs1 hs2
    obtain ⟨ez, ez0, ez1⟩ := two_digits z1 z2 hz1 hz2
    obtain ⟨ew, ew0, ew1⟩ := two_digits z3 z4 hz3 hz4
    refine ⟨_, _, _, _, _, _, sg, _, _, ?_, ⟨ey0, ey1⟩, ⟨em0, em1⟩, ⟨ed0, ed1⟩, ⟨eh0, eh1⟩,
      ⟨en0, en1⟩, ⟨es0, es1⟩, hsg, ⟨ez0, ez1⟩, ⟨ew0, ew1⟩⟩
    rw [hs, renderStamp, ey, em, ed, eh, en, es, ez, ew]
    rfl
  · exact absurd h (by simp)

theorem Format_stampTime (year month day hour min sec zone : Int)
    (hm1 : 1 ≤ month) (hm : month ≤ 12) (hd1 : 1 ≤ day) (hd : day ≤ daysIn month year)
    (hh0 : 0 ≤ hour) (hh : hour < 24) (hn0 : 0 ≤ min) (hn : min < 60)
    (hs0 : 0 ≤ sec) (hs : sec < 60) :
    (stampTime year month day hour min sec zone).Format
      = String.mk (renderStamp year month day hour min sec (if zone < 0 then '-' else '+')
          ((if zone < 0 then -zone else zone) / 60) ((if zone < 0 then -zone else zone) % 60)) := by
  obtain ⟨h1, h2⟩ := absDate_absClock_Date year month day hour min sec 0 hm1 hm hd1 hd hh0 hh
    hn0 hn hs0 hs
  have e1 : (Date year month day hour min sec 0).sec - zone * 60 + zone * 60
      = (Date year month day hour min sec 0).sec := by ring
  have e2 : (zone * 60).tdiv 60 = zone := Int.mul_tdiv_cancel zone (by decide)
  simp only [Time.Format, stampTime, e1, e2, h1, h2]

theorem renderStamp_shape (year month day hour min sec : Int) (sg : Char) (zh zm : Int)
    (hy0 : 0 ≤ year) (hy : year < 10000) (hz0 : 0 ≤ zm) (hz : zm < 100) :
    ∃ (a b : Char) (mid : List Char),
      renderStamp year month day hour min sec sg zh zm = a :: (mid ++ [b])
      ∧ a.isDigit = true ∧ b.isDigit = true := by
  refine ⟨utod (year.toNat / 1000),  utod (zm.toNat % 10),
    [utod (year.toNat / 100 % 10), utod (year.toNat / 10 % 10), utod (year.toNat % 10)]
      ++ ['-'] ++ appendInt month 2 ++ ['-'] ++ appendInt day 2
      ++ ['T'] ++ appendInt hour 2 ++ [':'] ++ appendInt min 2 ++ [':'] ++ appendInt sec 2
      ++ [sg] ++ appendInt zh 2 ++ [utod (zm.toNat / 10)], ?_,
    utod_isDigit _ (by omega), utod_isDigit _ (by omega)⟩
  rw [renderStamp, appendInt_four year hy0 hy, appendInt_two zm hz0 hz]
  simp

theorem TrimQuotes_quoted (a b : Char) (mid : List Char) (ha : a.isDigit = true)
    (hb : b.isDigit = true) :
    TrimQuotes ("\"" ++ String.mk (a :: (mid ++ [b])) ++ "\"") = String.mk (a :: (mid ++ [b])) := by
  have ha' : a ≠ '"' := by
    rintro rfl
    exact absurd ha (by decide)
  have hb' : b ≠ '"' := by
    rintro rfl
    exact absurd hb (by decide)
  have hq : ("\"" : String).data = ['"'] := rfl
  have e : ("\"" ++ String.mk (a :: (mid ++ [b])) ++ "\"").data
      = '"' :: ((a :: mid) ++ [b] ++ ['"']) := by
    simp [String.data_append, hq]
  unfold TrimQuotes
  rw [e]
  have d1 : List.dropWhile (fun x => decide (x = '"')) ('"' :: ((a :: mid) ++ [b] ++ ['"']))
      = (a :: mid) ++ [b] ++ ['"'] := by
    simp [List.dropWhile, ha']
  rw [d1, List.rdropWhile_concat_pos _ _ _ (by simp),
    List.rdropWhile_concat_neg _ _ _ (by simpa using hb')]
  simp

theorem digit_string_ne (a : Char) (rest : List Char) (ha : a.isDigit = true) :
    ((String.mk (a :: rest) == "null") || (String.mk (a :: rest) == "")) = false := by
  have h1 : String.mk (a :: rest) ≠ "null" := by
    intro h
    have h2 := congrArg String.data h
    have h3 : ("null" : String).data = ['n', 'u', 'l', 'l'] := rfl
    rw [h3] at h2
    simp only [List.cons.injEq] at h2
    rw [h2.1] at ha
    exact absurd ha (by decide)
  have h2 : String.mk (a :: rest) ≠ "" := by
    intro h
    have h2 := congrArg String.data h
    simp at h2
  simp [h1, h2]

/-- Decoding the quoted rendering of field values: an error exactly when `Parse`
rejects the rendering, else the parsed time in the receiver. -/
theorem UnmarshalJSON_renderStamp (ft : FacebookTime) (year month day hour min sec : Int)
    (sg : Char) (zh zm : Int) (hy0 : 0 ≤ year) (hy : year < 10000) (hz0 : 0 ≤ zm)
    (hz : zm < 100) :
    ft.UnmarshalJSON
        ("\"" ++ String.mk (renderStamp year month day hour min sec sg zh zm) ++ "\"")
      = match Parse (String.mk (renderStamp year month day hour min sec sg zh zm)) with
        | .error err => (some err, ft)
        | .ok parsedTime => (none, { ft with Time := parsedTime }) := by
  obtain ⟨a, b, mid, e, ha, hb⟩ := renderStamp_shape year month day hour min sec sg zh zm hy0 hy
    hz0 hz
  rw [e]
  simp only [FacebookTime.UnmarshalJSON, TrimQuotes_quoted a b mid ha hb,
    digit_string_ne a (mid ++ [b]) ha]
  rfl

theorem Time.Equal_self (t : Time) : t.Equal t = true := by
  simp [Time.Equal]

theorem zone_2460 : appendInt 24 2 ++ appendInt 60 2 = ['2', '4', '6', '0'] := by decide

theorem renderStamp_drop (year month day hour min sec : Int) (sg : Char) (zh zm : Int)
    (hy0 : 0 ≤ year) (hy : year < 10000) (hm0 : 0 ≤ month) (hm : month < 100)
    (hd0 : 0 ≤ day) (hd : day < 100) (hh0 : 0 ≤ hour) (hh : hour < 100)
    (hn0 : 0 ≤ min) (hn : min < 100) (hs0 : 0 ≤ sec) (hs : sec < 100) :
    (renderStamp year month day hour min sec sg zh zm).drop 20
      = appendInt zh 2 ++ appendInt zm 2 := by
  rw [renderStamp, appendInt_four year hy0 hy, appendInt_two month hm0 hm,
    appendInt_two day hd0 hd, appendInt_two hour hh0 hh, appendInt_two min hn0 hn,
    appendInt_two sec hs0 hs]
  simp

/-- C8, amended: for every string in the vendor format that `UnmarshalJSON` accepts
and whose zone field is not `2460`, encoding the decoded value with `MarshalJSON`
and decoding the output into a fresh `FacebookTime` succeeds and yields the same
point in time as the first decode. -/
theorem timestamp_round_trip (ft0 : FacebookTime) (s : String)
    (hfmt : isVendorFormat s = true) (hzone : s.data.drop 20 ≠ ['2', '4', '6', '0'])
    (hacc : (ft0.UnmarshalJSON ("\"" ++ s ++ "\"")).1 = none) :
    (FacebookTime.UnmarshalJSON ⟨Time.zero⟩
        (ft0.UnmarshalJSON ("\"" ++ s ++ "\"")).2.MarshalJSON).1 = none
    ∧ (FacebookTime.UnmarshalJSON ⟨Time.zero⟩
        (ft0.UnmarshalJSON ("\"" ++ s ++ "\"")).2.MarshalJSON).2.Time.Equal
          (ft0.UnmarshalJSON ("\"" ++ s ++ "\"")).2.Time = true := by
  obtain ⟨year, month, day, hour, min, sec, sg, zh, zm, hs, ⟨hy0, hy⟩, ⟨hm0, hm⟩, ⟨hd0, hd⟩,
    ⟨hh0, hh⟩, ⟨hn0, hn⟩, ⟨hs0, hs1⟩, hsg, ⟨hzh0, hzh⟩, ⟨hzm0, hzm⟩⟩ := isVendorFormat_fields s hfmt
  have es : s = String.mk (renderStamp year month day hour min sec sg zh zm) :=
    String.ext hs
  rw [hs, renderStamp_drop year month day hour min sec sg zh zm hy0 hy hm0 hm hd0 hd hh0 hh
    hn0 hn hs0 hs1] at hzone
  have hnot : ¬ (zh = 24 ∧ zm = 60) := by
    rintro ⟨rfl, rfl⟩
    exact hzone zone_2460
  subst es
  rw [UnmarshalJSON_renderStamp ft0 _ _ _ _ _ _ _ _ _ hy0 hy hzm0 hzm] at hacc ⊢
  rw [Parse_renderStamp year month day hour min sec sg zh zm hy0 hy hm0 hm hd0 hd hh0 hh hn0 hn
    hs0 hs1 hsg hzh0 hzh hzm0 hzm] at hacc ⊢
  by_cases c1 : month ≤ 0 ∨ 12 < month
  · rw [if_pos c1] at hacc
    exact absurd hacc (by simp)
  rw [if_neg c1] at hacc ⊢
  by_cases c2 : 24 ≤ hour
  · rw [if_pos c2] at hacc
    exact absurd hacc (by simp)
  rw [if_neg c2] at hacc ⊢
  by_cases c3 : 60 ≤ min
  · rw [if_pos c3] at hacc
    exact absurd hacc (by simp)
  rw [if_neg c3] at hacc ⊢
  by_cases c4 : 60 ≤ sec
  · rw [if_pos c4] at hacc
    exact absurd hacc (by simp)
  rw [if_neg c4] at hacc ⊢
  by_cases c5 : zm > 60
  · rw [if_pos c5] at hacc
    exact absurd hacc (by simp)
  rw [if_neg c5] at hacc ⊢
  by_cases c6 : zh > 24
  · rw [if_pos c6] at hacc
    exact absurd hacc (by simp)
  rw [if_neg c6] at hacc ⊢
  by_cases c7 : day < 1 ∨ day > daysIn month year
  · rw [if_pos c7] at hacc
    exact absurd hacc (by simp)
  rw [if_neg c7]
  clear hacc
  generalize hzdef : (if sg = '+' then zh * 60 + zm else -(zh * 60 + zm)) = zone
  have hzb : -1499 ≤ zone ∧ zone ≤ 1499 := by
    rw [← hzdef]
    split <;> omega
  simp only [FacebookTime.MarshalJSON]
  by_cases hzero : (stampTime year month day hour min sec zone).IsZero = true
  · rw [if_pos hzero]
    have h1 : TrimQuotes "null" = "null" := by decide
    simp only [FacebookTime.UnmarshalJSON, h1, beq_self_eq_true, Bool.true_or, if_true]
    simp only [Time.IsZero, Bool.and_eq_true, beq_iff_eq] at hzero
    simp [Time.Equal, Time.zero, hzero.1, hzero.2]
  · rw [if_neg hzero]
    rw [Format_stampTime year month day hour min sec zone (by omega) (by omega) (by omega)
      (by omega) hh0 (by omega) hn0 (by omega) hs0 (by omega)]
    have q0 : 0 ≤ (if zone < 0 then -zone else zone) / 60 := by split <;> omega
    have q1 : (if zone < 0 then -zone else zone) / 60 ≤ 24 := by split <;> omega
    have r0 : 0 ≤ (if zone < 0 then -zone else zone) % 60 := by split <;> omega
    have r1 : (if zone < 0 then -zone else zone) % 60 < 60 := by split <;> omega
    have hsg' : (if zone < 0 then '-' else '+') = '+' ∨ (if zone < 0 then '-' else '+') = '-' := by
      split
      · exact Or.inr rfl
      · exact Or.inl rfl
    rw [UnmarshalJSON_renderStamp _ _ _ _ _ _ _ _ _ _ hy0 hy r0 (by omega),
      Parse_renderStamp year month day hour min sec _ _ _ hy0 hy hm0 hm hd0 hd hh0 hh hn0 hn
        hs0 hs1 hsg' q0 (by omega) r0 (by omega),
      if_neg c1, if_neg c2, if_neg c3, if_neg c4, if_neg (by omega), if_neg (by omega), if_neg c7]
    have hz' : (if (if zone < 0 then '-' else '+') = '+' then
          (if zone < 0 then -zone else zone) / 60 * 60 + (if zone < 0 then -zone else zone) % 60
        else -((if zone < 0 then -zone else zone) / 60 * 60
          + (if zone < 0 then -zone else zone) % 60)) = zone := by
      by_cases hn : zone < 0
      · have hm' : ('-' : Char) ≠ '+' := by decide
        simp only [if_pos hn, if_neg hm']
        omega
      · simp only [if_neg hn, if_true]
        omega
    rw [hz']
    exact ⟨rfl, Time.Equal_self _⟩

/-- C8 fails as stated: `2024-01-01T00:00:00+2460` is in the vendor format and
`UnmarshalJSON` accepts it (`Parse` allows 24 hours and 60 minutes in a zone),
`MarshalJSON` renders the zone of the decoded value as `+2500`, and decoding that
output is rejected (zone hour out of range). -/
theorem timestamp_round_trip_fails :
    isVendorFormat "2024-01-01T00:00:00+2460" = true
    ∧ (FacebookTime.UnmarshalJSON ⟨Time.zero⟩ "\"2024-01-01T00:00:00+2460\"").1 = none
    ∧ (FacebookTime.UnmarshalJSON ⟨Time.zero⟩ "\"2024-01-01T00:00:00+2460\"").2.MarshalJSON
        = "\"2024-01-01T00:00:00+2500\""
    ∧ (FacebookTime.UnmarshalJSON ⟨Time.zero⟩
        (FacebookTime.UnmarshalJSON ⟨Time.zero⟩
          "\"2024-01-01T00:00:00+2460\"").2.MarshalJSON).1
        = some (.outOfRange "time zone offset hour") := by
  decide

/-- C8, amended, at the timestamp of the source comment, `2024-11-26T04:54:25+0000`. -/
theorem timestamp_round_trip_witness :
    (FacebookTime.UnmarshalJSON ⟨Time.zero⟩
        (FacebookTime.UnmarshalJSON ⟨Time.zero⟩
          ("\"" ++ "2024-11-26T04:54:25+0000" ++ "\"")).2.MarshalJSON).1 = none
    ∧ (FacebookTime.UnmarshalJSON ⟨Time.zero⟩
        (FacebookTime.UnmarshalJSON ⟨Time.zero⟩
          ("\"" ++ "2024-11-26T04:54:25+0000" ++ "\"")).2.MarshalJSON).2.Time.Equal
          (FacebookTime.UnmarshalJSON ⟨Time.zero⟩
            ("\"" ++ "2024-11-26T04:54:25+0000" ++ "\"")).2.Time = true :=
  timestamp_round_trip ⟨Time.zero⟩ "2024-11-26T04:54:25+0000" (by decide) (by decide)
    (by decide)

theorem writeError_isErrorEnvelope (w : ResponseWriter) (status : Int) (msg : String) :
    (writeError w status msg).isErrorEnvelope status msg :=
  ⟨rfl, rfl⟩

/-- C12: for every request whose path `SimpleRouter` hands to a handler and whose
method is neither GET nor OPTIONS, `ServeHTTP` answers 405 with the body `error` →
`Method not allowed`, `code` → 405 and invokes no Resource Method, whatever the
path value, the credentials of the request, the router's default client, the
environment and the Resource Methods are. -/
theorem wrong_verb_405 (r : SimpleRouter) (env : Env) (api : API) (req : Request)
    (hr : route req.Path ≠ .notFound) (hg : req.Method ≠ "GET")
    (ho : req.Method ≠ "OPTIONS") :
    r.ServeHTTP env api req = ⟨writeError (enableCORS {}) 405 "Method not allowed", []⟩
    ∧ (r.ServeHTTP env api req).w.isErrorEnvelope 405 "Method not allowed"
    ∧ (r.ServeHTTP env api req).calls = [] := by
  have hopt : (req.Method == "OPTIONS") = false := by simp [ho]
  have hget : (req.Method != "GET") = true := by simp [hg]
  have main : r.ServeHTTP env api req
      = ⟨writeError (enableCORS {}) 405 "Method not allowed", []⟩ := by
    simp only [SimpleRouter.ServeHTTP, hopt]
    cases hroute : route req.Path with
    | healthCheck => simp [SimpleRouter.healthCheck, hget]
    | getPosts => simp [SimpleRouter.getPosts, hget]
    | getPage => simp [SimpleRouter.getPage, hget]
    | getPages => simp [SimpleRouter.getPages, hget]
    | getPostComments => simp [SimpleRouter.getPostComments, hget]
    | getCommentReplies => simp [SimpleRouter.getCommentReplies, hget]
    | getComment => simp [SimpleRouter.getComment, hget]
    | notFound => exact absurd hroute hr
  rw [main]
  exact ⟨rfl, writeError_isErrorEnvelope _ _ _, rfl⟩

/-- C12 at a concrete request: `POST /api/pages/` has an empty page id and no
credential, on a router without default client, and is answered 405, not 400 or
401. -/
theorem wrong_verb_405_witness :
    (SimpleRouter.ServeHTTP ⟨none⟩ (fun _ => "") (fun _ => .ok .null)
        { Method := "POST", Path := "/api/pages/", Query := ⟨[]⟩, Header := ⟨[]⟩ }).w.isErrorEnvelope
      405 "Method not allowed"
    ∧ (SimpleRouter.ServeHTTP ⟨none⟩ (fun _ => "") (fun _ => .ok .null)
        { Method := "POST", Path := "/api/pages/", Query := ⟨[]⟩, Header := ⟨[]⟩ }).calls = [] :=
  (wrong_verb_405 ⟨none⟩ (fun _ => "") (fun _ => .ok .null)
    { Method := "POST", Path := "/api/pages/", Query := ⟨[]⟩, Header := ⟨[]⟩ }
    (by decide) (by decide) (by decide)).2

/-- The meaning of `matchesPattern`: the path is the prefix, one path value and the
suffix. -/
theorem matchesPattern_iff (path pre suf : String) :
    matchesPattern path pre suf = true
      ↔ ∃ x : String, isPathValue x = true ∧ path = pre ++ x ++ suf := by
  constructor
  · intro h
    simp only [matchesPattern, Bool.and_eq_true] at h
    obtain ⟨h1, h2, h3⟩ := h
    obtain ⟨t, rfl⟩ := (HasPrefix_iff _ _).1 h1
    have hd : (pre ++ t).data.drop pre.data.length = t.data := by simp
    rw [hd] at h2 h3
    rw [List.isSuffixOf_iff_suffix] at h2
    obtain ⟨u, hu⟩ := h2
    refine ⟨String.mk u, ?_, ?_⟩
    · have : (t.data.take (t.data.length - suf.data.length)) = u := by
        rw [← hu]
        simp
      rw [this] at h3
      exact h3
    · apply String.ext
      simp [← hu]
  · rintro ⟨x, hx, rfl⟩
    simp only [matchesPattern, Bool.and_eq_true]
    refine ⟨by rw [String.append_assoc]; exact HasPrefix_append _ _, ?_, ?_⟩
    · rw [List.isSuffixOf_iff_suffix]
      exact ⟨x.data, by simp⟩
    · have : ((pre ++ x ++ suf).data.drop pre.data.length).take
          (((pre ++ x ++ suf).data.drop pre.data.length).length - suf.data.length) = x.data := by
        simp
      rw [this]
      exact hx

theorem extractPathParam_rest (p x : String) : extractPathParam (p ++ x) p "" = x := by
  unfold extractPathParam
  rw [HasPrefix_append, drop_prefix_append]
  simp

theorem route_notFound (path : String) (hm : matchesRouteTable path = false)
    (h1 : HasPrefix path "/api/comments/" = false) (h2 : path ≠ "/api/pages/")
    (h3 : ¬ (HasPrefix path "/api/pages/" = true ∧ HasSuffix path "/posts" = true))
    (h4 : ¬ (HasPrefix path "/api/posts/" = true ∧ HasSuffix path "/comments" = true)) :
    route path = .notFound := by
  simp only [matchesRouteTable, Bool.or_eq_false_iff, beq_eq_false_iff_ne, ne_eq] at hm
  obtain ⟨⟨⟨⟨⟨⟨m1, m2⟩, -⟩, -⟩, -⟩, -⟩, m7⟩ := hm
  have c3 : (HasPrefix path "/api/pages/" && !Contains (String.mk (path.data.drop 11)) "/")
      = false := by
    cases hp : HasPrefix path "/api/pages/" with
    | false => rfl
    | true =>
      cases hc : Contains (String.mk (path.data.drop 11)) "/" with
      | true => rfl
      | false =>
        exfalso
        obtain ⟨t, rfl⟩ := (HasPrefix_iff _ _).1 hp
        have ht : t ≠ "" := by
          rintro rfl
          exact h2 rfl
        have hd : String.mk (("/api/pages/" ++ t).data.drop 11) = t :=
          drop_prefix_append "/api/pages/" t
        rw [hd] at hc
        have : matchesPattern ("/api/pages/" ++ t) "/api/pages/" "" = true := by
          rw [matchesPattern_iff]
          exact ⟨t, by simp [isPathValue, ht, hc], by simp⟩
        rw [this] at m1
        exact Bool.noConfusion m1
  have c2 : (HasPrefix path "/api/pages/" && HasSuffix path "/posts") = false := by
    simpa using h3
  have c5 : (HasPrefix path "/api/posts/" && HasSuffix path "/comments") = false := by
    simpa using h4
  have e1 : (path == "/health") = false := by simp [m7]
  have e4 : (path == "/api/pages") = false := by simp [m2]
  simp only [route, e1, c2, c3, e4, c5, h1, Bool.false_and, Bool.false_eq_true, if_false]
theorem route_comment_guard (x : String)
    (hs : HasSuffix ("/api/comments/" ++ x) "/replies" = false) :
    route ("/api/comments/" ++ x) = .getComment := by
  have e1 : "/api/comments/" ++ x ≠ "/health" := by
    apply ne_of_length_lt
    simp only [String.length_append]
    have : "/api/comments/".length = 14 := rfl
    have : "/health".length = 7 := rfl
    omega
  have e4 : "/api/comments/" ++ x ≠ "/api/pages" := by
    apply ne_of_length_lt
    simp only [String.length_append]
    have : "/api/comments/".length = 14 := rfl
    have : "/api/pages".length = 10 := rfl
    omega
  have p1 : HasPrefix ("/api/comments/" ++ x) "/api/pages/" = false :=
    HasPrefix_append_false _ _ _ (by decide) (by decide)
  have p2 : HasPrefix ("/api/comments/" ++ x) "/api/posts/" = false :=
    HasPrefix_append_false _ _ _ (by decide) (by decide)
  simp [route, e1, e4, p1, p2, hs, HasPrefix_append]

/-- C11, amended: a non-OPTIONS request whose path matches none of the seven
patterns is answered 404 `Endpoint not found`, without any Resource Method call,
provided the path is not taken by the prefix and suffix tests of a handler: it does
not begin with `/api/comments/`, is not `/api/pages/`, does not both begin with
`/api/pages/` and end with `/posts`, and does not both begin with `/api/posts/` and
end with `/comments`. A GET for `/api/comments/<x>` not ending in `/replies`, with
`x` empty or containing `/`, is answered 400 `Comment ID is required` by the guard
of `getComment`, also without any call. -/
theorem unmatched_route_404 (r : SimpleRouter) (env : Env) (api : API) (req : Request) :
    (req.Method ≠ "OPTIONS" → matchesRouteTable req.Path = false →
      HasPrefix req.Path "/api/comments/" = false → req.Path ≠ "/api/pages/" →
      ¬ (HasPrefix req.Path "/api/pages/" = true ∧ HasSuffix req.Path "/posts" = true) →
      ¬ (HasPrefix req.Path "/api/posts/" = true ∧ HasSuffix req.Path "/comments" = true) →
      r.ServeHTTP env api req = ⟨writeError (enableCORS {}) 404 "Endpoint not found", []⟩
      ∧ (r.ServeHTTP env api req).w.isErrorEnvelope 404 "Endpoint not found"
      ∧ (r.ServeHTTP env api req).calls = [])
    ∧ (∀ x : String, req.Method = "GET" → req.Path = "/api/comments/" ++ x →
        (x = "" ∨ Contains x "/" = true) → HasSuffix req.Path "/replies" = false →
        (r.ServeHTTP env api req).w.isErrorEnvelope 400 "Comment ID is required"
        ∧ (r.ServeHTTP env api req).calls = []) := by
  constructor
  · intro ho hm h1 h2 h3 h4
    have hopt : (req.Method == "OPTIONS") = false := by simp [ho]
    have main : r.ServeHTTP env api req
        = ⟨writeError (enableCORS {}) 404 "Endpoint not found", []⟩ := by
      simp only [SimpleRouter.ServeHTTP, hopt, route_notFound req.Path hm h1 h2 h3 h4]
      rfl
    rw [main]
    exact ⟨rfl, writeError_isErrorEnvelope _ _ _, rfl⟩
  · intro x hg hp hx hs
    have hopt : (req.Method == "OPTIONS") = false := by rw [hg]; rfl
    have hget : (req.Method != "GET") = false := by rw [hg]; rfl
    rw [hp] at hs
    have hguard : ((x == "") || Contains x "/") = true := by
      rcases hx with rfl | hx
      · rfl
      · simp [hx]
    have main : r.ServeHTTP env api req
        = ⟨writeError (enableCORS {}) 400 "Comment ID is required", []⟩ := by
      simp only [SimpleRouter.ServeHTTP, hopt, hp, route_comment_guard x hs,
        SimpleRouter.getComment, hget, extractPathParam_rest, hguard]
      rfl
    rw [main]
    exact ⟨writeError_isErrorEnvelope _ _ _, rfl⟩

/-- C11 fails as stated: `/api/comments/a/b` matches none of the seven patterns, and
a GET for it is answered 400 by the guard of `getComment`, not 404; and
`/api/pages/a/b/posts` matches none either, and a GET for it calls `GetPosts` on the
page id `a/b`. -/
theorem unmatched_route_not_404 :
    matchesRouteTable "/api/comments/a/b" = false
    ∧ (SimpleRouter.ServeHTTP ⟨some (NewClient "D")⟩ (fun _ => "") (fun _ => .ok .null)
        { Method := "GET", Path := "/api/comments/a/b", Query := ⟨[]⟩,
          Header := ⟨[]⟩ }).w.StatusCode = 400
    ∧ matchesRouteTable "/api/pages/a/b/posts" = false
    ∧ (SimpleRouter.ServeHTTP ⟨some (NewClient "D")⟩ (fun _ => "") (fun _ => .ok .null)
        { Method := "GET", Path := "/api/pages/a/b/posts", Query := ⟨[]⟩,
          Header := ⟨[]⟩ }).calls = [.GetPosts (NewClient "D") "a/b" 10 []] := by
  decide

/-- C11, amended, at concrete requests: `GET /api/users/5` is answered 404 and
`GET /api/comments/a/b` is answered 400. -/
theorem unmatched_route_404_witness :
    (SimpleRouter.ServeHTTP ⟨some (NewClient "D")⟩ (fun _ => "") (fun _ => .ok .null)
        { Method := "GET", Path := "/api/users/5", Query := ⟨[]⟩,
          Header := ⟨[]⟩ }).w.isErrorEnvelope 404 "Endpoint not found"
    ∧ (SimpleRouter.ServeHTTP ⟨some (NewClient "D")⟩ (fun _ => "") (fun _ => .ok .null)
        { Method := "GET", Path := "/api/comments/a/b", Query := ⟨[]⟩,
          Header := ⟨[]⟩ }).w.isErrorEnvelope 400 "Comment ID is required" :=
  ⟨((unmatched_route_404 ⟨some (NewClient "D")⟩ (fun _ => "") (fun _ => .ok .null)
      { Method := "GET", Path := "/api/users/5", Query := ⟨[]⟩, Header := ⟨[]⟩ }).1
      (by decide) (by decide) (by decide) (by decide) (by decide) (by decide)).2.1,
   ((unmatched_route_404 ⟨some (NewClient "D")⟩ (fun _ => "") (fun _ => .ok .null)
      { Method := "GET", Path := "/api/comments/a/b", Query := ⟨[]⟩, Header := ⟨[]⟩ }).2
      "a/b" rfl rfl (Or.inr (by decide)) (by decide)).1⟩

theorem joinFields_go (as : List String) (i : Nat) (acc : String) (hi : i > 0) :
    (as.foldl
      (fun (st : Nat × String) field =>
        (st.1 + 1, (if st.1 > 0 then st.2 ++ "," else st.2) ++ field))
      (i, acc)).2 = String.intercalate.go acc "," as := by
  induction as generalizing i acc with
  | nil => rfl
  | cons a as ih =>
    simp only [List.foldl, String.intercalate.go, if_pos hi]
    exact ih (i + 1) _ (Nat.succ_pos i)

/-- The join loop of the Resource Methods is the comma-join of the fields. -/
theorem joinFields_eq (fields : List String) : joinFields fields = ",".intercalate fields := by
  cases fields with
  | nil => rfl
  | cons a as =>
    simp only [joinFields, List.foldl, String.intercalate, Nat.lt_irrefl, gt_iff_lt, if_false]
    rw [joinFields_go as (0 + 1) ("" ++ a) (Nat.succ_pos 0)]
    congr 1

/-- A format that is one `%s` followed by literal text. -/
theorem Sprintf_operand_then_text (format suf e : String)
    (hf : format.data = '%' :: 's' :: suf.data) (hp : '%' ∉ suf.data) :
    Sprintf format [.str e] = e ++ suf := by
  apply String.ext
  rw [Sprintf, hf, sprintfAux_verb _ _ _ _ (by decide), sprintfAux_text _ hp]
  simp [FmtArg.format]

theorem Sprintf_posts (x : String) : Sprintf "%s/posts" [.str x] = x ++ "/posts" :=
  Sprintf_operand_then_text _ "/posts" x rfl (by decide)

theorem Sprintf_comments (x : String) : Sprintf "%s/comments" [.str x] = x ++ "/comments" :=
  Sprintf_operand_then_text _ "/comments" x rfl (by decide)

theorem Sprintf_int (n : Int) : Sprintf "%d" [.int n] = toString n := by
  apply String.ext
  have h : "%d".data = ['%', 'd'] := rfl
  simp [Sprintf, h, sprintfAux, FmtArg.format, fmtExtra]

/-- The request a GET `makeRequest` without body hands to the HTTP client. -/
theorem makeRequest_get_sent (c : Client) (t : Transport) (endpoint : String) (params : Values)
    (hn : t.NewRequestErr "GET" (c.buildURL endpoint) = none) :
    (c.makeRequest t "GET" endpoint (some params) none).2
      = [{ Method := "GET", URL := c.buildURL endpoint,
           RawQuery := some (params.Set "access_token" c.AccessToken) }] := by
  have hlen := Values.len_Set_pos params "access_token" c.AccessToken
  have hpost : (("GET" : String) == "POST") = false := by decide
  simp only [Client.makeRequest, hn, if_pos hlen, hpost, Bool.false_and, Bool.false_eq_true,
    if_false]
  split <;> rfl

theorem fetch_sent {α : Type} (c : Client) (t : Transport) (dec : Decoder α) (zero : α)
    (endpoint : String) (params : Values) (errFormat : String) :
    (c.fetch t dec zero endpoint params errFormat).2
      = (c.makeRequest t "GET" endpoint (some params) none).2 := by
  unfold Client.fetch
  split
  · rename_i h
    rw [h]
  · rename_i h
    rw [h]
    split <;> rfl

theorem setFields_default (params : Values) (defaults : List String) (hd : defaults ≠ []) :
    setFields params [] defaults = params.Set "fields" (",".intercalate defaults) := by
  have h1 : defaults.length > 0 := List.length_pos.2 hd
  simp [setFields, h1, joinFields_eq]

theorem setFields_given (params : Values) (fields defaults : List String) (hf : fields ≠ []) :
    setFields params fields defaults = params.Set "fields" (",".intercalate fields) := by
  have h1 : fields.length > 0 := List.length_pos.2 hf
  have h2 : ¬ fields.length = 0 := by omega
  simp [setFields, h1, h2, joinFields_eq]

theorem setLimit_pos (params : Values) (limit : Int) (h : limit > 0) :
    setLimit params limit = params.Set "limit" (toString limit) := by
  simp [setLimit, h, Sprintf_int]

theorem setLimit_nonpos (params : Values) (limit : Int) (h : limit ≤ 0) :
    setLimit params limit = params := by
  have : ¬ limit > 0 := by omega
  simp [setLimit, this]
theorem entries_two (k1 k2 x1 x2 : String) (h : k1 ≠ k2) :
    ((⟨[]⟩ : Values).Set k1 x1).Set k2 x2 = ⟨[(k2, [x2]), (k1, [x1])]⟩ := by
  have hb : (k1 != k2) = true := by simp [h]
  simp [Values.Set, List.filter, hb]

/-- C15, amended: called with no fields, `GetPage` sends a `fields` query parameter
that is the comma-join of a default list of exactly 20 named attributes, the last
of them `access_token`; called with fields f1..fn (n ≥ 1) it sends their comma-join
in the given order. In both cases the only other parameter is the credential. -/
theorem GetPage_fields {α : Type} (c : Client) (t : Transport) (dec : Decoder α) (zero : α)
    (pageID : String) (fields : List String)
    (hn : t.NewRequestErr "GET" (c.buildURL pageID) = none) :
    GetPage.defaultFields.length = 20
    ∧ ",".intercalate GetPage.defaultFields
        = "id,name,category,about,description,website,phone,username,link,fan_count," ++
          "followers_count,talking_about_count,picture,cover,location,hours,is_published," ++
          "is_verified,can_post,access_token"
    ∧ (fields = [] →
        (c.GetPage t dec zero pageID fields).2
          = [{ Method := "GET", URL := c.buildURL pageID,
               RawQuery := some ⟨[("access_token", [c.AccessToken]),
                 ("fields", [",".intercalate GetPage.defaultFields])]⟩ }])
    ∧ (fields ≠ [] →
        (c.GetPage t dec zero pageID fields).2
          = [{ Method := "GET", URL := c.buildURL pageID,
               RawQuery := some ⟨[("access_token", [c.AccessToken]),
                 ("fields", [",".intercalate fields])]⟩ }]) := by
  refine ⟨rfl, by rfl, ?_, ?_⟩
  · rintro rfl
    rw [Client.GetPage, fetch_sent, makeRequest_get_sent c t pageID _ hn,
      setFields_default _ _ (by decide), entries_two _ _ _ _ (by decide)]
  · intro hf
    rw [Client.GetPage, fetch_sent, makeRequest_get_sent c t pageID _ hn,
      setFields_given _ _ _ hf, entries_two _ _ _ _ (by decide)]

/-- C15 fails as stated: the default list of `GetPage` has 20 attributes, not 19,
and the `fields` parameter of a call without fields names 20 attributes. -/
theorem GetPage_default_not_19 :
    GetPage.defaultFields.length = 20
    ∧ GetPage.defaultFields.length ≠ 19
    ∧ (Client.GetPage (NewClient "T")
          ⟨fun _ _ => none, fun _ => .ok { StatusCode := 200, Body := .ok "" }⟩
          (fun (_ : String) (v : Unit) => (none, v)) () "123" []).2.map
        (fun r => (SplitComma ((r.RawQuery.getD ⟨[]⟩).Get "fields")).length) = [20] := by
  decide

/-- C15, amended, at a concrete call with two fields and a call with none. -/
theorem GetPage_fields_witness :
    (Client.GetPage (NewClient "T")
        ⟨fun _ _ => none, fun _ => .ok { StatusCode := 200, Body := .ok "" }⟩
        (fun (_ : String) (v : Unit) => (none, v)) () "123" ["id", "name"]).2
      = [{ Method := "GET", URL := (NewClient "T").buildURL "123",
           RawQuery := some ⟨[("access_token", [(NewClient "T").AccessToken]),
             ("fields", [",".intercalate ["id", "name"]])]⟩ }]
    ∧ (Client.GetPage (NewClient "T")
        ⟨fun _ _ => none, fun _ => .ok { StatusCode := 200, Body := .ok "" }⟩
        (fun (_ : String) (v : Unit) => (none, v)) () "123" []).2
      = [{ Method := "GET", URL := (NewClient "T").buildURL "123",
           RawQuery := some ⟨[("access_token", [(NewClient "T").AccessToken]),
             ("fields", [",".intercalate GetPage.defaultFields])]⟩ }] :=
  ⟨(GetPage_fields (NewClient "T")
      ⟨fun _ _ => none, fun _ => .ok { StatusCode := 200, Body := .ok "" }⟩
      (fun (_ : String) (v : Unit) => (none, v)) () "123" ["id", "name"] rfl).2.2.2
      (by decide),
   (GetPage_fields (NewClient "T")
      ⟨fun _ _ => none, fun _ => .ok { StatusCode := 200, Body := .ok "" }⟩
      (fun (_ : String) (v : Unit) => (none, v)) () "123" [] rfl).2.2.1 rfl⟩
theorem entries_three (k1 k2 k3 x1 x2 x3 : String) (h12 : k1 ≠ k2) (h13 : k1 ≠ k3)
    (h23 : k2 ≠ k3) :
    (((⟨[]⟩ : Values).Set k1 x1).Set k2 x2).Set k3 x3
      = ⟨[(k3, [x3]), (k2, [x2]), (k1, [x1])]⟩ := by
  have b12 : (k1 != k2) = true := by simp [h12]
  have b13 : (k1 != k3) = true := by simp [h13]
  have b23 : (k2 != k3) = true := by simp [h23]
  simp [Values.Set, List.filter, b12, b13, b23]

/-- C16: `GetPosts` without explicit fields requests `<pageId>/posts` with `fields`
= `id,message,created_time`, with `limit` = the decimal text of the limit exactly
when the limit is positive, and with no parameter besides these and the credential. -/
theorem GetPosts_request {α : Type} (c : Client) (t : Transport) (dec : Decoder α) (zero : α)
    (pageID : String) (limit : Int)
    (hn : t.NewRequestErr "GET" (c.buildURL (pageID ++ "/posts")) = none) :
    ",".intercalate GetPosts.defaultFields = "id,message,created_time"
    ∧ (limit > 0 →
        (c.GetPosts t dec zero pageID limit []).2
          = [{ Method := "GET", URL := c.buildURL (pageID ++ "/posts"),
               RawQuery := some ⟨[("access_token", [c.AccessToken]),
                 ("fields", ["id,message,created_time"]),
                 ("limit", [toString limit])]⟩ }])
    ∧ (limit ≤ 0 →
        (c.GetPosts t dec zero pageID limit []).2
          = [{ Method := "GET", URL := c.buildURL (pageID ++ "/posts"),
               RawQuery := some ⟨[("access_token", [c.AccessToken]),
                 ("fields", ["id,message,created_time"])]⟩ }]) := by
  have hj : ",".intercalate GetPosts.defaultFields = "id,message,created_time" := by rfl
  refine ⟨hj, ?_, ?_⟩
  · intro hl
    rw [Client.GetPosts, fetch_sent, Sprintf_posts, makeRequest_get_sent c t _ _ hn,
      setLimit_pos _ _ hl, setFields_default _ _ (by decide), hj,
      entries_three _ _ _ _ _ _ (by decide) (by decide) (by decide)]
  · intro hl
    rw [Client.GetPosts, fetch_sent, Sprintf_posts, makeRequest_get_sent c t _ _ hn,
      setLimit_nonpos _ _ hl, setFields_default _ _ (by decide), hj,
      entries_two _ _ _ _ (by decide)]

/-- C16 at concrete calls: limit 2 is sent as `limit=2`, limit 0 sends no `limit`. -/
theorem GetPosts_request_witness :
    (Client.GetPosts (NewClient "T")
        ⟨fun _ _ => none, fun _ => .ok { StatusCode := 200, Body := .ok "" }⟩
        (fun (_ : String) (v : Unit) => (none, v)) () "123" 2 []).2
      = [{ Method := "GET", URL := (NewClient "T").buildURL ("123" ++ "/posts"),
           RawQuery := some ⟨[("access_token", [(NewClient "T").AccessToken]),
             ("fields", ["id,message,created_time"]), ("limit", [toString (2 : Int)])]⟩ }]
    ∧ (Client.GetPosts (NewClient "T")
        ⟨fun _ _ => none, fun _ => .ok { StatusCode := 200, Body := .ok "" }⟩
        (fun (_ : String) (v : Unit) => (none, v)) () "123" 0 []).2
      = [{ Method := "GET", URL := (NewClient "T").buildURL ("123" ++ "/posts"),
           RawQuery := some ⟨[("access_token", [(NewClient "T").AccessToken]),
             ("fields", ["id,message,created_time"])]⟩ }] :=
  ⟨(GetPosts_request (NewClient "T")
      ⟨fun _ _ => none, fun _ => .ok { StatusCode := 200, Body := .ok "" }⟩
      (fun (_ : String) (v : Unit) => (none, v)) () "123" 2 rfl).2.1 (by decide),
   (GetPosts_request (NewClient "T")
      ⟨fun _ _ => none, fun _ => .ok { StatusCode := 200, Body := .ok "" }⟩
      (fun (_ : String) (v : Unit) => (none, v)) () "123" 0 rfl).2.2 (by decide)⟩

theorem lookup_setFields_other (params : Values) (fields defaults : List String) (k : String)
    (hk : k ≠ "fields") : (setFields params fields defaults).lookup k = params.lookup k := by
  unfold setFields
  simp only
  split_ifs <;> first | rfl | exact Values.lookup_Set_ne _ _ _ _ hk

theorem lookup_setLimit_other (params : Values) (limit : Int) (k : String) (hk : k ≠ "limit") :
    (setLimit params limit).lookup k = params.lookup k := by
  unfold setLimit
  split
  · exact Values.lookup_Set_ne _ _ _ _ hk
  · rfl

theorem lookup_setLimit_self (params : Values) (limit : Int)
    (hp : params.lookup "limit" = none) :
    (setLimit params limit).lookup "limit"
      = if limit > 0 then some [toString limit] else none := by
  by_cases h : limit > 0
  · rw [setLimit_pos _ _ h, if_pos h, Values.lookup_Set_self]
  · rw [setLimit_nonpos _ _ (by omega), if_neg h, hp]

/-- The request of `GetPostComments`, parameter by parameter. -/
theorem GetPostComments_query {α : Type} (c : Client) (t : Transport) (dec : Decoder α)
    (zero : α) (postID : String) (limit : Int) (order : String) (fields : List String)
    (hn : t.NewRequestErr "GET" (c.buildURL (postID ++ "/comments")) = none) :
    ∃ q : Values,
      (c.GetPostComments t dec zero postID limit order fields).2
        = [{ Method := "GET", URL := c.buildURL (postID ++ "/comments"), RawQuery := some q }]
      ∧ q.lookup "summary" = some ["true"]
      ∧ q.lookup "order" = some [if order = "" then "reverse_chronological" else order]
      ∧ (fields = [] → q.lookup "fields"
          = some ["id,message,created_time,from\x7bid,name,picture\x7d,like_count," ++
              "comment_count,attachment"])
      ∧ (fields ≠ [] → q.lookup "fields" = some [",".intercalate fields])
      ∧ q.lookup "limit" = (if limit > 0 then some [toString limit] else none)
      ∧ q.lookup "access_token" = some [c.AccessToken] := by
  refine ⟨(setFields
      ((if (order != "") = true then (setLimit ⟨[]⟩ limit).Set "order" order
        else (setLimit ⟨[]⟩ limit).Set "order" "reverse_chronological").Set "summary" "true")
      fields GetPostComments.defaultFields).Set "access_token" c.AccessToken,
    ?_, ?_, ?_, ?_, ?_, ?_, ?_⟩
  · rw [Client.GetPostComments, fetch_sent, Sprintf_comments, makeRequest_get_sent c t _ _ hn]
  · rw [Values.lookup_Set_ne _ _ _ _ (by decide), lookup_setFields_other _ _ _ _ (by decide),
      Values.lookup_Set_self]
  · rw [Values.lookup_Set_ne _ _ _ _ (by decide), lookup_setFields_other _ _ _ _ (by decide),
      Values.lookup_Set_ne _ _ _ _ (by decide)]
    by_cases ho : order = ""
    · subst ho
      simp [Values.lookup_Set_self]
    · have hb : (order != "") = true := by simp [ho]
      simp only [hb, if_true, if_neg ho, Values.lookup_Set_self]
  · rintro rfl
    rw [Values.lookup_Set_ne _ _ _ _ (by decide), setFields_default _ _ (by decide),
      Values.lookup_Set_self]
    rfl
  · intro hf
    rw [Values.lookup_Set_ne _ _ _ _ (by decide), setFields_given _ _ _ hf,
      Values.lookup_Set_self]
  · rw [Values.lookup_Set_ne _ _ _ _ (by decide), lookup_setFields_other _ _ _ _ (by decide),
      Values.lookup_Set_ne _ _ _ _ (by decide)]
    have h2 : ∀ v : Values, v.lookup "limit" = (setLimit ⟨[]⟩ limit).lookup "limit" →
        v.lookup "limit" = if limit > 0 then some [toString limit] else none := by
      intro v hv
      rw [hv, lookup_setLimit_self ⟨[]⟩ limit rfl]
    apply h2
    split <;> exact Values.lookup_Set_ne _ _ _ _ (by decide)
  · exact Values.lookup_Set_self _ _ _

/-- C17: `GetPostComments` requests `<postId>/comments`, always with `summary=true`,
with `order` equal to the given order or `reverse_chronological` when that is
empty, with the default `fields` value when no fields are given (the comma-join of
the given fields otherwise), and with `limit` exactly when the limit is positive. -/
theorem GetPostComments_request {α : Type} (c : Client) (t : Transport) (dec : Decoder α)
    (zero : α) (postID : String) (limit : Int) (order : String) (fields : List String)
    (hn : t.NewRequestErr "GET" (c.buildURL (postID ++ "/comments")) = none) :
    ∃ q : Values,
      (c.GetPostComments t dec zero postID limit order fields).2
        = [{ Method := "GET", URL := c.buildURL (postID ++ "/comments"), RawQuery := some q }]
      ∧ q.lookup "summary" = some ["true"]
      ∧ q.lookup "order" = some [if order = "" then "reverse_chronological" else order]
      ∧ (fields = [] → q.lookup "fields"
          = some ["id,message,created_time,from\x7bid,name,picture\x7d,like_count," ++
              "comment_count,attachment"])
      ∧ (fields ≠ [] → q.lookup "fields" = some [",".intercalate fields])
      ∧ q.lookup "limit" = (if limit > 0 then some [toString limit] else none)
      ∧ q.lookup "access_token" = some [c.AccessToken] := by
  refine ⟨(setFields
      ((if (order != "") = true then (setLimit ⟨[]⟩ limit).Set "order" order
        else (setLimit ⟨[]⟩ limit).Set "order" "reverse_chronological").Set "summary" "true")
      fields GetPostComments.defaultFields).Set "access_token" c.AccessToken,
    ?_, ?_, ?_, ?_, ?_, ?_, ?_⟩
  · rw [Client.GetPostComments, fetch_sent, Sprintf_comments, makeRequest_get_sent c t _ _ hn]
  · rw [Values.lookup_Set_ne _ _ _ _ (by decide), lookup_setFields_other _ _ _ _ (by decide),
      Values.lookup_Set_self]
  · rw [Values.lookup_Set_ne _ _ _ _ (by decide), lookup_setFields_other _ _ _ _ (by decide),
      Values.lookup_Set_ne _ _ _ _ (by decide)]
    by_cases ho : order = ""
    · subst ho
      simp [Values.lookup_Set_self]
    · have hb : (order != "") = true := by simp [ho]
      simp only [hb, if_true, if_neg ho, Values.lookup_Set_self]
  · rintro rfl
    rw [Values.lookup_Set_ne _ _ _ _ (by decide), setFields_default _ _ (by decide),
      Values.lookup_Set_self]
    rfl
  · intro hf
    rw [Values.lookup_Set_ne _ _ _ _ (by decide), setFields_given _ _ _ hf,
      Values.lookup_Set_self]
  · rw [Values.lookup_Set_ne _ _ _ _ (by decide), lookup_setFields_other _ _ _ _ (by decide),
      Values.lookup_Set_ne _ _ _ _ (by decide)]
    have h2 : ∀ v : Values, v.lookup "limit" = (setLimit ⟨[]⟩ limit).lookup "limit" →
        v.lookup "limit" = if limit > 0 then some [toString limit] else none := by
      intro v hv
      rw [hv, lookup_setLimit_self ⟨[]⟩ limit rfl]
    apply h2
    split <;> exact Values.lookup_Set_ne _ _ _ _ (by decide)
  · exact Values.lookup_Set_self _ _ _
/-- C17 at a concrete call: post `77`, limit 5, no order and no fields. -/
theorem GetPostComments_request_witness :
    ∃ q : Values,
      (Client.GetPostComments (NewClient "T")
          ⟨fun _ _ => none, fun _ => .ok { StatusCode := 200, Body := .ok "" }⟩
          (fun (_ : String) (v : Unit) => (none, v)) () "77" 5 "" []).2
        = [{ Method := "GET", URL := (NewClient "T").buildURL ("77" ++ "/comments"),
             RawQuery := some q }]
      ∧ q.lookup "summary" = some ["true"]
      ∧ q.lookup "order" = some [if ("" : String) = "" then "reverse_chronological" else ""]
      ∧ (([] : List String) = [] → q.lookup "fields"
          = some ["id,message,created_time,from\x7bid,name,picture\x7d,like_count," ++
              "comment_count,attachment"])
      ∧ (([] : List String) ≠ [] → q.lookup "fields" = some [",".intercalate []])
      ∧ q.lookup "limit" = (if (5 : Int) > 0 then some [toString (5 : Int)] else none)
      ∧ q.lookup "access_token" = some [(NewClient "T").AccessToken] :=
  GetPostComments_request (NewClient "T")
    ⟨fun _ _ => none, fun _ => .ok { StatusCode := 200, Body := .ok "" }⟩
    (fun (_ : String) (v : Unit) => (none, v)) () "77" 5 "" [] rfl

/-- C18, amended: for every id `x`, `GetCommentReplies` requests the same resource
path `<x>/comments` as `GetPostComments`; the default field lists of the two are
equal, as are the `fields` and `limit` parameters they send for the same arguments;
the replies request carries no `order` and no `summary`, which the comments request
always carries. -/
theorem GetCommentReplies_same_path {α : Type} (c : Client) (t : Transport) (dec : Decoder α)
    (zero : α) (x : String) (limit : Int) (order : String) (fields : List String)
    (hn : t.NewRequestErr "GET" (c.buildURL (x ++ "/comments")) = none) :
    GetCommentReplies.defaultFields = GetPostComments.defaultFields
    ∧ ∃ qr qc : Values,
      (c.GetCommentReplies t dec zero x limit fields).2
        = [{ Method := "GET", URL := c.buildURL (x ++ "/comments"), RawQuery := some qr }]
      ∧ (c.GetPostComments t dec zero x limit order fields).2
        = [{ Method := "GET", URL := c.buildURL (x ++ "/comments"), RawQuery := some qc }]
      ∧ qr.lookup "fields" = qc.lookup "fields"
      ∧ qr.lookup "limit" = qc.lookup "limit"
      ∧ qr.lookup "limit" = (if limit > 0 then some [toString limit] else none)
      ∧ qr.lookup "order" = none ∧ qr.lookup "summary" = none
      ∧ qc.lookup "order" ≠ none ∧ qc.lookup "summary" = some ["true"] := by
  refine ⟨rfl, ?_⟩
  obtain ⟨qc, hc, hsum, hord, hf0, hf1, hlim, -⟩ :=
    GetPostComments_query c t dec zero x limit order fields hn
  refine ⟨(setFields (setLimit ⟨[]⟩ limit) fields GetCommentReplies.defaultFields).Set
    "access_token" c.AccessToken, qc, ?_, hc, ?_, ?_, ?_, ?_, ?_, ?_, hsum⟩
  · rw [Client.GetCommentReplies, fetch_sent, Sprintf_comments,
      makeRequest_get_sent c t _ _ hn]
  · rw [Values.lookup_Set_ne _ _ _ _ (by decide)]
    by_cases hf : fields = []
    · subst hf
      rw [hf0 rfl, setFields_default _ _ (by decide), Values.lookup_Set_self]
      rfl
    · rw [hf1 hf, setFields_given _ _ _ hf, Values.lookup_Set_self]
  · rw [hlim, Values.lookup_Set_ne _ _ _ _ (by decide),
      lookup_setFields_other _ _ _ _ (by decide), lookup_setLimit_self ⟨[]⟩ limit rfl]
  · rw [Values.lookup_Set_ne _ _ _ _ (by decide),
      lookup_setFields_other _ _ _ _ (by decide), lookup_setLimit_self ⟨[]⟩ limit rfl]
  · rw [Values.lookup_Set_ne _ _ _ _ (by decide),
      lookup_setFields_other _ _ _ _ (by decide), lookup_setLimit_other _ _ _ (by decide)]
    rfl
  · rw [Values.lookup_Set_ne _ _ _ _ (by decide),
      lookup_setFields_other _ _ _ _ (by decide), lookup_setLimit_other _ _ _ (by decide)]
    rfl
  · rw [hord]
    exact Option.some_ne_none _

/-- C18 fails as stated: for the id `55` the two methods request the same URL,
`https://graph.facebook.com/v23.0/55/comments`. -/
theorem GetCommentReplies_path_not_different :
    (Client.GetCommentReplies (NewClient "T")
        ⟨fun _ _ => none, fun _ => .ok { StatusCode := 200, Body := .ok "" }⟩
        (fun (_ : String) (v : Unit) => (none, v)) () "55" 10 []).2.map (fun r => r.URL)
      = ["https://graph.facebook.com/v23.0/55/comments"]
    ∧ (Client.GetPostComments (NewClient "T")
        ⟨fun _ _ => none, fun _ => .ok { StatusCode := 200, Body := .ok "" }⟩
        (fun (_ : String) (v : Unit) => (none, v)) () "55" 10 "" []).2.map (fun r => r.URL)
      = ["https://graph.facebook.com/v23.0/55/comments"] := by
  decide

/-- C18, amended, at the id `55` with limit 10. -/
theorem GetCommentReplies_same_path_witness :
    ∃ qr qc : Values,
      (Client.GetCommentReplies (NewClient "T")
          ⟨fun _ _ => none, fun _ => .ok { StatusCode := 200, Body := .ok "" }⟩
          (fun (_ : String) (v : Unit) => (none, v)) () "55" 10 []).2
        = [{ Method := "GET", URL := (NewClient "T").buildURL ("55" ++ "/comments"),
             RawQuery := some qr }]
      ∧ (Client.GetPostComments (NewClient "T")
          ⟨fun _ _ => none, fun _ => .ok { StatusCode := 200, Body := .ok "" }⟩
          (fun (_ : String) (v : Unit) => (none, v)) () "55" 10 "" []).2
        = [{ Method := "GET", URL := (NewClient "T").buildURL ("55" ++ "/comments"),
             RawQuery := some qc }]
      ∧ qr.lookup "fields" = qc.lookup "fields"
      ∧ qr.lookup "limit" = qc.lookup "limit"
      ∧ qr.lookup "limit" = (if (10 : Int) > 0 then some [toString (10 : Int)] else none)
      ∧ qr.lookup "order" = none ∧ qr.lookup "summary" = none
      ∧ qc.lookup "order" ≠ none ∧ qc.lookup "summary" = some ["true"] :=
  (GetCommentReplies_same_path (NewClient "T")
    ⟨fun _ _ => none, fun _ => .ok { StatusCode := 200, Body := .ok "" }⟩
    (fun (_ : String) (v : Unit) => (none, v)) () "55" 10 "" [] rfl).2

/-- C19: the default field list of `GetComment` is the default field list of
`GetPostComments` with `parent` appended, and `GetComment` without fields requests
the resource `<commentId>` itself with the comma-join of that list as `fields`. -/
theorem GetComment_default_fields {α : Type} (c : Client) (t : Transport) (dec : Decoder α)
    (zero : α) (commentID : String)
    (hn : t.NewRequestErr "GET" (c.buildURL commentID) = none) :
    GetComment.defaultFields = GetPostComments.defaultFields ++ ["parent"]
    ∧ (c.GetComment t dec zero commentID []).2
        = [{ Method := "GET", URL := c.buildURL commentID,
             RawQuery := some ⟨[("access_token", [c.AccessToken]),
               ("fields", [",".intercalate (GetPostComments.defaultFields ++ ["parent"])])]⟩ }]
    ∧ ",".intercalate (GetPostComments.defaultFields ++ ["parent"])
        = "id,message,created_time,from\x7bid,name,picture\x7d,like_count,comment_count," ++
          "attachment,parent" := by
  have hd : GetComment.defaultFields = GetPostComments.defaultFields ++ ["parent"] := rfl
  refine ⟨hd, ?_, by rfl⟩
  rw [Client.GetComment, fetch_sent, makeRequest_get_sent c t _ _ hn,
    setFields_default _ _ (by decide), entries_two _ _ _ _ (by decide), hd]

/-- C19 at the comment id `55_1`. -/
theorem GetComment_default_fields_witness :
    (Client.GetComment (NewClient "T")
        ⟨fun _ _ => none, fun _ => .ok { StatusCode := 200, Body := .ok "" }⟩
        (fun (_ : String) (v : Unit) => (none, v)) () "55_1" []).2
      = [{ Method := "GET", URL := (NewClient "T").buildURL "55_1",
           RawQuery := some ⟨[("access_token", [(NewClient "T").AccessToken]),
             ("fields", [",".intercalate (GetPostComments.defaultFields ++ ["parent"])])]⟩ }] :=
  (GetComment_default_fields (NewClient "T")
    ⟨fun _ _ => none, fun _ => .ok { StatusCode := 200, Body := .ok "" }⟩
    (fun (_ : String) (v : Unit) => (none, v)) () "55_1" rfl).2.1

theorem containsChars_self (e : List Char) : containsChars e e = true := by
  cases e with
  | nil => rfl
  | cons c cs =>
    have h : (c :: cs).isPrefixOf (c :: cs) = true :=
      List.isPrefixOf_iff_prefix.2 (List.prefix_refl _)
    simp only [containsChars, h, Bool.true_or]

theorem containsChars_append (p e : List Char) : containsChars e (p ++ e) = true := by
  induction p with
  | nil => exact containsChars_self e
  | cons c cs ih =>
    show (e.isPrefixOf (c :: (cs ++ e)) || containsChars e (cs ++ e)) = true
    rw [ih, Bool.or_true]

theorem Contains_append_right (p e : String) : Contains (p ++ e) e = true := by
  unfold Contains
  rw [String.data_append]
  exact containsChars_append _ _

theorem nil_surfacesFailure (w : ResponseWriter) (api : API) (pre : String) :
    (⟨w, []⟩ : Outcome).surfacesFailure api pre := by
  intro call hc
  exact absurd hc (List.not_mem_nil _)

theorem unauthorized_surfacesFailure (w : ResponseWriter) (err : String) (api : API)
    (pre : String) : (unauthorized w err).surfacesFailure api pre :=
  nil_surfacesFailure _ api pre

theorem finish_surfacesFailure (api : API) (w : ResponseWriter) (call : Call)
    (errFormat pre : String) (wrap : Json → Json)
    (hf : errFormat.data = pre.data ++ ['%', 'v']) (hp : '%' ∉ pre.data) :
    (finish api w call errFormat wrap).surfacesFailure api pre := by
  intro call' hc e he
  rw [finish_calls, List.mem_singleton] at hc
  subst hc
  have hs := Sprintf_text_then_operand errFormat pre e 'v' (Or.inl rfl) hf hp
  simp only [finish, he, hs]
  exact ⟨writeError_isErrorEnvelope _ _ _, Contains_append_right _ _⟩

/-- C13: every `writeError` response has the HTTP status that its body carries as
`code`, beside the one other member `error`; and whenever the Resource Method that
a handler of either router invoked returns an error `e`, the handler answers with
that envelope for status 500 and the text `Error getting ...: ` followed by `e`,
which therefore contains `e`. The same holds for `SimpleRouter.ServeHTTP`. -/
theorem failure_envelope (r : Router) (sr : SimpleRouter) (env : Env) (api : API)
    (w : ResponseWriter) (req : Request) :
    (∀ (status : Int) (msg : String), (writeError w status msg).isErrorEnvelope status msg)
    ∧ ((r.getPage api w req).surfacesFailure api "Error getting page: "
      ∧ (r.getPages api w req).surfacesFailure api "Error getting pages: "
      ∧ (r.getPosts api w req).surfacesFailure api "Error getting posts: "
      ∧ (r.getPostComments api w req).surfacesFailure api "Error getting comments: "
      ∧ (r.getComment api w req).surfacesFailure api "Error getting comment: "
      ∧ (r.getCommentReplies api w req).surfacesFailure api "Error getting comment replies: ")
    ∧ ((sr.getPage env api w req).surfacesFailure api "Error getting page: "
      ∧ (sr.getPages env api w req).surfacesFailure api "Error getting pages: "
      ∧ (sr.getPosts env api w req).surfacesFailure api "Error getting posts: "
      ∧ (sr.getPostComments env api w req).surfacesFailure api "Error getting comments: "
      ∧ (sr.getComment env api w req).surfacesFailure api "Error getting comment: "
      ∧ (sr.getCommentReplies env api w req).surfacesFailure api
          "Error getting comment replies: ")
    ∧ (∃ pre : String, (sr.ServeHTTP env api req).surfacesFailure api pre) := by
  have close : ∀ (o : Outcome) (pre : String),
      (o.calls = [] ∨ ∃ (w' : ResponseWriter) (call : Call) (fmt : String) (wrap : Json → Json),
        o = finish api w' call fmt wrap ∧ fmt.data = pre.data ++ ['%', 'v'] ∧ '%' ∉ pre.data) →
      o.surfacesFailure api pre := by
    intro o pre h
    rcases h with h | ⟨w', call, fmt, wrap, rfl, hf, hp⟩
    · intro call hc
      rw [h] at hc
      exact absurd hc (List.not_mem_nil _)
    · exact finish_surfacesFailure _ _ _ _ _ _ hf hp
  have sPage : ∀ w', (sr.getPage env api w' req).surfacesFailure api "Error getting page: " := by
    intro w'
    apply close
    simp only [SimpleRouter.getPage]
    split_ifs
    · exact Or.inl rfl
    · exact Or.inl rfl
    · split
      · exact Or.inl rfl
      · exact Or.inr ⟨_, _, _, _, rfl, rfl, by decide⟩
  have sPages : ∀ w',
      (sr.getPages env api w' req).surfacesFailure api "Error getting pages: " := by
    intro w'
    apply close
    simp only [SimpleRouter.getPages]
    split_ifs
    · exact Or.inl rfl
    · split
      · exact Or.inl rfl
      · exact Or.inr ⟨_, _, _, _, rfl, rfl, by decide⟩
  have sPosts : ∀ w',
      (sr.getPosts env api w' req).surfacesFailure api "Error getting posts: " := by
    intro w'
    apply close
    simp only [SimpleRouter.getPosts]
    split_ifs
    · exact Or.inl rfl
    · exact Or.inl rfl
    · split
      · exact Or.inl rfl
      · exact Or.inr ⟨_, _, _, _, rfl, rfl, by decide⟩
  have sPostComments : ∀ w',
      (sr.getPostComments env api w' req).surfacesFailure api "Error getting comments: " := by
    intro w'
    apply close
    simp only [SimpleRouter.getPostComments]
    split_ifs
    · exact Or.inl rfl
    · exact Or.inl rfl
    · split
      · exact Or.inl rfl
      · exact Or.inr ⟨_, _, _, _, rfl, rfl, by decide⟩
  have sComment : ∀ w',
      (sr.getComment env api w' req).surfacesFailure api "Error getting comment: " := by
    intro w'
    apply close
    simp only [SimpleRouter.getComment]
    split_ifs
    · exact Or.inl rfl
    · exact Or.inl rfl
    · split
      · exact Or.inl rfl
      · exact Or.inr ⟨_, _, _, _, rfl, rfl, by decide⟩
  have sReplies : ∀ w',
      (sr.getCommentReplies env api w' req).surfacesFailure api
        "Error getting comment replies: " := by
    intro w'
    apply close
    simp only [SimpleRouter.getCommentReplies]
    split_ifs
    · exact Or.inl rfl
    · exact Or.inl rfl
    · split
      · exact Or.inl rfl
      · exact Or.inr ⟨_, _, _, _, rfl, rfl, by decide⟩
  refine ⟨fun status msg => writeError_isErrorEnvelope w status msg,
    ⟨?_, ?_, ?_, ?_, ?_, ?_⟩, ⟨sPage w, sPages w, sPosts w, sPostComments w, sComment w,
      sReplies w⟩, ?_⟩
  · apply close
    simp only [Router.getPage]
    split_ifs
    · exact Or.inl rfl
    · split
      · exact Or.inl rfl
      · exact Or.inr ⟨_, _, _, _, rfl, rfl, by decide⟩
  · apply close
    simp only [Router.getPages]
    split
    · exact Or.inl rfl
    · exact Or.inr ⟨_, _, _, _, rfl, rfl, by decide⟩
  · apply close
    simp only [Router.getPosts]
    split_ifs
    · exact Or.inl rfl
    · split
      · exact Or.inl rfl
      · exact Or.inr ⟨_, _, _, _, rfl, rfl, by decide⟩
  · apply close
    simp only [Router.getPostComments]
    split_ifs
    · exact Or.inl rfl
    · split
      · exact Or.inl rfl
      · exact Or.inr ⟨_, _, _, _, rfl, rfl, by decide⟩
  · apply close
    simp only [Router.getComment]
    split_ifs
    · exact Or.inl rfl
    · split
      · exact Or.inl rfl
      · exact Or.inr ⟨_, _, _, _, rfl, rfl, by decide⟩
  · apply close
    simp only [Router.getCommentReplies]
    split_ifs
    · exact Or.inl rfl
    · split
      · exact Or.inl rfl
      · exact Or.inr ⟨_, _, _, _, rfl, rfl, by decide⟩
  · simp only [SimpleRouter.ServeHTTP]
    split_ifs
    · exact ⟨"", nil_surfacesFailure _ _ _⟩
    · split
      · refine ⟨"", ?_⟩
        apply close
        simp only [SimpleRouter.healthCheck]
        split_ifs <;> exact Or.inl rfl
      · exact ⟨_, sPosts _⟩
      · exact ⟨_, sPage _⟩
      · exact ⟨_, sPages _⟩
      · exact ⟨_, sPostComments _⟩
      · exact ⟨_, sReplies _⟩
      · exact ⟨_, sComment _⟩
      · exact ⟨"", nil_surfacesFailure _ _ _⟩
/-- C13 at the response of the specification: the remote side answers `GET` of page
`123` with status 400 and the envelope of `Invalid token`, code 190; `GetPage`
returns the remote-API error and `Router.getPage` answers 500 with an error text
that contains `Invalid token`. -/
theorem failure_envelope_witness :
    (Router.getPage ⟨some (NewClient "D")⟩
        (clientAPI
          ⟨fun _ _ => none, fun _ => .ok
            { StatusCode := 400,
              Body := .ok "\x7b\"error\":\x7b\"message\":\"Invalid token\",\"code\":190\x7d\x7d" }⟩
          ⟨⟨.null, fun _ v => (none, v)⟩, ⟨.null, fun _ v => (none, v)⟩, id,
            ⟨.null, fun _ v => (none, v)⟩, ⟨.null, fun _ v => (none, v)⟩,
            ⟨.null, fun _ v => (none, v)⟩⟩)
        {}
        { Method := "GET", Path := "/api/pages/123", Query := ⟨[]⟩, Header := ⟨[]⟩,
          Vars := [("pageId", "123")] }).w.isErrorEnvelope 500
      "Error getting page: API error: Invalid token (code: 190)" :=
  ((failure_envelope ⟨some (NewClient "D")⟩ ⟨none⟩ (fun _ => "")
      (clientAPI
        ⟨fun _ _ => none, fun _ => .ok
          { StatusCode := 400,
            Body := .ok "\x7b\"error\":\x7b\"message\":\"Invalid token\",\"code\":190\x7d\x7d" }⟩
        ⟨⟨.null, fun _ v => (none, v)⟩, ⟨.null, fun _ v => (none, v)⟩, id,
          ⟨.null, fun _ v => (none, v)⟩, ⟨.null, fun _ v => (none, v)⟩,
          ⟨.null, fun _ v => (none, v)⟩⟩)
      {}
      { Method := "GET", Path := "/api/pages/123", Query := ⟨[]⟩, Header := ⟨[]⟩,
        Vars := [("pageId", "123")] }).2.1.1
    (.GetPage (NewClient "D") "123" []) (List.mem_singleton.2 rfl)
    "API error: Invalid token (code: 190)" rfl).1

theorem digitsVal_foldl (l : List Char) (a : Nat) :
    l.foldl (fun n c => 10 * n + digitVal c) a = a * 10 ^ l.length + digitsVal l := by
  induction l generalizing a with
  | nil => simp [digitsVal]
  | cons x xs ih =>
    simp only [List.foldl, digitsVal, List.length_cons]
    rw [ih (10 * a + digitVal x), ih (10 * 0 + digitVal x)]
    simp only [digitsVal]
    ring

theorem digitsVal_cons (x : Char) (l : List Char) :
    digitsVal (x :: l) = digitVal x * 10 ^ l.length + digitsVal l := by
  simp only [digitsVal, List.foldl]
  rw [digitsVal_foldl]
  simp [digitsVal]

theorem digitChar_isDigit (k : Nat) (hk : k < 10) : (Nat.digitChar k).isDigit = true := by
  interval_cases k <;> rfl

theorem digitVal_digitChar (k : Nat) (hk : k < 10) : digitVal (Nat.digitChar k) = k := by
  interval_cases k <;> rfl

/-- The digits that `Nat.toDigitsCore` puts in front of `acc` are decimal digits
whose value is `n`. -/
theorem toDigitsCore_spec (fuel n : Nat) (acc : List Char) (hf : n < fuel) :
    digitsVal (Nat.toDigitsCore 10 fuel n acc) = n * 10 ^ acc.length + digitsVal acc
    ∧ ((acc.all Char.isDigit = true) → (Nat.toDigitsCore 10 fuel n acc).all Char.isDigit = true)
    ∧ Nat.toDigitsCore 10 fuel n acc ≠ [] := by
  induction fuel generalizing n acc with
  | zero => omega
  | succ fuel ih =>
    have hd := digitChar_isDigit (n % 10) (Nat.mod_lt _ (by decide))
    have hv := digitVal_digitChar (n % 10) (Nat.mod_lt _ (by decide))
    by_cases h0 : n / 10 = 0
    · simp only [Nat.toDigitsCore, h0, if_true]
      refine ⟨?_, ?_, by simp⟩
      · rw [digitsVal_cons, hv]
        have : n % 10 = n := by omega
        rw [this]
      · intro ha
        simp [hd, ha]
    · simp only [Nat.toDigitsCore, h0, if_false]
      have hlt : n / 10 < fuel := by omega
      obtain ⟨i1, i2, i3⟩ := ih (n / 10) (Nat.digitChar (n % 10) :: acc) hlt
      refine ⟨?_, ?_, i3⟩
      · rw [i1, digitsVal_cons, hv, List.length_cons, pow_succ]
        have hn : n = 10 * (n / 10) + n % 10 := (Nat.div_add_mod n 10).symm
        generalize 10 ^ acc.length = P
        generalize digitsVal acc = D
        generalize n / 10 = q at hn
        generalize n % 10 = r at hn
        subst hn
        ring
      · intro ha
        apply i2
        simp [hd, ha]

theorem toString_nat_digits (n : Nat) :
    allDigits (toString n).data = true ∧ digitsVal (toString n).data = n := by
  have h : (toString n).data = Nat.toDigitsCore 10 (n + 1) n [] := rfl
  obtain ⟨h1, h2, h3⟩ := toDigitsCore_spec (n + 1) n [] (Nat.lt_succ_self n)
  rw [h]
  refine ⟨?_, by simpa [digitsVal] using h1⟩
  have h2' := h2 rfl
  simp only [allDigits, Bool.and_eq_true, Bool.not_eq_true', h2', and_true]
  cases hc : Nat.toDigitsCore 10 (n + 1) n [] with
  | nil => exact absurd hc h3
  | cons x xs => rfl

/-- `strconv.Atoi` on a string of decimal digits. -/
theorem Atoi_digits (s : String) (h : allDigits s.data = true) :
    Atoi s = if (digitsVal s.data : Int) < 2 ^ 63 then some (digitsVal s.data : Int) else none := by
  have hne : s.data ≠ [] := by
    intro h0
    rw [h0] at h
    exact absurd h (by decide)
  obtain ⟨x, xs, hx⟩ := List.exists_cons_of_ne_nil hne
  have hxd : x.isDigit = true := by
    rw [hx] at h
    simp only [allDigits, List.all_cons, Bool.and_eq_true] at h
    exact h.2.1
  have hm : x ≠ '-' := by
    rintro rfl
    exact absurd hxd (by decide)
  have hp : x ≠ '+' := by
    rintro rfl
    exact absurd hxd (by decide)
  have hlo : -(2 ^ 63 : Int) ≤ (digitsVal s.data : Int) := by
    have : (0 : Int) ≤ (digitsVal s.data : Int) := Int.ofNat_nonneg _
    omega
  unfold Atoi
  rw [hx] at h hlo ⊢
  split
  rename_i neg ds heq
  split at heq
  · rename_i h1
    simp only [List.cons.injEq] at h1
    exact absurd h1.1 hm
  · rename_i h1
    simp only [List.cons.injEq] at h1
    exact absurd h1.1 hp
  · simp only [Prod.mk.injEq] at heq
    obtain ⟨rfl, rfl⟩ := heq
    simp only [h, if_true, Bool.false_eq_true, if_false, hlo, true_and]

/-- `strconv.Atoi` on the decimal text of a natural number. -/
theorem Atoi_toString (n : Nat) :
    Atoi (toString n) = if n < 2 ^ 63 then some (n : Int) else none := by
  obtain ⟨h1, h2⟩ := toString_nat_digits n
  rw [Atoi_digits _ h1, h2]
  by_cases h : n < 2 ^ 63
  · have : (n : Int) < 2 ^ 63 := by exact_mod_cast h
    rw [if_pos this, if_pos h]
  · have : ¬ (n : Int) < 2 ^ 63 := by
      intro h'
      exact h (by exact_mod_cast h')
    rw [if_neg this, if_neg h]

/-- `strconv.Atoi` on a text that starts with a minus sign gives no positive value. -/
theorem Atoi_minus (s : String) (ds : List Char) (hs : s.data = '-' :: ds) (l : Int)
    (h : Atoi s = some l) : l ≤ 0 := by
  unfold Atoi at h
  rw [hs] at h
  split at h
  rename_i neg ds' heq
  split at heq
  · simp only [Prod.mk.injEq] at heq
    obtain ⟨rfl, rfl⟩ := heq
    split_ifs at h with h1 h2
    · simp only at h
      split_ifs at h
      simp only [Option.some.injEq] at h
      rename_i dd _ _
      have : (0 : Int) ≤ (digitsVal dd : Int) := Int.ofNat_nonneg _
      omega
    · exact absurd rfl h2
  · rename_i h1
    simp only [List.cons.injEq] at h1
    exact absurd h1.1 (by decide)
  · rename_i h1 h2
    exact absurd rfl (h1 ds)

theorem parseLimit_pos (req : Request) : 0 < parseLimit req := by
  unfold parseLimit
  simp only
  split_ifs
  · split
    · split_ifs with h
      · exact h
      · decide
    · decide
  · decide

theorem parseLimit_of_empty (req : Request) (h : req.Query.Get "limit" = "") :
    parseLimit req = 10 := by
  unfold parseLimit
  simp only [h]
  rfl

theorem parseLimit_of_none (req : Request) (h : Atoi (req.Query.Get "limit") = none) :
    parseLimit req = 10 := by
  unfold parseLimit
  simp only [h]
  split_ifs <;> rfl

theorem parseLimit_of_some (req : Request) (l : Int) (hne : req.Query.Get "limit" ≠ "")
    (h : Atoi (req.Query.Get "limit") = some l) :
    parseLimit req = if l > 0 then l else 10 := by
  have hb : (req.Query.Get "limit" != "") = true := by simp [hne]
  unfold parseLimit
  simp only [h, hb, if_true]

theorem Values.Get_absent (v : Values) (key : String) (h : v.lookup key = none) :
    v.Get key = "" := by
  unfold Values.Get
  rw [h]

theorem toString_nat_ne_empty (n : Nat) : toString n ≠ "" := by
  intro h
  have h1 := (toString_nat_digits n).1
  rw [h] at h1
  exact absurd h1 (by decide)

/-- The limit that the handlers compute from the decimal text of an integer. -/
theorem parseLimit_toString (req : Request) (l : Int)
    (h : req.Query.Get "limit" = toString l) :
    parseLimit req = if 0 < l ∧ l < 2 ^ 63 then l else 10 := by
  cases l with
  | ofNat n =>
    have ht : toString (Int.ofNat n) = toString n := rfl
    rw [ht] at h
    show parseLimit req = if 0 < (n : Int) ∧ (n : Int) < 2 ^ 63 then (n : Int) else 10
    have hne : req.Query.Get "limit" ≠ "" := by
      rw [h]
      exact toString_nat_ne_empty n
    have ha := Atoi_toString n
    rw [← h] at ha
    by_cases hn : n < 2 ^ 63
    · rw [if_pos hn] at ha
      rw [parseLimit_of_some req _ hne ha]
      have hn' : (n : Int) < 2 ^ 63 := by exact_mod_cast hn
      by_cases hp : (n : Int) > 0
      · rw [if_pos hp, if_pos ⟨hp, hn'⟩]
      · rw [if_neg hp, if_neg (fun hh => hp hh.1)]
    · rw [if_neg hn] at ha
      rw [parseLimit_of_none req ha]
      have hn' : ¬ (n : Int) < 2 ^ 63 := by
        intro hh
        exact hn (by exact_mod_cast hh)
      rw [if_neg (fun hh => hn' hh.2)]
  | negSucc m =>
    have ht : toString (Int.negSucc m) = "-" ++ toString (m + 1) := rfl
    rw [ht] at h
    have hd : (req.Query.Get "limit").data = '-' :: (toString (m + 1)).data := by
      rw [h]
      rfl
    have hne : req.Query.Get "limit" ≠ "" := by
      intro h0
      rw [h0] at hd
      exact absurd hd (by simp)
    have hneg : ¬ (0 < Int.negSucc m ∧ Int.negSucc m < 2 ^ 63) := by
      intro hh
      have := Int.negSucc_lt_zero m
      omega
    rw [if_neg hneg]
    cases ha : Atoi (req.Query.Get "limit") with
    | none => exact parseLimit_of_none req ha
    | some l =>
      rw [parseLimit_of_some req l hne ha]
      have := Atoi_minus _ _ hd l ha
      rw [if_neg (by omega)]

theorem GetPosts_limit_sent {α : Type} (c : Client) (t : Transport) (dec : Decoder α)
    (zero : α) (pageID : String) (limit : Int) (fields : List String) (hl : 0 < limit)
    (hn : t.NewRequestErr "GET" (c.buildURL (pageID ++ "/posts")) = none) :
    carriesLimit (c.GetPosts t dec zero pageID limit fields).2 limit := by
  refine ⟨{ Method := "GET", URL := c.buildURL (pageID ++ "/posts"),
            RawQuery := some ((setFields (setLimit ⟨[]⟩ limit) fields
              GetPosts.defaultFields).Set "access_token" c.AccessToken) },
    (setFields (setLimit ⟨[]⟩ limit) fields GetPosts.defaultFields).Set
      "access_token" c.AccessToken, ?_, rfl, ?_⟩
  · rw [Client.GetPosts, fetch_sent, Sprintf_posts, makeRequest_get_sent c t _ _ hn]
  · rw [Values.lookup_Set_ne _ _ _ _ (by decide), lookup_setFields_other _ _ _ _ (by decide),
      lookup_setLimit_self ⟨[]⟩ limit rfl, if_pos hl]

theorem GetPostComments_limit_sent {α : Type} (c : Client) (t : Transport) (dec : Decoder α)
    (zero : α) (postID : String) (limit : Int) (order : String) (fields : List String)
    (hl : 0 < limit)
    (hn : t.NewRequestErr "GET" (c.buildURL (postID ++ "/comments")) = none) :
    carriesLimit (c.GetPostComments t dec zero postID limit order fields).2 limit := by
  refine ⟨{ Method := "GET", URL := c.buildURL (postID ++ "/comments"),
            RawQuery := some ((setFields
              ((if (order != "") = true then (setLimit ⟨[]⟩ limit).Set "order" order
                else (setLimit ⟨[]⟩ limit).Set "order" "reverse_chronological").Set
                  "summary" "true")
              fields GetPostComments.defaultFields).Set "access_token" c.AccessToken) },
    (setFields
      ((if (order != "") = true then (setLimit ⟨[]⟩ limit).Set "order" order
        else (setLimit ⟨[]⟩ limit).Set "order" "reverse_chronological").Set "summary" "true")
      fields GetPostComments.defaultFields).Set "access_token" c.AccessToken, ?_, rfl, ?_⟩
  · rw [Client.GetPostComments, fetch_sent, Sprintf_comments, makeRequest_get_sent c t _ _ hn]
  · rw [Values.lookup_Set_ne _ _ _ _ (by decide), lookup_setFields_other _ _ _ _ (by decide),
      Values.lookup_Set_ne _ _ _ _ (by decide)]
    have h2 : ∀ v : Values, v.lookup "limit" = (setLimit ⟨[]⟩ limit).lookup "limit" →
        v.lookup "limit" = some [toString limit] := by
      intro v hv
      rw [hv, lookup_setLimit_self ⟨[]⟩ limit rfl, if_pos hl]
    apply h2
    split <;> exact Values.lookup_Set_ne _ _ _ _ (by decide)

theorem GetCommentReplies_limit_sent {α : Type} (c : Client) (t : Transport)
    (dec : Decoder α) (zero : α) (commentID : String) (limit : Int) (fields : List String)
    (hl : 0 < limit)
    (hn : t.NewRequestErr "GET" (c.buildURL (commentID ++ "/comments")) = none) :
    carriesLimit (c.GetCommentReplies t dec zero commentID limit fields).2 limit := by
  refine ⟨{ Method := "GET", URL := c.buildURL (commentID ++ "/comments"),
            RawQuery := some ((setFields (setLimit ⟨[]⟩ limit) fields
              GetCommentReplies.defaultFields).Set "access_token" c.AccessToken) },
    (setFields (setLimit ⟨[]⟩ limit) fields GetCommentReplies.defaultFields).Set
      "access_token" c.AccessToken, ?_, rfl, ?_⟩
  · rw [Client.GetCommentReplies, fetch_sent, Sprintf_comments,
      makeRequest_get_sent c t _ _ hn]
  · rw [Values.lookup_Set_ne _ _ _ _ (by decide), lookup_setFields_other _ _ _ _ (by decide),
      lookup_setLimit_self ⟨[]⟩ limit rfl, if_pos hl]

theorem passesLimit_of_calls (o : Outcome) (limit : Int)
    (h : o.calls = [] ∨ ∃ call : Call, o.calls = [call] ∧ call.limit = some limit) :
    o.passesLimit limit := by
  intro call hc
  rcases h with h | ⟨call', h, hl⟩
  · rw [h] at hc
    exact absurd hc (List.not_mem_nil _)
  · rw [h, List.mem_singleton] at hc
    rw [hc, hl]

/-- C14: the limit that the posts, post-comments and replies handlers of both routers
pass to the Resource Method is `parseLimit`: it is n when the `limit` parameter is the
decimal text of an integer n with 0 < n < 2^63, and 10 when it is the decimal text of
any other integer, when it is absent or empty, and when `strconv.Atoi` rejects it; in
general it is the value `strconv.Atoi` reads when that is positive and 10 otherwise. It
is always positive, and the request that `GetPosts`, `GetPostComments` and
`GetCommentReplies` send for it carries `limit` with its decimal text. -/
theorem limit_default (r : Router) (sr : SimpleRouter) (env : Env) (api : API)
    (w : ResponseWriter) (req : Request) :
    (∀ n : Int, req.Query.Get "limit" = toString n →
        parseLimit req = if 0 < n ∧ n < 2 ^ 63 then n else 10)
    ∧ (req.Query.lookup "limit" = none → parseLimit req = 10)
    ∧ (req.Query.Get "limit" = "" → parseLimit req = 10)
    ∧ (Atoi (req.Query.Get "limit") = none → parseLimit req = 10)
    ∧ (∀ l : Int, Atoi (req.Query.Get "limit") = some l →
        parseLimit req = if 0 < l then l else 10)
    ∧ 0 < parseLimit req
    ∧ ((r.getPosts api w req).passesLimit (parseLimit req)
      ∧ (r.getPostComments api w req).passesLimit (parseLimit req)
      ∧ (r.getCommentReplies api w req).passesLimit (parseLimit req))
    ∧ ((sr.getPosts env api w req).passesLimit (parseLimit req)
      ∧ (sr.getPostComments env api w req).passesLimit (parseLimit req)
      ∧ (sr.getCommentReplies env api w req).passesLimit (parseLimit req))
    ∧ (∀ call ∈ (sr.ServeHTTP env api req).calls,
        call.limit = none ∨ call.limit = some (parseLimit req))
    ∧ (∀ (c : Client) (t : Transport) (dec : Decoder Json) (zero : Json) (id order : String)
        (fields : List String),
        (t.NewRequestErr "GET" (c.buildURL (id ++ "/posts")) = none →
          carriesLimit (c.GetPosts t dec zero id (parseLimit req) fields).2 (parseLimit req))
        ∧ (t.NewRequestErr "GET" (c.buildURL (id ++ "/comments")) = none →
          carriesLimit (c.GetPostComments t dec zero id (parseLimit req) order fields).2
            (parseLimit req)
          ∧ carriesLimit (c.GetCommentReplies t dec zero id (parseLimit req) fields).2
            (parseLimit req))) := by
  have hpos := parseLimit_pos req
  have sPosts : ∀ w', (sr.getPosts env api w' req).passesLimit (parseLimit req) := by
    intro w'
    apply passesLimit_of_calls
    simp only [SimpleRouter.getPosts]
    split_ifs
    · exact Or.inl rfl
    · exact Or.inl rfl
    · split
      · exact Or.inl rfl
      · exact Or.inr ⟨_, finish_calls _ _ _ _ _, rfl⟩
  have sComments : ∀ w',
      (sr.getPostComments env api w' req).passesLimit (parseLimit req) := by
    intro w'
    apply passesLimit_of_calls
    simp only [SimpleRouter.getPostComments]
    split_ifs
    · exact Or.inl rfl
    · exact Or.inl rfl
    · split
      · exact Or.inl rfl
      · exact Or.inr ⟨_, finish_calls _ _ _ _ _, rfl⟩
  have sReplies : ∀ w',
      (sr.getCommentReplies env api w' req).passesLimit (parseLimit req) := by
    intro w'
    apply passesLimit_of_calls
    simp only [SimpleRouter.getCommentReplies]
    split_ifs
    · exact Or.inl rfl
    · exact Or.inl rfl
    · split
      · exact Or.inl rfl
      · exact Or.inr ⟨_, finish_calls _ _ _ _ _, rfl⟩
  have noLimit : ∀ o : Outcome,
      (o.calls = [] ∨ ∃ call : Call, o.calls = [call] ∧ call.limit = none) →
      ∀ call ∈ o.calls, call.limit = none ∨ call.limit = some (parseLimit req) := by
    intro o h call hc
    rcases h with h | ⟨call', h, hl⟩
    · rw [h] at hc
      exact absurd hc (List.not_mem_nil _)
    · rw [h, List.mem_singleton] at hc
      rw [hc]
      exact Or.inl hl
  refine ⟨parseLimit_toString req, fun h => parseLimit_of_empty req (Values.Get_absent _ _ h),
    parseLimit_of_empty req, parseLimit_of_none req, ?_, hpos, ⟨?_, ?_, ?_⟩,
    ⟨sPosts w, sComments w, sReplies w⟩, ?_, ?_⟩
  · intro l h
    have hne : req.Query.Get "limit" ≠ "" := by
      intro h0
      have hnone : Atoi "" = none := by decide
      rw [h0, hnone] at h
      exact Option.noConfusion h
    exact parseLimit_of_some req l hne h
  · apply passesLimit_of_calls
    simp only [Router.getPosts]
    split_ifs
    · exact Or.inl rfl
    · split
      · exact Or.inl rfl
      · exact Or.inr ⟨_, finish_calls _ _ _ _ _, rfl⟩
  · apply passesLimit_of_calls
    simp only [Router.getPostComments]
    split_ifs
    · exact Or.inl rfl
    · split
      · exact Or.inl rfl
      · exact Or.inr ⟨_, finish_calls _ _ _ _ _, rfl⟩
  · apply passesLimit_of_calls
    simp only [Router.getCommentReplies]
    split_ifs
    · exact Or.inl rfl
    · split
      · exact Or.inl rfl
      · exact Or.inr ⟨_, finish_calls _ _ _ _ _, rfl⟩
  · simp only [SimpleRouter.ServeHTTP]
    split_ifs
    · intro call hc
      exact absurd hc (List.not_mem_nil _)
    · split
      · apply noLimit
        simp only [SimpleRouter.healthCheck]
        split_ifs <;> exact Or.inl rfl
      · intro call hc
        exact Or.inr (sPosts _ call hc)
      · apply noLimit
        simp only [SimpleRouter.getPage]
        split_ifs
        · exact Or.inl rfl
        · exact Or.inl rfl
        · split
          · exact Or.inl rfl
          · exact Or.inr ⟨_, finish_calls _ _ _ _ _, rfl⟩
      · apply noLimit
        simp only [SimpleRouter.getPages]
        split_ifs
        · exact Or.inl rfl
        · split
          · exact Or.inl rfl
          · exact Or.inr ⟨_, finish_calls _ _ _ _ _, rfl⟩
      · intro call hc
        exact Or.inr (sComments _ call hc)
      · intro call hc
        exact Or.inr (sReplies _ call hc)
      · apply noLimit
        simp only [SimpleRouter.getComment]
        split_ifs
        · exact Or.inl rfl
        · exact Or.inl rfl
        · split
          · exact Or.inl rfl
          · exact Or.inr ⟨_, finish_calls _ _ _ _ _, rfl⟩
      · intro call hc
        exact absurd hc (List.not_mem_nil _)
  · intro c t dec zero id order fields
    exact ⟨GetPosts_limit_sent c t dec zero id _ fields hpos,
      fun hn => ⟨GetPostComments_limit_sent c t dec zero id _ order fields hpos hn,
        GetCommentReplies_limit_sent c t dec zero id _ fields hpos hn⟩⟩

/-- C14 at concrete requests: `limit=25` gives 25, `limit=abc` gives 10, and the posts
handler passes the limit it computed. -/
theorem limit_default_witness :
    parseLimit { Method := "GET", Path := "/api/pages/123/posts",
                 Query := ⟨[("limit", ["25"])]⟩, Header := ⟨[]⟩ }
      = (if (0 : Int) < 25 ∧ (25 : Int) < 2 ^ 63 then 25 else 10)
    ∧ (Atoi (Values.Get ⟨[("limit", ["abc"])]⟩ "limit") = none →
        parseLimit { Method := "GET", Path := "/api/pages/123/posts",
                     Query := ⟨[("limit", ["abc"])]⟩, Header := ⟨[]⟩ } = 10)
    ∧ (SimpleRouter.getPosts ⟨some (NewClient "T")⟩ (fun _ => "") (fun _ => .ok .null) {}
        { Method := "GET", Path := "/api/pages/123/posts",
          Query := ⟨[("limit", ["25"])]⟩, Header := ⟨[]⟩ }).passesLimit
        (parseLimit { Method := "GET", Path := "/api/pages/123/posts",
                      Query := ⟨[("limit", ["25"])]⟩, Header := ⟨[]⟩ }) :=
  ⟨(limit_default ⟨none⟩ ⟨some (NewClient "T")⟩ (fun _ => "") (fun _ => .ok .null) {}
      { Method := "GET", Path := "/api/pages/123/posts",
        Query := ⟨[("limit", ["25"])]⟩, Header := ⟨[]⟩ }).1 25 rfl,
   (limit_default ⟨none⟩ ⟨some (NewClient "T")⟩ (fun _ => "") (fun _ => .ok .null) {}
      { Method := "GET", Path := "/api/pages/123/posts",
        Query := ⟨[("limit", ["abc"])]⟩, Header := ⟨[]⟩ }).2.2.2.1,
   (limit_default ⟨none⟩ ⟨some (NewClient "T")⟩ (fun _ => "") (fun _ => .ok .null) {}
      { Method := "GET", Path := "/api/pages/123/posts",
        Query := ⟨[("limit", ["25"])]⟩, Header := ⟨[]⟩ }).2.2.2.2.2.2.2.1.1⟩

/-- C14, an input where the claim fails: `9223372036854775808` is the decimal text of
the integer 2^63 > 0, `strconv.Atoi` rejects it as out of range, and both posts handlers
pass the limit 10 to `GetPosts`. -/
theorem limit_default_fails :
    "9223372036854775808" = toString ((2 : Int) ^ 63)
    ∧ (0 : Int) < 2 ^ 63
    ∧ Atoi "9223372036854775808" = none
    ∧ parseLimit { Method := "GET", Path := "/api/pages/123/posts",
                   Query := ⟨[("limit", ["9223372036854775808"])]⟩, Header := ⟨[]⟩ } = 10
    ∧ (SimpleRouter.getPosts ⟨some (NewClient "T")⟩ (fun _ => "") (fun _ => .ok .null) {}
        { Method := "GET", Path := "/api/pages/123/posts",
          Query := ⟨[("limit", ["9223372036854775808"])]⟩, Header := ⟨[]⟩ }).calls
        = [.GetPosts (NewClient "T") "123" 10 []]
    ∧ (Router.getPosts ⟨some (NewClient "T")⟩ (fun _ => .ok .null) {}
        { Method := "GET", Path := "/api/pages/123/posts",
          Query := ⟨[("limit", ["9223372036854775808"])]⟩, Header := ⟨[]⟩,
          Vars := [("pageId", "123")] }).calls
        = [.GetPosts (NewClient "T") "123" 10 []]
    ∧ (10 : Int) ≠ 2 ^ 63 := by
  refine ⟨by rfl, by decide, by decide, by decide, by decide, by decide, by decide⟩

/-- The request `DeletePhoto` builds and what `makeRequest` does with it. -/
theorem makeRequest_delete (c : Client) (t : Transport) (photoID : String) :
    c.makeRequest t "DELETE" photoID none none
      = match t.NewRequestErr "DELETE" (c.buildURL photoID) with
        | some err => (.error (Sprintf "creating request: %w" [.str err]), [])
        | none =>
          match t.Do { Method := "DELETE", URL := c.buildURL photoID,
                       RawQuery := some ⟨[("access_token", [c.AccessToken])]⟩ } with
          | .error err =>
            (.error (Sprintf "making request: %w" [.str err]),
              [{ Method := "DELETE", URL := c.buildURL photoID,
                 RawQuery := some ⟨[("access_token", [c.AccessToken])]⟩ }])
          | .ok resp =>
            (.ok resp, [{ Method := "DELETE", URL := c.buildURL photoID,
                          RawQuery := some ⟨[("access_token", [c.AccessToken])]⟩ }]) := by
  have hlen : (⟨[("access_token", [c.AccessToken])]⟩ : Values).len > 0 :=
    Values.len_Set_pos ⟨[]⟩ "access_token" c.AccessToken
  have hpost : (("DELETE" : String) == "POST") = false := by decide
  have hset : (⟨[]⟩ : Values).Set "access_token" c.AccessToken
      = ⟨[("access_token", [c.AccessToken])]⟩ := rfl
  simp only [Client.makeRequest, if_pos hlen, hpost, Bool.false_and, Bool.false_eq_true,
    if_false, hset]

/-- What `DeletePhoto` returns once the response arrived with a readable body and a
status below 400. -/
theorem DeletePhoto_of_response (c : Client) (t : Transport) (photoID : String)
    (resp : HTTPResponse) (body : String)
    (hn : t.NewRequestErr "DELETE" (c.buildURL photoID) = none)
    (hd : t.Do { Method := "DELETE", URL := c.buildURL photoID,
                 RawQuery := some ⟨[("access_token", [c.AccessToken])]⟩ } = .ok resp)
    (hb : resp.Body = .ok body) (hs : resp.StatusCode < 400) :
    (c.DeletePhoto t photoID).1
      = match unmarshalDeleteResult body {} with
        | (some err, _) => some (Sprintf "unmarshaling response: %w" [.str err])
        | (none, r) => if r.Success then none else some "failed to delete photo" := by
  have hs' : ¬ resp.StatusCode ≥ 400 := by omega
  unfold Client.DeletePhoto
  rw [makeRequest_delete]
  simp only [hn, hd, Client.handleResponse, hb, if_neg hs']
  rcases hu : unmarshalDeleteResult body {} with ⟨_ | err, r⟩
  · simp only [Option.getD_some]
    by_cases hsx : r.Success = true
    · simp [hsx]
    · have hf : r.Success = false := by simpa using hsx
      simp [hf]
  · simp only

theorem foldl_decodeDeleteMember_omits (members : List (String × Json))
    (st : DeleteResult × Bool)
    (h : ∀ m ∈ members, keyMatches m.1 "success" = false) :
    members.foldl decodeDeleteMember st = st := by
  induction members generalizing st with
  | nil => rfl
  | cons m ms ih =>
    have hm : keyMatches m.1 "success" = false := h m (List.mem_cons_self _ _)
    have hstep : decodeDeleteMember st m = st := by
      unfold decodeDeleteMember
      simp only [hm, Bool.false_eq_true, if_false]
    rw [List.foldl_cons, hstep]
    exact ih st (fun x hx => h x (List.mem_cons_of_mem _ hx))

/-- A body that is a JSON object without a `success` member decodes without error and
leaves the target as it was. -/
theorem unmarshalDeleteResult_omits (body : String) (members : List (String × Json))
    (cur : DeleteResult) (hp : parseJson body = some (.obj members))
    (h : ∀ m ∈ members, keyMatches m.1 "success" = false) :
    unmarshalDeleteResult body cur = (none, cur) := by
  unfold unmarshalDeleteResult
  simp only [hp, foldl_decodeDeleteMember_omits members (cur, false) h, Bool.false_eq_true,
    if_false]

/-- C20: when the response has a status below 400 and its body decodes into a result
whose `success` is false (as it does in particular for every JSON object without a
`success` member), `DeletePhoto` returns the error `failed to delete photo`; and
`DeletePhoto` returns nil exactly when the request was created, the HTTP client
answered it, the body was read, the status is below 400, the body decodes without
error and `success` is true. -/
theorem DeletePhoto_failure_flag (c : Client) (t : Transport) (photoID : String) :
    (∀ (resp : HTTPResponse) (body : String) (r : DeleteResult),
        t.NewRequestErr "DELETE" (c.buildURL photoID) = none →
        t.Do { Method := "DELETE", URL := c.buildURL photoID,
               RawQuery := some ⟨[("access_token", [c.AccessToken])]⟩ } = .ok resp →
        resp.Body = .ok body → resp.StatusCode < 400 →
        unmarshalDeleteResult body {} = (none, r) → r.Success = false →
        (c.DeletePhoto t photoID).1 = some "failed to delete photo")
    ∧ (∀ (body : String) (members : List (String × Json)),
        parseJson body = some (.obj members) →
        (∀ m ∈ members, keyMatches m.1 "success" = false) →
        unmarshalDeleteResult body {} = (none, { Success := false }))
    ∧ ((c.DeletePhoto t photoID).1 = none ↔
        ∃ (resp : HTTPResponse) (body : String) (r : DeleteResult),
          t.NewRequestErr "DELETE" (c.buildURL photoID) = none
          ∧ t.Do { Method := "DELETE", URL := c.buildURL photoID,
                   RawQuery := some ⟨[("access_token", [c.AccessToken])]⟩ } = .ok resp
          ∧ resp.Body = .ok body ∧ resp.StatusCode < 400
          ∧ unmarshalDeleteResult body {} = (none, r) ∧ r.Success = true) := by
  refine ⟨?_, ?_, ?_, ?_⟩
  · intro resp body r hn hd hb hs hu hf
    rw [DeletePhoto_of_response c t photoID resp body hn hd hb hs, hu]
    simp only [hf, Bool.false_eq_true, if_false]
  · intro body members hp h
    exact unmarshalDeleteResult_omits body members {} hp h
  · intro h
    cases hn : t.NewRequestErr "DELETE" (c.buildURL photoID) with
    | some err =>
      unfold Client.DeletePhoto at h
      rw [makeRequest_delete] at h
      simp only [hn] at h
      exact absurd h (by simp)
    | none =>
      cases hd : t.Do { Method := "DELETE", URL := c.buildURL photoID,
                        RawQuery := some ⟨[("access_token", [c.AccessToken])]⟩ } with
      | error err =>
        unfold Client.DeletePhoto at h
        rw [makeRequest_delete] at h
        simp only [hn, hd] at h
        exact absurd h (by simp)
      | ok resp =>
        cases hb : resp.Body with
        | error err =>
          unfold Client.DeletePhoto at h
          rw [makeRequest_delete] at h
          simp only [hn, hd, Client.handleResponse, hb] at h
          exact absurd h (by simp)
        | ok body =>
          by_cases hs : resp.StatusCode ≥ 400
          · unfold Client.DeletePhoto at h
            rw [makeRequest_delete] at h
            cases he : unmarshalErrorResponse body with
            | none =>
              simp only [hn, hd, Client.handleResponse, hb, if_pos hs, he] at h
              exact absurd h (by simp)
            | some errorResp =>
              simp only [hn, hd, Client.handleResponse, hb, if_pos hs, he] at h
              exact absurd h (by simp)
          · have hs' : resp.StatusCode < 400 := by omega
            rw [DeletePhoto_of_response c t photoID resp body hn hd hb hs'] at h
            rcases hu : unmarshalDeleteResult body {} with ⟨_ | err, r⟩
            · rw [hu] at h
              by_cases hsx : r.Success = true
              · exact ⟨resp, body, r, rfl, rfl, hb, hs', hu, hsx⟩
              · simp only [hsx, if_false] at h
                exact absurd h (by simp)
            · rw [hu] at h
              exact absurd h (by simp)
  · rintro ⟨resp, body, r, hn, hd, hb, hs, hu, hsx⟩
    rw [DeletePhoto_of_response c t photoID resp body hn hd hb hs, hu]
    simp only [hsx, if_true]

/-- C20 at concrete responses of status 200: the bodies `{"success": false}` and `{}`
make `DeletePhoto` fail, the body `{"success": true}` makes it return nil. -/
theorem DeletePhoto_failure_flag_witness :
    (Client.DeletePhoto (NewClient "T")
        ⟨fun _ _ => none,
         fun _ => .ok { StatusCode := 200, Body := .ok "\x7b\"success\": false\x7d" }⟩ "55").1
      = some "failed to delete photo"
    ∧ (Client.DeletePhoto (NewClient "T")
        ⟨fun _ _ => none, fun _ => .ok { StatusCode := 200, Body := .ok "\x7b\x7d" }⟩ "55").1
      = some "failed to delete photo"
    ∧ (Client.DeletePhoto (NewClient "T")
        ⟨fun _ _ => none,
         fun _ => .ok { StatusCode := 200, Body := .ok "\x7b\"success\": true\x7d" }⟩ "55").1
      = none :=
  ⟨(DeletePhoto_failure_flag (NewClient "T")
      ⟨fun _ _ => none,
       fun _ => .ok { StatusCode := 200, Body := .ok "\x7b\"success\": false\x7d" }⟩ "55").1
      { StatusCode := 200, Body := .ok "\x7b\"success\": false\x7d" }
      "\x7b\"success\": false\x7d" { Success := false } rfl rfl rfl (by decide) (by decide) rfl,
   (DeletePhoto_failure_flag (NewClient "T")
      ⟨fun _ _ => none, fun _ => .ok { StatusCode := 200, Body := .ok "\x7b\x7d" }⟩ "55").1
      { StatusCode := 200, Body := .ok "\x7b\x7d" } "\x7b\x7d" { Success := false }
      rfl rfl rfl (by decide)
      ((DeletePhoto_failure_flag (NewClient "T")
        ⟨fun _ _ => none, fun _ => .ok { StatusCode := 200, Body := .ok "\x7b\x7d" }⟩
        "55").2.1 "\x7b\x7d" [] rfl (fun _ hm => absurd hm (List.not_mem_nil _))) rfl,
   (DeletePhoto_failure_flag (NewClient "T")
      ⟨fun _ _ => none,
       fun _ => .ok { StatusCode := 200, Body := .ok "\x7b\"success\": true\x7d" }⟩ "55").2.2.2
      ⟨{ StatusCode := 200, Body := .ok "\x7b\"success\": true\x7d" },
       "\x7b\"success\": true\x7d", { Success := true }, rfl, rfl, rfl, by decide, by decide,
       rfl⟩⟩

theorem Sprintf_insights (x : String) : Sprintf "%s/insights" [.str x] = x ++ "/insights" :=
  Sprintf_operand_then_text _ "/insights" x rfl (by decide)

theorem lookup_setDate_self (params : Values) (key : String) (date : Option Time)
    (hp : params.lookup key = none) :
    (setDate params key date).lookup key = date.map (fun d => [d.FormatDate]) := by
  cases date with
  | none => exact hp
  | some d => exact Values.lookup_Set_self _ _ _

theorem lookup_setDate_other (params : Values) (key k : String) (date : Option Time)
    (hk : k ≠ key) : (setDate params key date).lookup k = params.lookup k := by
  cases date with
  | none => rfl
  | some d => exact Values.lookup_Set_ne _ _ _ _ hk

theorem setMetrics_eq (params : Values) (metrics defaults : List String) :
    setMetrics params metrics defaults
      = params.Set "metric" (",".intercalate (if metrics = [] then defaults else metrics)) := by
  cases metrics with
  | nil => simp [setMetrics, joinFields_eq]
  | cons m ms => simp [setMetrics, joinFields_eq]

/-- The date that `Format("2006-01-02")` prints for a time whose wall clock, in its
location, is the calendar date `year`-`month`-`day` at `hour`:`min`:`sec`, for a year
of at most four digits: ten characters `YYYY-MM-DD`. -/
theorem FormatDate_of_date (tm : Time) (year month day hour min sec : Int)
    (hy0 : 0 ≤ year) (hy : year < 10000)
    (hm1 : 1 ≤ month) (hm : month ≤ 12) (hd1 : 1 ≤ day) (hd : day ≤ daysIn month year)
    (hh0 : 0 ≤ hour) (hh : hour < 24) (hn0 : 0 ≤ min) (hn : min < 60)
    (hs0 : 0 ≤ sec) (hs : sec < 60)
    (ht : tm.sec + tm.offset = (Date year month day hour min sec 0).sec) :
    tm.FormatDate
      = String.mk [utod (year.toNat / 1000), utod (year.toNat / 100 % 10),
          utod (year.toNat / 10 % 10), utod (year.toNat % 10), '-',
          utod (month.toNat / 10), utod (month.toNat % 10), '-',
          utod (day.toNat / 10), utod (day.toNat % 10)] := by
  obtain ⟨h1, _⟩ := absDate_absClock_Date year month day hour min sec 0 hm1 hm hd1 hd hh0 hh
    hn0 hn hs0 hs
  have hd31 : day < 100 := by
    rw [daysIn_eq] at hd
    cases isLeap year <;> interval_cases month <;> simp [daysBefore] at hd <;> omega
  simp only [Time.FormatDate, ht, h1]
  rw [appendInt_four year hy0 hy, appendInt_two month (by omega) (by omega),
    appendInt_two day (by omega) hd31]
  rfl

/-- C21: `GetPageInsights` requests `<pageId>/insights` with `metric` = the comma-join
of the given metrics, or of the seven default metrics when none is given; `period` =
the given period, or `day` when it is empty; `since` and `until` present exactly when
the argument is not nil, with the value `Format("2006-01-02")` of that time, which for
a time whose wall clock in its location shows the date year-month-day (year 0 to 9999)
is the ten characters `YYYY-MM-DD`; and no parameter besides these and the credential. -/
theorem GetPageInsights_request {α : Type} (c : Client) (t : Transport) (dec : Decoder α)
    (zero : α) (pageID : String) (metrics : List String) (period : String)
    (since until_ : Option Time)
    (hn : t.NewRequestErr "GET" (c.buildURL (pageID ++ "/insights")) = none) :
    (∃ q : Values,
      (c.GetPageInsights t dec zero pageID metrics period since until_).2
        = [{ Method := "GET", URL := c.buildURL (pageID ++ "/insights"), RawQuery := some q }]
      ∧ q.lookup "metric"
          = some [",".intercalate
              (if metrics = [] then GetPageInsights.defaultMetrics else metrics)]
      ∧ q.lookup "period" = some [if period = "" then "day" else period]
      ∧ q.lookup "since" = since.map (fun s => [s.FormatDate])
      ∧ q.lookup "until" = until_.map (fun u => [u.FormatDate])
      ∧ q.lookup "access_token" = some [c.AccessToken]
      ∧ (∀ k : String, k ≠ "metric" → k ≠ "period" → k ≠ "since" → k ≠ "until" →
          k ≠ "access_token" → q.lookup k = none))
    ∧ ",".intercalate GetPageInsights.defaultMetrics
        = "page_fans,page_fan_adds,page_fan_removes,page_views_total,page_impressions," ++
          "page_posts_impressions,page_engaged_users"
    ∧ (∀ (tm : Time) (year month day hour min sec : Int),
        0 ≤ year → year < 10000 → 1 ≤ month → month ≤ 12 → 1 ≤ day →
        day ≤ daysIn month year → 0 ≤ hour → hour < 24 → 0 ≤ min → min < 60 →
        0 ≤ sec → sec < 60 →
        tm.sec + tm.offset = (Date year month day hour min sec 0).sec →
        tm.FormatDate
          = String.mk [utod (year.toNat / 1000), utod (year.toNat / 100 % 10),
              utod (year.toNat / 10 % 10), utod (year.toNat % 10), '-',
              utod (month.toNat / 10), utod (month.toNat % 10), '-',
              utod (day.toNat / 10), utod (day.toNat % 10)]) := by
  refine ⟨⟨(setDate (setDate
      ((if (period != "") = true then
          (setMetrics ⟨[]⟩ metrics GetPageInsights.defaultMetrics).Set "period" period
        else (setMetrics ⟨[]⟩ metrics GetPageInsights.defaultMetrics).Set "period" "day"))
      "since" since) "until" until_).Set "access_token" c.AccessToken,
    ?_, ?_, ?_, ?_, ?_, ?_, ?_⟩, by rfl, ?_⟩
  · rw [Client.GetPageInsights, fetch_sent, Sprintf_insights, makeRequest_get_sent c t _ _ hn]
  · rw [Values.lookup_Set_ne _ _ _ _ (by decide), lookup_setDate_other _ _ _ _ (by decide),
      lookup_setDate_other _ _ _ _ (by decide), setMetrics_eq]
    split <;>
      rw [Values.lookup_Set_ne _ _ _ _ (by decide), Values.lookup_Set_self]
  · rw [Values.lookup_Set_ne _ _ _ _ (by decide), lookup_setDate_other _ _ _ _ (by decide),
      lookup_setDate_other _ _ _ _ (by decide)]
    by_cases hp : period = ""
    · subst hp
      simp [Values.lookup_Set_self]
    · have hb : (period != "") = true := by simp [hp]
      simp only [hb, if_true, if_neg hp, Values.lookup_Set_self]
  · rw [Values.lookup_Set_ne _ _ _ _ (by decide), lookup_setDate_other _ _ _ _ (by decide)]
    apply lookup_setDate_self
    rw [setMetrics_eq]
    split <;>
      rw [Values.lookup_Set_ne _ _ _ _ (by decide), Values.lookup_Set_ne _ _ _ _ (by decide)]
      <;> rfl
  · rw [Values.lookup_Set_ne _ _ _ _ (by decide)]
    apply lookup_setDate_self
    rw [lookup_setDate_other _ _ _ _ (by decide), setMetrics_eq]
    split <;>
      rw [Values.lookup_Set_ne _ _ _ _ (by decide), Values.lookup_Set_ne _ _ _ _ (by decide)]
      <;> rfl
  · exact Values.lookup_Set_self _ _ _
  · intro k h1 h2 h3 h4 h5
    rw [Values.lookup_Set_ne _ _ _ _ h5, lookup_setDate_other _ _ _ _ h4,
      lookup_setDate_other _ _ _ _ h3, setMetrics_eq]
    split <;>
      rw [Values.lookup_Set_ne _ _ _ _ h2, Values.lookup_Set_ne _ _ _ _ h1] <;> rfl
  · intro tm year month day hour min sec hy0 hy hm1 hm hd1 hd hh0 hh hn0 hn' hs0 hs ht
    exact FormatDate_of_date tm year month day hour min sec hy0 hy hm1 hm hd1 hd hh0 hh
      hn0 hn' hs0 hs ht

/-- C21 at a concrete call: page `123`, no metrics, no period, `since` = 5 November
2024 at 23:30 in a zone one hour east of UTC, no `until`. -/
theorem GetPageInsights_request_witness :
    (∃ q : Values,
      (Client.GetPageInsights (NewClient "T")
          ⟨fun _ _ => none, fun _ => .ok { StatusCode := 200, Body := .ok "" }⟩
          (fun (_ : String) (v : Unit) => (none, v)) () "123" [] ""
          (some (stampTime 2024 11 5 23 30 0 60)) none).2
        = [{ Method := "GET", URL := (NewClient "T").buildURL ("123" ++ "/insights"),
             RawQuery := some q }]
      ∧ q.lookup "metric"
          = some [",".intercalate
              (if ([] : List String) = [] then GetPageInsights.defaultMetrics else [])]
      ∧ q.lookup "period" = some [if ("" : String) = "" then "day" else ""]
      ∧ q.lookup "since"
          = (some (stampTime 2024 11 5 23 30 0 60)).map (fun s => [s.FormatDate])
      ∧ q.lookup "until" = (none : Option Time).map (fun u => [u.FormatDate])
      ∧ q.lookup "access_token" = some [(NewClient "T").AccessToken]
      ∧ (∀ k : String, k ≠ "metric" → k ≠ "period" → k ≠ "since" → k ≠ "until" →
          k ≠ "access_token" → q.lookup k = none))
    ∧ (stampTime 2024 11 5 23 30 0 60).FormatDate = "2024-11-05" :=
  ⟨(GetPageInsights_request (NewClient "T")
      ⟨fun _ _ => none, fun _ => .ok { StatusCode := 200, Body := .ok "" }⟩
      (fun (_ : String) (v : Unit) => (none, v)) () "123" [] ""
      (some (stampTime 2024 11 5 23 30 0 60)) none rfl).1,
   by decide⟩

/-- The request a `makeRequest` without parameters and body builds, for a method other
than POST, and what `makeRequest` returns. -/
theorem makeRequest_no_params (c : Client) (t : Transport) (method endpoint : String)
    (hm : (method == "POST") = false) :
    c.makeRequest t method endpoint none none
      = match t.NewRequestErr method (c.buildURL endpoint) with
        | some err => (.error (Sprintf "creating request: %w" [.str err]), [])
        | none =>
          match t.Do { Method := method, URL := c.buildURL endpoint,
                       RawQuery := some ⟨[("access_token", [c.AccessToken])]⟩ } with
          | .error err =>
            (.error (Sprintf "making request: %w" [.str err]),
              [{ Method := method, URL := c.buildURL endpoint,
                 RawQuery := some ⟨[("access_token", [c.AccessToken])]⟩ }])
          | .ok resp =>
            (.ok resp, [{ Method := method, URL := c.buildURL endpoint,
                          RawQuery := some ⟨[("access_token", [c.AccessToken])]⟩ }]) := by
  have hlen : (⟨[("access_token", [c.AccessToken])]⟩ : Values).len > 0 :=
    Values.len_Set_pos ⟨[]⟩ "access_token" c.AccessToken
  have hset : (⟨[]⟩ : Values).Set "access_token" c.AccessToken
      = ⟨[("access_token", [c.AccessToken])]⟩ := rfl
  simp only [Client.makeRequest, if_pos hlen, hm, Bool.false_and, Bool.false_eq_true,
    if_false, hset]

theorem Sprintf_creating (e : String) :
    Sprintf "creating request: %w" [.str e] = "creating request: " ++ e :=
  Sprintf_text_then_operand _ "creating request: " e 'w' (by simp) rfl (by decide)

theorem Sprintf_making (e : String) :
    Sprintf "making request: %w" [.str e] = "making request: " ++ e :=
  Sprintf_text_then_operand _ "making request: " e 'w' (by simp) rfl (by decide)

theorem Sprintf_validating (e : String) :
    Sprintf "validating access token: %w" [.str e] = "validating access token: " ++ e :=
  Sprintf_text_then_operand _ "validating access token: " e 'w' (by simp) rfl (by decide)

theorem Sprintf_invalid_token (e : String) :
    Sprintf "invalid access token: %w" [.str e] = "invalid access token: " ++ e :=
  Sprintf_text_then_operand _ "invalid access token: " e 'w' (by simp) rfl (by decide)

/-- What `ValidateAccessToken` returns once the HTTP client answered. -/
theorem ValidateAccessToken_of_response (c : Client) (t : Transport) (resp : HTTPResponse)
    (hn : t.NewRequestErr "GET" (c.buildURL "me") = none)
    (hd : t.Do { Method := "GET", URL := c.buildURL "me",
                 RawQuery := some ⟨[("access_token", [c.AccessToken])]⟩ } = .ok resp) :
    (c.ValidateAccessToken t).1
      = (c.handleResponse unmarshalIdentity resp (some ({} : IdentityResult))).1.map
          (fun e => "invalid access token: " ++ e) := by
  unfold Client.ValidateAccessToken
  rw [makeRequest_no_params c t "GET" "me" (by decide)]
  simp only [hn, hd]
  rcases hr : c.handleResponse unmarshalIdentity resp (some ({} : IdentityResult))
    with ⟨_ | err, r⟩
  · rfl
  · simp only [Option.map_some', Sprintf_invalid_token]

/-- When `handleResponse` returns nil for a non-nil target. -/
theorem handleResponse_nil_iff {α : Type} (c : Client) (dec : Decoder α) (resp : HTTPResponse)
    (zero : α) :
    (c.handleResponse dec resp (some zero)).1 = none
      ↔ ∃ (body : String) (r : α),
          resp.Body = .ok body ∧ resp.StatusCode < 400 ∧ dec body zero = (none, r) := by
  unfold Client.handleResponse
  cases hb : resp.Body with
  | error err => simp
  | ok body =>
    by_cases hs : resp.StatusCode ≥ 400
    · have hs' : ¬ resp.StatusCode < 400 := by omega
      simp only [if_pos hs]
      cases he : unmarshalErrorResponse body <;> simp [hs']
    · have hs' : resp.StatusCode < 400 := by omega
      simp only [if_neg hs]
      rcases hu : dec body zero with ⟨_ | err, r⟩
      · simp [hs', hu]
      · simp [hu]

theorem Sprintf_reading (e : String) :
    Sprintf "reading response body: %w" [.str e] = "reading response body: " ++ e :=
  Sprintf_text_then_operand _ "reading response body: " e 'w' (by simp) rfl (by decide)

/-- The error of `handleResponse`, case by case, for a non-nil target. -/
theorem handleResponse_error_cases {α : Type} (c : Client) (dec : Decoder α)
    (resp : HTTPResponse) (zero : α) :
    (∀ e : String, resp.Body = .error e →
      (c.handleResponse dec resp (some zero)).1 = some ("reading response body: " ++ e))
    ∧ (∀ body : String, resp.Body = .ok body → resp.StatusCode ≥ 400 →
        ∃ e : String, (c.handleResponse dec resp (some zero)).1 = some e
          ∧ HasPrefix e "API error" = true)
    ∧ (∀ (body e : String) (r : α), resp.Body = .ok body → resp.StatusCode < 400 →
        dec body zero = (some e, r) →
        (c.handleResponse dec resp (some zero)).1 = some ("unmarshaling response: " ++ e)) := by
  refine ⟨?_, ?_, ?_⟩
  · intro e hb
    simp only [Client.handleResponse, hb, Sprintf_reading]
  · intro body hb hs
    cases he : unmarshalErrorResponse body with
    | none =>
      refine ⟨"API error (status " ++ toString resp.StatusCode ++ "): " ++ body, ?_, ?_⟩
      · simp only [Client.handleResponse, hb, he, if_pos hs, Sprintf_api_status]
      · rw [String.append_assoc, String.append_assoc]
        have h : "API error (status " = "API error" ++ " (status " := by decide
        rw [h, String.append_assoc]
        exact HasPrefix_append _ _
    | some er =>
      refine ⟨"API error: " ++ er.Error.Message ++ " (code: " ++ toString er.Error.Code ++ ")",
        ?_, ?_⟩
      · simp only [Client.handleResponse, hb, he, if_pos hs, Sprintf_api_error]
      · rw [String.append_assoc, String.append_assoc, String.append_assoc]
        have h : "API error: " = "API error" ++ ": " := by decide
        rw [h, String.append_assoc]
        exact HasPrefix_append _ _
  · intro body e r hb hs hu
    have hs' : ¬ resp.StatusCode ≥ 400 := by omega
    simp only [Client.handleResponse, hb, if_neg hs', hu, Sprintf_unmarshaling]

/-- C22: `ValidateAccessToken` reports a failure of `makeRequest` (the request could
not be created, or the HTTP client failed to send it) with the prefix
`validating access token: `, and a failure of `handleResponse` (the body could not be
read, the status is 400 or more, or the body does not decode) with the prefix
`invalid access token: `; it returns nil exactly when the request for `me` was
answered with a readable body, a status below 400 and a body that decodes. -/
theorem ValidateAccessToken_failures (c : Client) (t : Transport) :
    (∀ e : String, t.NewRequestErr "GET" (c.buildURL "me") = some e →
      (c.ValidateAccessToken t).1
        = some ("validating access token: " ++ ("creating request: " ++ e)))
    ∧ (∀ e : String, t.NewRequestErr "GET" (c.buildURL "me") = none →
        t.Do { Method := "GET", URL := c.buildURL "me",
               RawQuery := some ⟨[("access_token", [c.AccessToken])]⟩ } = .error e →
        (c.ValidateAccessToken t).1
          = some ("validating access token: " ++ ("making request: " ++ e)))
    ∧ (∀ resp : HTTPResponse, t.NewRequestErr "GET" (c.buildURL "me") = none →
        t.Do { Method := "GET", URL := c.buildURL "me",
               RawQuery := some ⟨[("access_token", [c.AccessToken])]⟩ } = .ok resp →
        (∀ e : String, resp.Body = .error e →
          (c.ValidateAccessToken t).1
            = some ("invalid access token: " ++ ("reading response body: " ++ e)))
        ∧ (∀ body : String, resp.Body = .ok body → resp.StatusCode ≥ 400 →
            ∃ e : String, HasPrefix e "API error" = true
              ∧ (c.ValidateAccessToken t).1 = some ("invalid access token: " ++ e))
        ∧ (∀ (body e : String) (r : IdentityResult), resp.Body = .ok body →
            resp.StatusCode < 400 → unmarshalIdentity body {} = (some e, r) →
            (c.ValidateAccessToken t).1
              = some ("invalid access token: " ++ ("unmarshaling response: " ++ e))))
    ∧ ((c.ValidateAccessToken t).1 = none ↔
        ∃ (resp : HTTPResponse) (body : String) (r : IdentityResult),
          t.NewRequestErr "GET" (c.buildURL "me") = none
          ∧ t.Do { Method := "GET", URL := c.buildURL "me",
                   RawQuery := some ⟨[("access_token", [c.AccessToken])]⟩ } = .ok resp
          ∧ resp.Body = .ok body ∧ resp.StatusCode < 400
          ∧ unmarshalIdentity body {} = (none, r)) := by
  refine ⟨?_, ?_, ?_, ?_, ?_⟩
  · intro e hn
    unfold Client.ValidateAccessToken
    rw [makeRequest_no_params c t "GET" "me" (by decide)]
    simp only [hn, Sprintf_validating, Sprintf_creating]
  · intro e hn hd
    unfold Client.ValidateAccessToken
    rw [makeRequest_no_params c t "GET" "me" (by decide)]
    simp only [hn, hd, Sprintf_validating, Sprintf_making]
  · intro resp hn hd
    obtain ⟨h1, h2, h3⟩ := handleResponse_error_cases c unmarshalIdentity resp {}
    rw [ValidateAccessToken_of_response c t resp hn hd]
    refine ⟨?_, ?_, ?_⟩
    · intro e hb
      rw [h1 e hb]
      rfl
    · intro body hb hs
      obtain ⟨e, he, hp⟩ := h2 body hb hs
      exact ⟨e, hp, by rw [he]; rfl⟩
    · intro body e r hb hs hu
      rw [h3 body e r hb hs hu]
      rfl
  · intro h
    cases hn : t.NewRequestErr "GET" (c.buildURL "me") with
    | some err =>
      unfold Client.ValidateAccessToken at h
      rw [makeRequest_no_params c t "GET" "me" (by decide)] at h
      simp only [hn] at h
      exact absurd h (by simp)
    | none =>
      cases hd : t.Do { Method := "GET", URL := c.buildURL "me",
                        RawQuery := some ⟨[("access_token", [c.AccessToken])]⟩ } with
      | error err =>
        unfold Client.ValidateAccessToken at h
        rw [makeRequest_no_params c t "GET" "me" (by decide)] at h
        simp only [hn, hd] at h
        exact absurd h (by simp)
      | ok resp =>
        rw [ValidateAccessToken_of_response c t resp hn hd, Option.map_eq_none'] at h
        obtain ⟨body, r, hb, hs, hu⟩ := (handleResponse_nil_iff c unmarshalIdentity resp {}).1 h
        exact ⟨resp, body, r, rfl, rfl, hb, hs, hu⟩
  · rintro ⟨resp, body, r, hn, hd, hb, hs, hu⟩
    rw [ValidateAccessToken_of_response c t resp hn hd, Option.map_eq_none']
    exact (handleResponse_nil_iff c unmarshalIdentity resp {}).2 ⟨body, r, hb, hs, hu⟩

/-- C22 at concrete transports: a refused connection is reported with the prefix
`validating access token: `, an upstream `Invalid token` envelope with the prefix
`invalid access token: `, and the answer `{"id":"1","name":"P"}` gives nil. -/
theorem ValidateAccessToken_failures_witness :
    (Client.ValidateAccessToken (NewClient "T")
        ⟨fun _ _ => none, fun _ => .error "connection refused"⟩).1
      = some ("validating access token: " ++ ("making request: " ++ "connection refused"))
    ∧ (Client.ValidateAccessToken (NewClient "T")
        ⟨fun _ _ => none,
         fun _ => .ok { StatusCode := 200,
                        Body := .ok "\x7b\"id\":\"1\",\"name\":\"P\"\x7d" }⟩).1 = none :=
  ⟨(ValidateAccessToken_failures (NewClient "T")
      ⟨fun _ _ => none, fun _ => .error "connection refused"⟩).2.1 "connection refused" rfl rfl,
   (ValidateAccessToken_failures (NewClient "T")
      ⟨fun _ _ => none,
       fun _ => .ok { StatusCode := 200,
                      Body := .ok "\x7b\"id\":\"1\",\"name\":\"P\"\x7d" }⟩).2.2.2.2
      ⟨{ StatusCode := 200, Body := .ok "\x7b\"id\":\"1\",\"name\":\"P\"\x7d" },
       "\x7b\"id\":\"1\",\"name\":\"P\"\x7d", { ID := "1", Name := "P" }, rfl, rfl, rfl,
       by decide, by decide⟩⟩

/-- C22, an input where the claim fails: when the HTTP client cannot send the request
(`connection refused`), the error of `ValidateAccessToken` is
`validating access token: making request: connection refused`, which does not start
with `invalid access token: `. -/
theorem ValidateAccessToken_transport_failure :
    (Client.ValidateAccessToken (NewClient "T")
        ⟨fun _ _ => none, fun _ => .error "connection refused"⟩).1
      = some "validating access token: making request: connection refused"
    ∧ HasPrefix "validating access token: making request: connection refused"
        "invalid access token: " = false := by
  refine ⟨by decide, by decide⟩

theorem Sprintf_photos (x : String) : Sprintf "%s/photos" [.str x] = x ++ "/photos" :=
  Sprintf_operand_then_text _ "/photos" x rfl (by decide)

/-- The tail of every GET Resource Method wraps the failure of `makeRequest` and hands
back the failure of `handleResponse`. -/
theorem fetch_propagates {α : Type} (c : Client) (t : Transport) (dec : Decoder α) (zero : α)
    (endpoint : String) (params : Values) (errFormat pre : String)
    (hf : errFormat.data = pre.data ++ ['%', 'w']) (hp : '%' ∉ pre.data) :
    propagates (errorOf (c.fetch t dec zero endpoint params errFormat).1)
      (c.makeRequest t "GET" endpoint (some params) none).1
      (fun resp => (c.handleResponse dec resp (some zero)).1) pre := by
  unfold Client.fetch propagates
  rcases hm : c.makeRequest t "GET" endpoint (some params) none with ⟨_ | resp, sent⟩
  · rename_i e
    simp only [errorOf, Sprintf_text_then_operand errFormat pre e 'w' (by simp) hf hp]
  · intro e he
    simp only at he
    rcases hr : c.handleResponse dec resp (some zero) with ⟨_ | err, v⟩
    · rw [hr] at he
      exact absurd he (by simp)
    · rw [hr] at he
      simp only [Option.some.injEq] at he
      simp only [errorOf, hr, he]

/-- Reading the member `Data` of a result keeps its error. -/
theorem errorOf_data {ω α : Type} (r : Except String ω × List OutRequest) (data : ω → α) :
    errorOf (match r with
      | (.error err, sent) => ((.error err : Except String α), sent)
      | (.ok v, sent) => (.ok (data v), sent)).1 = errorOf r.1 := by
  rcases r with ⟨_ | v, sent⟩ <;> rfl

/-- C23: every Resource Method returns a failure of `makeRequest` behind a short prefix
that names the operation, and returns a failure of `handleResponse` as it is, without a
prefix. -/
theorem error_propagation {ω α : Type} (c : Client) (t : Transport) (dec : Decoder α)
    (zero : α) (decData : Decoder ω) (zeroData : ω) (data : ω → α) (id : String)
    (limit : Int) (order : String) (fields metrics : List String) (period : String)
    (since until_ : Option Time) (imageURL message : String) (published : Bool) :
    propagates (errorOf (c.GetPage t dec zero id fields).1)
      (c.makeRequest t "GET" id (some (setFields ⟨[]⟩ fields GetPage.defaultFields)) none).1
      (fun resp => (c.handleResponse dec resp (some zero)).1) "getting page: "
    ∧ propagates (errorOf (c.GetPages t decData zeroData data).1)
      (c.makeRequest t "GET" "me/accounts"
        (some ((⟨[]⟩ : Values).Set "fields" "id,name,category,access_token,can_post")) none).1
      (fun resp => (c.handleResponse decData resp (some zeroData)).1)
      "getting pages (requires user access token): "
    ∧ propagates (errorOf (c.GetPosts t dec zero id limit fields).1)
      (c.makeRequest t "GET" (id ++ "/posts")
        (some (setFields (setLimit ⟨[]⟩ limit) fields GetPosts.defaultFields)) none).1
      (fun resp => (c.handleResponse dec resp (some zero)).1) "getting posts: "
    ∧ propagates (errorOf (c.GetPostComments t dec zero id limit order fields).1)
      (c.makeRequest t "GET" (id ++ "/comments")
        (some (setFields
          ((if (order != "") = true then (setLimit ⟨[]⟩ limit).Set "order" order
            else (setLimit ⟨[]⟩ limit).Set "order" "reverse_chronological").Set
              "summary" "true")
          fields GetPostComments.defaultFields)) none).1
      (fun resp => (c.handleResponse dec resp (some zero)).1) "getting comments: "
    ∧ propagates (errorOf (c.GetCommentReplies t dec zero id limit fields).1)
      (c.makeRequest t "GET" (id ++ "/comments")
        (some (setFields (setLimit ⟨[]⟩ limit) fields GetCommentReplies.defaultFields)) none).1
      (fun resp => (c.handleResponse dec resp (some zero)).1) "getting comment replies: "
    ∧ propagates (errorOf (c.GetComment t dec zero id fields).1)
      (c.makeRequest t "GET" id
        (some (setFields ⟨[]⟩ fields GetComment.defaultFields)) none).1
      (fun resp => (c.handleResponse dec resp (some zero)).1) "getting comment: "
    ∧ propagates (errorOf (c.GetPhotos t decData zeroData data id limit).1)
      (c.makeRequest t "GET" (id ++ "/photos")
        (some ((setLimit ⟨[]⟩ limit).Set "fields"
          "id,name,picture,source,created_time,updated_time,link")) none).1
      (fun resp => (c.handleResponse decData resp (some zeroData)).1) "getting photos: "
    ∧ propagates (errorOf (c.UploadPhotoByURL t dec zero id imageURL message published).1)
      (c.makeRequest t "POST" (id ++ "/photos")
        (some ((if (message != "") = true then
            (((⟨[]⟩ : Values).Set "url" imageURL).Set "access_token" c.AccessToken).Set
              "message" message
          else ((⟨[]⟩ : Values).Set "url" imageURL).Set "access_token" c.AccessToken).Set
            "published" (if (!published) = true then "false" else "true"))) none).1
      (fun resp => (c.handleResponse dec resp (some zero)).1) "uploading photo by URL: "
    ∧ propagates (c.DeletePhoto t id).1
      (c.makeRequest t "DELETE" id none none).1
      (fun resp => (c.handleResponse unmarshalDeleteResult resp (some {})).1)
      "deleting photo: "
    ∧ propagates
      (errorOf (c.GetPageInsights t dec zero id metrics period since until_).1)
      (c.makeRequest t "GET" (id ++ "/insights")
        (some (setDate (setDate
          (if (period != "") = true then
            (setMetrics ⟨[]⟩ metrics GetPageInsights.defaultMetrics).Set "period" period
          else (setMetrics ⟨[]⟩ metrics GetPageInsights.defaultMetrics).Set "period" "day")
          "since" since) "until" until_)) none).1
      (fun resp => (c.handleResponse dec resp (some zero)).1) "getting page insights: "
    ∧ propagates (errorOf (c.GetPostInsights t dec zero id metrics).1)
      (c.makeRequest t "GET" (id ++ "/insights")
        (some (setMetrics ⟨[]⟩ metrics GetPostInsights.defaultMetrics)) none).1
      (fun resp => (c.handleResponse dec resp (some zero)).1) "getting post insights: "
    ∧ propagates (errorOf (c.GetTokenInfo t decData zeroData data).1)
      (c.makeRequest t "GET" "debug_token"
        (some ((⟨[]⟩ : Values).Set "input_token" c.AccessToken)) none).1
      (fun resp => (c.handleResponse decData resp (some zeroData)).1) "getting token info: "
    ∧ propagates (errorOf (c.GetUserInfo t dec zero).1)
      (c.makeRequest t "GET" "me"
        (some ((⟨[]⟩ : Values).Set "fields" "id,name,email")) none).1
      (fun resp => (c.handleResponse dec resp (some zero)).1) "getting user info: " := by
  refine ⟨?_, ?_, ?_, ?_, ?_, ?_, ?_, ?_, ?_, ?_, ?_, ?_, ?_⟩
  · exact fetch_propagates c t dec zero _ _ _ "getting page: " rfl (by decide)
  · have h := fetch_propagates c t decData zeroData "me/accounts"
      ((⟨[]⟩ : Values).Set "fields" "id,name,category,access_token,can_post")
      "getting pages (requires user access token): %w"
      "getting pages (requires user access token): " rfl (by decide)
    have e := errorOf_data (c.fetch t decData zeroData "me/accounts"
      ((⟨[]⟩ : Values).Set "fields" "id,name,category,access_token,can_post")
      "getting pages (requires user access token): %w") data
    rw [← e] at h
    exact h
  · simp only [Client.GetPosts, Sprintf_posts]
    exact fetch_propagates c t dec zero _ _ _ "getting posts: " rfl (by decide)
  · simp only [Client.GetPostComments, Sprintf_comments]
    exact fetch_propagates c t dec zero _ _ _ "getting comments: " rfl (by decide)
  · simp only [Client.GetCommentReplies, Sprintf_comments]
    exact fetch_propagates c t dec zero _ _ _ "getting comment replies: " rfl (by decide)
  · exact fetch_propagates c t dec zero _ _ _ "getting comment: " rfl (by decide)
  · have h := fetch_propagates c t decData zeroData (id ++ "/photos")
      ((setLimit ⟨[]⟩ limit).Set "fields"
        "id,name,picture,source,created_time,updated_time,link")
      "getting photos: %w" "getting photos: " rfl (by decide)
    have e := errorOf_data (c.fetch t decData zeroData (id ++ "/photos")
      ((setLimit ⟨[]⟩ limit).Set "fields"
        "id,name,picture,source,created_time,updated_time,link")
      "getting photos: %w") data
    rw [← e] at h
    simp only [Client.GetPhotos, Sprintf_photos]
    exact h
  · simp only [Client.UploadPhotoByURL, Sprintf_photos]
    unfold propagates
    rcases hm : c.makeRequest t "POST" (id ++ "/photos")
        (some ((if (message != "") = true then
            (((⟨[]⟩ : Values).Set "url" imageURL).Set "access_token" c.AccessToken).Set
              "message" message
          else ((⟨[]⟩ : Values).Set "url" imageURL).Set "access_token" c.AccessToken).Set
            "published" (if (!published) = true then "false" else "true"))) none
      with ⟨_ | resp, sent⟩
    · rename_i e
      simp only [errorOf, Sprintf_text_then_operand "uploading photo by URL: %w"
        "uploading photo by URL: " e 'w' (by simp) rfl (by decide)]
    · intro e he
      simp only at he
      rcases hr : c.handleResponse dec resp (some zero) with ⟨_ | err, v⟩
      · rw [hr] at he
        exact absurd he (by simp)
      · rw [hr] at he
        simp only [Option.some.injEq] at he
        simp only [errorOf, hr, he]
  · unfold Client.DeletePhoto propagates
    rcases hm : c.makeRequest t "DELETE" id none none with ⟨_ | resp, sent⟩
    · rename_i e
      simp only [Sprintf_text_then_operand "deleting photo: %w" "deleting photo: " e 'w'
        (by simp) rfl (by decide)]
    · intro e he
      simp only at he
      rcases hr : c.handleResponse unmarshalDeleteResult resp (some {}) with ⟨_ | err, v⟩
      · rw [hr] at he
        exact absurd he (by simp)
      · rw [hr] at he
        simp only [Option.some.injEq] at he
        simp only [hr, he]
  · simp only [Client.GetPageInsights, Sprintf_insights]
    exact fetch_propagates c t dec zero _ _ _ "getting page insights: " rfl (by decide)
  · simp only [Client.GetPostInsights, Sprintf_insights]
    exact fetch_propagates c t dec zero _ _ _ "getting post insights: " rfl (by decide)
  · have h := fetch_propagates c t decData zeroData "debug_token"
      ((⟨[]⟩ : Values).Set "input_token" c.AccessToken)
      "getting token info: %w" "getting token info: " rfl (by decide)
    have e := errorOf_data (c.fetch t decData zeroData "debug_token"
      ((⟨[]⟩ : Values).Set "input_token" c.AccessToken) "getting token info: %w") data
    rw [← e] at h
    exact h
  · exact fetch_propagates c t dec zero _ _ _ "getting user info: " rfl (by decide)

/-- C23, an input where the claim fails: when the remote side answers `GetPage` with
status 400 and the `Invalid token` envelope, the failure raised by `handleResponse` is
`API error: Invalid token (code: 190)` and `GetPage` returns exactly that text: no
prefix naming the operation stands before it. -/
theorem error_not_wrapped :
    (Client.handleResponse (NewClient "T") (fun (_ : String) (v : Unit) => (none, v))
        { StatusCode := 400,
          Body := .ok "\x7b\"error\":\x7b\"message\":\"Invalid token\",\"code\":190\x7d\x7d" }
        (some ())).1
      = some "API error: Invalid token (code: 190)"
    ∧ errorOf (Client.GetPage (NewClient "T")
        ⟨fun _ _ => none,
         fun _ => .ok { StatusCode := 400,
                        Body := .ok "\x7b\"error\":\x7b\"message\":\"Invalid token\",\"code\":190\x7d\x7d" }⟩
        (fun (_ : String) (v : Unit) => (none, v)) () "123" []).1
      = some "API error: Invalid token (code: 190)"
    ∧ HasPrefix "API error: Invalid token (code: 190)" "getting page: " = false := by
  refine ⟨by decide, by decide, by decide⟩

/-- The request a POST `makeRequest` with parameters and without body hands to the HTTP
client: the parameters are in the query, there is no body and no header. -/
theorem makeRequest_post_sent (c : Client) (t : Transport) (endpoint : String)
    (params : Values) (hn : t.NewRequestErr "POST" (c.buildURL endpoint) = none) :
    (c.makeRequest t "POST" endpoint (some params) none).2
      = [{ Method := "POST", URL := c.buildURL endpoint,
           RawQuery := some (params.Set "access_token" c.AccessToken),
           Header := ⟨[]⟩, Body := none }] := by
  have hlen := Values.len_Set_pos params "access_token" c.AccessToken
  simp only [Client.makeRequest, hn, if_pos hlen, Option.isSome_none, Bool.and_false,
    Bool.false_eq_true, if_false]
  split <;> rfl

theorem UploadPhotoByURL_sent {α : Type} (c : Client) (t : Transport) (dec : Decoder α)
    (zero : α) (pageID imageURL message : String) (published : Bool) :
    (c.UploadPhotoByURL t dec zero pageID imageURL message published).2
      = (c.makeRequest t "POST" (pageID ++ "/photos")
          (some ((if (message != "") = true then
              (((⟨[]⟩ : Values).Set "url" imageURL).Set "access_token" c.AccessToken).Set
                "message" message
            else ((⟨[]⟩ : Values).Set "url" imageURL).Set "access_token" c.AccessToken).Set
              "published" (if (!published) = true then "false" else "true"))) none).2 := by
  simp only [Client.UploadPhotoByURL, Sprintf_photos]
  split
  · rename_i h
    rw [h]
  · rename_i h
    rw [h]
    split <;> rfl

/-- C24: `UploadPhotoByURL` sends a POST to `<pageId>/photos` that has no body and no
`Content-Type` header; its query carries `url` = imageURL, `published` = `true` or
`false` according to the flag, `message` = caption exactly when the caption is not
empty, the credential, and nothing else. -/
theorem UploadPhotoByURL_request {α : Type} (c : Client) (t : Transport) (dec : Decoder α)
    (zero : α) (pageID imageURL message : String) (published : Bool)
    (hn : t.NewRequestErr "POST" (c.buildURL (pageID ++ "/photos")) = none) :
    ∃ q : Values,
      (c.UploadPhotoByURL t dec zero pageID imageURL message published).2
        = [{ Method := "POST", URL := c.buildURL (pageID ++ "/photos"), RawQuery := some q,
             Header := ⟨[]⟩, Body := none }]
      ∧ q.lookup "url" = some [imageURL]
      ∧ q.lookup "published" = some [if published = true then "true" else "false"]
      ∧ q.lookup "message" = (if message = "" then none else some [message])
      ∧ q.lookup "access_token" = some [c.AccessToken]
      ∧ (∀ k : String, k ≠ "url" → k ≠ "published" → k ≠ "message" → k ≠ "access_token" →
          q.lookup k = none) := by
  refine ⟨((if (message != "") = true then
        (((⟨[]⟩ : Values).Set "url" imageURL).Set "access_token" c.AccessToken).Set
          "message" message
      else ((⟨[]⟩ : Values).Set "url" imageURL).Set "access_token" c.AccessToken).Set
        "published" (if (!published) = true then "false" else "true")).Set
      "access_token" c.AccessToken, ?_, ?_, ?_, ?_, ?_, ?_⟩
  · rw [UploadPhotoByURL_sent, makeRequest_post_sent c t _ _ hn]
  · rw [Values.lookup_Set_ne _ _ _ _ (by decide), Values.lookup_Set_ne _ _ _ _ (by decide)]
    split
    · rw [Values.lookup_Set_ne _ _ _ _ (by decide), Values.lookup_Set_ne _ _ _ _ (by decide),
        Values.lookup_Set_self]
    · rw [Values.lookup_Set_ne _ _ _ _ (by decide), Values.lookup_Set_self]
  · rw [Values.lookup_Set_ne _ _ _ _ (by decide), Values.lookup_Set_self]
    cases published <;> rfl
  · rw [Values.lookup_Set_ne _ _ _ _ (by decide), Values.lookup_Set_ne _ _ _ _ (by decide)]
    by_cases hm : message = ""
    · subst hm
      rfl
    · have hb : (message != "") = true := by simp [hm]
      rw [if_pos hb, if_neg hm, Values.lookup_Set_self]
  · exact Values.lookup_Set_self _ _ _
  · intro k h1 h2 h3 h4
    rw [Values.lookup_Set_ne _ _ _ _ h4, Values.lookup_Set_ne _ _ _ _ h2]
    split
    · rw [Values.lookup_Set_ne _ _ _ _ h3, Values.lookup_Set_ne _ _ _ _ h4,
        Values.lookup_Set_ne _ _ _ _ h1]
      rfl
    · rw [Values.lookup_Set_ne _ _ _ _ h4, Values.lookup_Set_ne _ _ _ _ h1]
      rfl

/-- C24 at a concrete call: page `123`, image `https://e.x/a.jpg`, caption `hi`,
published. -/
theorem UploadPhotoByURL_request_witness :
    ∃ q : Values,
      (Client.UploadPhotoByURL (NewClient "T")
          ⟨fun _ _ => none, fun _ => .ok { StatusCode := 200, Body := .ok "" }⟩
          (fun (_ : String) (v : Unit) => (none, v)) () "123" "https://e.x/a.jpg" "hi" true).2
        = [{ Method := "POST", URL := (NewClient "T").buildURL ("123" ++ "/photos"),
             RawQuery := some q, Header := ⟨[]⟩, Body := none }]
      ∧ q.lookup "url" = some ["https://e.x/a.jpg"]
      ∧ q.lookup "published" = some [if true = true then "true" else "false"]
      ∧ q.lookup "message" = (if ("hi" : String) = "" then none else some ["hi"])
      ∧ q.lookup "access_token" = some [(NewClient "T").AccessToken]
      ∧ (∀ k : String, k ≠ "url" → k ≠ "published" → k ≠ "message" → k ≠ "access_token" →
          q.lookup k = none) :=
  UploadPhotoByURL_request (NewClient "T")
    ⟨fun _ _ => none, fun _ => .ok { StatusCode := 200, Body := .ok "" }⟩
    (fun (_ : String) (v : Unit) => (none, v)) () "123" "https://e.x/a.jpg" "hi" true rfl

/-- C24, an input where the claim fails: the request of
`UploadPhotoByURL("123", "https://e.x/a.jpg", "hi", true)` has no body at all (and no
`Content-Type` header); the fields travel in the query of the URL. -/
theorem UploadPhotoByURL_no_form_body :
    (Client.UploadPhotoByURL (NewClient "T")
        ⟨fun _ _ => none, fun _ => .ok { StatusCode := 200, Body := .ok "" }⟩
        (fun (_ : String) (v : Unit) => (none, v)) () "123" "https://e.x/a.jpg" "hi" true).2
      = [{ Method := "POST", URL := "https://graph.facebook.com/v23.0/123/photos",
           RawQuery := some ⟨[("access_token", ["T"]), ("published", ["true"]),
             ("message", ["hi"]), ("url", ["https://e.x/a.jpg"])]⟩,
           Header := ⟨[]⟩, Body := none }] := by
  decide

/-- C26: `GetAvailableMetrics` returns the hardcoded list of 36 metric names with a nil
error and hands no request to the HTTP client, for every client, transport and page id
(the empty one included); so two calls agree whatever the clients, their tokens,
versions and base URLs, and the page ids are. -/
theorem GetAvailableMetrics_static (c c' : Client) (t t' : Transport) (pageID pageID' : String) :
    c.GetAvailableMetrics t pageID = ((GetAvailableMetrics.pageMetrics, none), [])
    ∧ c.GetAvailableMetrics t "" = ((GetAvailableMetrics.pageMetrics, none), [])
    ∧ (c.GetAvailableMetrics t pageID).1 = (c'.GetAvailableMetrics t' pageID').1
    ∧ (c.GetAvailableMetrics t pageID).2 = []
    ∧ GetAvailableMetrics.pageMetrics.length = 36
    ∧ GetAvailableMetrics.pageMetrics.Nodup
    ∧ GetAvailableMetrics.pageMetrics.head? = some "page_fans"
    ∧ GetAvailableMetrics.pageMetrics.getLast? = some "page_positive_feedback_by_type_unique" :=
  ⟨rfl, rfl, rfl, rfl, by decide, by decide, rfl, rfl⟩

/-- C27: for every token, `NewClient` returns a client with that token, the version
`v23.0`, the base URL `https://graph.facebook.com` and an HTTP timeout of 30 seconds. -/
theorem NewClient_fields (token : String) :
    (NewClient token).AccessToken = token
    ∧ (NewClient token).APIVersion = "v23.0"
    ∧ (NewClient token).BaseURL = "https://graph.facebook.com"
    ∧ (NewClient token).HTTPClient.Timeout = 30
    ∧ (NewClient "").AccessToken = "" :=
  ⟨rfl, rfl, rfl, rfl, rfl⟩

theorem after_frame (c : Client) (op : ClientOp) :
    (c.after op).AccessToken = c.AccessToken ∧ (c.after op).BaseURL = c.BaseURL
    ∧ (c.after op).HTTPClient = c.HTTPClient := by
  cases op <;> exact ⟨rfl, rfl, rfl⟩

theorem afterAll_frame (ops : List ClientOp) (c : Client) :
    (c.afterAll ops).AccessToken = c.AccessToken ∧ (c.afterAll ops).BaseURL = c.BaseURL
    ∧ (c.afterAll ops).HTTPClient = c.HTTPClient
    ∧ (c.afterAll ops).APIVersion = (lastVersion ops).getD c.APIVersion := by
  induction ops generalizing c with
  | nil => exact ⟨rfl, rfl, rfl, rfl⟩
  | cons op ops ih =>
    obtain ⟨h1, h2, h3, h4⟩ := ih (c.after op)
    obtain ⟨f1, f2, f3⟩ := after_frame c op
    have hstep : c.afterAll (op :: ops) = (c.after op).afterAll ops := rfl
    rw [hstep, h1, h2, h3, h4, f1, f2, f3]
    refine ⟨rfl, rfl, rfl, ?_⟩
    cases op <;> try rfl
    rename_i version
    show (lastVersion ops).getD version
      = ((lastVersion ops).orElse (fun _ => some version)).getD c.APIVersion
    cases lastVersion ops <;> rfl

/-- C28: after `SetAPIVersion(v)` the version of the client is `v` and its token, base
URL and HTTP client are the ones it had; every other method leaves the receiver as it
was; so after any sequence of method calls the token, the base URL and the HTTP client
are unchanged and the version is the one of the last `SetAPIVersion` in the sequence,
or the original one when there is none. -/
theorem SetAPIVersion_only_mutation (c : Client) (v : String) (op : ClientOp)
    (ops : List ClientOp) :
    ((c.SetAPIVersion v).APIVersion = v
      ∧ (c.SetAPIVersion v).AccessToken = c.AccessToken
      ∧ (c.SetAPIVersion v).BaseURL = c.BaseURL
      ∧ (c.SetAPIVersion v).HTTPClient = c.HTTPClient)
    ∧ c.after (.SetAPIVersion v) = c.SetAPIVersion v
    ∧ (c.after op = c ∨ ∃ version : String, op = .SetAPIVersion version)
    ∧ ((c.afterAll ops).AccessToken = c.AccessToken
      ∧ (c.afterAll ops).BaseURL = c.BaseURL
      ∧ (c.afterAll ops).HTTPClient = c.HTTPClient
      ∧ (c.afterAll ops).APIVersion = (lastVersion ops).getD c.APIVersion) := by
  refine ⟨⟨rfl, rfl, rfl, rfl⟩, rfl, ?_, afterAll_frame ops c⟩
  cases op
  case SetAPIVersion version => exact Or.inr ⟨version, rfl⟩
  all_goals exact Or.inl rfl

theorem foldl_decodeResponseMember_omits (members : List (String × Json))
    (st : ErrorResponse × Bool)
    (h : ∀ m ∈ members, keyMatches m.1 "error" = false) :
    members.foldl decodeResponseMember st = st := by
  induction members generalizing st with
  | nil => rfl
  | cons m ms ih =>
    have hm : keyMatches m.1 "error" = false := h m (List.mem_cons_self _ _)
    have hstep : decodeResponseMember st m = st := by
      unfold decodeResponseMember
      simp only [hm, Bool.false_eq_true, if_false]
    rw [List.foldl_cons, hstep]
    exact ih st (fun x hx => h x (List.mem_cons_of_mem _ hx))

/-- A body that is `null` or a JSON object without an `error` member decodes into the
zero envelope. -/
theorem unmarshalErrorResponse_omits (body : String) :
    (∀ members : List (String × Json), parseJson body = some (.obj members) →
      (∀ m ∈ members, keyMatches m.1 "error" = false) →
      unmarshalErrorResponse body = some {})
    ∧ (parseJson body = some .null → unmarshalErrorResponse body = some {}) := by
  constructor
  · intro members hp h
    unfold unmarshalErrorResponse
    simp only [hp, foldl_decodeResponseMember_omits members (({} : ErrorResponse), false) h,
      Bool.false_eq_true, if_false]
  · intro hp
    unfold unmarshalErrorResponse
    simp only [hp]

theorem api_error_forms_differ (m code status body : String) :
    "API error: " ++ m ++ " (code: " ++ code ++ ")"
      ≠ "API error (status " ++ status ++ "): " ++ body := by
  intro h
  have h2 := congrArg String.data h
  simp only [String.data_append] at h2
  simp at h2

/-- C29: for a response with status ≥ 400 whose body is `null` or a JSON object without
an `error` member, `handleResponse` fails with `API error:  (code: 0)` (empty message,
code 0) and leaves the target as it was; the error is
`API error (status <status>): <body>` exactly when the body does not decode into the
envelope type, and is otherwise built from the decoded message and code alone. -/
theorem handleResponse_empty_envelope {α : Type} (c : Client) (dec : Decoder α)
    (resp : HTTPResponse) (result : Option α) (body : String)
    (hb : resp.Body = .ok body) (hs : resp.StatusCode ≥ 400) :
    (∀ members : List (String × Json), parseJson body = some (.obj members) →
      (∀ m ∈ members, keyMatches m.1 "error" = false) →
      c.handleResponse dec resp result = (some "API error:  (code: 0)", result))
    ∧ (parseJson body = some .null →
        c.handleResponse dec resp result = (some "API error:  (code: 0)", result))
    ∧ ((c.handleResponse dec resp result).1
          = some ("API error (status " ++ toString resp.StatusCode ++ "): " ++ body)
        ↔ unmarshalErrorResponse body = none)
    ∧ (∀ er : ErrorResponse, unmarshalErrorResponse body = some er →
        (c.handleResponse dec resp result).1
          = some ("API error: " ++ er.Error.Message ++ " (code: " ++ toString er.Error.Code
              ++ ")")) := by
  have decoded : ∀ er : ErrorResponse, unmarshalErrorResponse body = some er →
      c.handleResponse dec resp result
        = (some ("API error: " ++ er.Error.Message ++ " (code: " ++ toString er.Error.Code
            ++ ")"), result) := by
    intro er he
    simp only [Client.handleResponse, hb, he, if_pos hs, Sprintf_api_error]
  have zero : unmarshalErrorResponse body = some {} →
      c.handleResponse dec resp result = (some "API error:  (code: 0)", result) := by
    intro he
    rw [decoded {} he]
    rfl
  obtain ⟨o1, o2⟩ := unmarshalErrorResponse_omits body
  refine ⟨fun members hp h => zero (o1 members hp h), fun hp => zero (o2 hp), ?_, ?_⟩
  · constructor
    · intro h
      cases he : unmarshalErrorResponse body with
      | none => rfl
      | some er =>
        rw [decoded er he] at h
        simp only [Option.some.injEq] at h
        exact absurd h (api_error_forms_differ _ _ _ _)
    · intro he
      simp only [Client.handleResponse, hb, he, if_pos hs, Sprintf_api_status]
  · intro er he
    rw [decoded er he]

/-- C29 at the two bodies of the claim, with status 500: `{}` and `null` both give
`API error:  (code: 0)`. -/
theorem handleResponse_empty_envelope_witness :
    Client.handleResponse (NewClient "T") (fun (_ : String) (v : Nat) => (none, v))
        { StatusCode := 500, Body := .ok "\x7b\x7d" } (some 7)
      = (some "API error:  (code: 0)", some 7)
    ∧ Client.handleResponse (NewClient "T") (fun (_ : String) (v : Nat) => (none, v))
        { StatusCode := 500, Body := .ok "null" } (some 7)
      = (some "API error:  (code: 0)", some 7) :=
  ⟨(handleResponse_empty_envelope (NewClient "T") (fun (_ : String) (v : Nat) => (none, v))
      { StatusCode := 500, Body := .ok "\x7b\x7d" } (some 7) "\x7b\x7d" rfl (by decide)).1
      [] rfl (fun _ hm => absurd hm (List.not_mem_nil _)),
   (handleResponse_empty_envelope (NewClient "T") (fun (_ : String) (v : Nat) => (none, v))
      { StatusCode := 500, Body := .ok "null" } (some 7) "null" rfl (by decide)).2.1 rfl⟩

/-- The first operand `pageAccessToken[:10]` of the token line panics exactly when the
token has fewer than ten bytes; with ten bytes or more both operands are in range. -/
theorem sliceBytes_preview (b : List Nat) :
    (b.length < 10 → ∃ msg : String, sliceBytes b 0 10 = .error msg)
    ∧ (10 ≤ b.length →
        sliceBytes b 0 10 = .ok (b.take 10)
        ∧ sliceBytes b ((b.length : Int) - 10) b.length = .ok (b.drop (b.length - 10))) := by
  constructor
  · intro h
    have h1 : (10 : Int) < 0 ∨ (b.length : Int) < 10 := Or.inr (by omega)
    exact ⟨_, if_pos h1⟩
  · intro h
    constructor
    · have h1 : ¬ ((10 : Int) < 0 ∨ (b.length : Int) < 10) := by omega
      have h2 : ¬ ((0 : Int) < 0) := by omega
      have h3 : ¬ ((10 : Int) < 0) := by omega
      simp only [sliceBytes, if_neg h1, if_neg h2, if_neg h3]
      rfl
    · have h1 : ¬ ((b.length : Int) < 0 ∨ (b.length : Int) < (b.length : Int)) := by omega
      have h2 : ¬ ((b.length : Int) - 10 < 0) := by omega
      have h3 : ¬ ((b.length : Int) < (b.length : Int) - 10) := by omega
      have e1 : ((b.length : Int) - 10).toNat = b.length - 10 := by omega
      have e2 : (b.length : Int).toNat = b.length := by omega
      simp only [sliceBytes, if_neg h1, if_neg h2, if_neg h3, e1, e2]
      congr 1
      apply List.take_of_length_le
      rw [List.length_drop]

/-- A run of `main` on command-line arguments with a non-empty token and a non-empty
page id panics exactly when the token has fewer than ten bytes, and otherwise reaches
the first API call with the first and the last ten bytes of the token as preview. -/
theorem main_token_preview (prog tok pid : String) (env : Env) (ht : tok ≠ "")
    (hp : pid ≠ "") :
    ((stringBytes tok).length < 10 → ∃ msg : String, main [prog, tok, pid] env = .panicked msg)
    ∧ (10 ≤ (stringBytes tok).length →
        main [prog, tok, pid] env
          = .firstCall (NewClient tok) pid ((stringBytes tok).take 10)
              ((stringBytes tok).drop ((stringBytes tok).length - 10))) := by
  have h1 : (tok == "") = false := by simp [ht]
  have h2 : (pid == "") = false := by simp [hp]
  obtain ⟨s1, s2⟩ := sliceBytes_preview (stringBytes tok)
  constructor
  · intro h
    obtain ⟨msg, hm⟩ := s1 h
    refine ⟨msg, ?_⟩
    simp [main, h1, h2, hm]
  · intro h
    obtain ⟨a, b⟩ := s2 h
    simp [main, h1, h2, a, b]

/-- C30 at a failing input: with the three-byte token `abc` and the page id `1`, given
on the command line or in the environment, `main` panics on `pageAccessToken[:10]`
before its first API call. -/
theorem main_short_token_panics :
    main ["main", "abc", "1"] (fun _ => "")
      = .panicked "runtime error: slice bounds out of range [:10] with length 3"
    ∧ main ["main"]
        (fun k => if k = "PAGE_ACCESS_TOKEN" then "abc" else if k = "PAGE_ID" then "1" else "")
      = .panicked "runtime error: slice bounds out of range [:10] with length 3"
    ∧ main ["main", "0123456789", "1"] (fun _ => "")
      = .firstCall (NewClient "0123456789") "1" [48, 49, 50, 51, 52, 53, 54, 55, 56, 57]
          [48, 49, 50, 51, 52, 53, 54, 55, 56, 57] := by
  refine ⟨by decide, by decide, by decide⟩

/-- The text after the last slash of a path is determined by the path. -/
theorem last_segment_unique (a b x y : List Char) (hx : '/' ∉ x) (hy : '/' ∉ y)
    (h : a ++ '/' :: x = b ++ '/' :: y) : x = y := by
  rcases List.append_eq_append_iff.1 h with ⟨a', _, h2⟩ | ⟨c', _, h2⟩
  · cases a' with
    | nil =>
      simp only [List.nil_append, List.cons.injEq, true_and] at h2
      exact h2
    | cons c cs =>
      simp only [List.cons_append, List.cons.injEq] at h2
      exact absurd (by rw [h2.2]; simp) hx
  · cases c' with
    | nil =>
      simp only [List.nil_append, List.cons.injEq, true_and] at h2
      exact h2.symm
    | cons c cs =>
      simp only [List.cons_append, List.cons.injEq] at h2
      exact absurd (by rw [h2.2]; simp) hy

theorem containsChars_slash (l : List Char) : containsChars ['/'] l = true ↔ '/' ∈ l := by
  induction l with
  | nil => simp [containsChars]
  | cons c cs ih =>
    simp only [containsChars, Bool.or_eq_true, ih, List.mem_cons]
    have h : (['/'].isPrefixOf (c :: cs) = true) ↔ '/' = c := by
      simp [List.isPrefixOf]
    rw [h]

theorem isPathValue_iff (x : String) :
    isPathValue x = true ↔ x.data ≠ [] ∧ '/' ∉ x.data := by
  have hc : Contains x "/" = containsChars ['/'] x.data := rfl
  have hne : (x != "") = true ↔ x.data ≠ [] := by
    constructor
    · intro h h0
      have : x = "" := String.ext h0
      simp [this] at h
    · intro h
      have : x ≠ "" := by
        rintro rfl
        exact h rfl
      simp [this]
  simp only [isPathValue, Bool.and_eq_true, Bool.not_eq_true', hne, hc]
  constructor
  · rintro ⟨h1, h2⟩
    refine ⟨h1, fun hm => ?_⟩
    rw [(containsChars_slash x.data).2 hm] at h2
    exact Bool.noConfusion h2
  · rintro ⟨h1, h2⟩
    refine ⟨h1, ?_⟩
    cases hcs : containsChars ['/'] x.data with
    | false => rfl
    | true => exact absurd ((containsChars_slash x.data).1 hcs) h2

/-- What a match of a mux template says about the path. -/
theorem muxVar_eq_some (path pre suf v : String) (h : muxVar path pre suf = some v) :
    isPathValue v = true ∧ path = pre ++ v ++ suf := by
  simp only [muxVar] at h
  split_ifs at h with h1 h2 h3
  simp only [Option.some.injEq] at h
  subst h
  obtain ⟨t, rfl⟩ := (HasPrefix_iff _ _).1 h1
  have hd : (pre ++ t).data.drop pre.data.length = t.data := by simp
  rw [hd] at h2 h3 ⊢
  rw [List.isSuffixOf_iff_suffix] at h2
  obtain ⟨u, hu⟩ := h2
  have hlen : t.data.length - suf.data.length = u.length := by
    rw [← hu, List.length_append]
    omega
  have htake : t.data.take (t.data.length - suf.data.length) = u := by
    rw [hlen, ← hu, List.take_left']
    rfl
  rw [htake] at h3 ⊢
  refine ⟨(isPathValue_iff _).2 h3, ?_⟩
  apply String.ext
  simp [← hu]

/-- A path made of the prefix, a path value and the suffix of a mux template matches
it, with that value. -/
theorem muxVar_some (pre x suf : String) (hx : isPathValue x = true) :
    muxVar (pre ++ x ++ suf) pre suf = some x := by
  have hp : HasPrefix (pre ++ x ++ suf) pre = true := by
    rw [String.append_assoc]
    exact HasPrefix_append _ _
  have hd : (pre ++ x ++ suf).data.drop pre.data.length = x.data ++ suf.data := by simp
  have hs : suf.data.isSuffixOf (x.data ++ suf.data) = true :=
    List.isSuffixOf_iff_suffix.2 (List.suffix_append _ _)
  have ht : (x.data ++ suf.data).take ((x.data ++ suf.data).length - suf.data.length)
      = x.data := by
    rw [List.length_append, Nat.add_sub_cancel, List.take_left']
    rfl
  have hv := (isPathValue_iff x).1 hx
  simp only [muxVar, hp, if_true, hd, hs, ht]
  rw [if_pos hv]

theorem muxVar_prefix_false (path pre suf : String) (h : HasPrefix path pre = false) :
    muxVar path pre suf = none := by
  unfold muxVar
  simp only [h, Bool.false_eq_true, if_false]

theorem sameAnswer_agrees (a b : Outcome) (h : a.sameAnswer b) : a.agrees b := by
  obtain ⟨h1, h2⟩ := h
  by_cases hc : a.calls = []
  · exact Or.inr ⟨hc, by rw [← h1]; exact hc, h2⟩
  · exact Or.inl ⟨hc, h1⟩

/-- A path that ends in a slash-free value has, as suffix `/y` with `y` slash-free,
only the one with `y` that value. -/
theorem HasSuffix_value (pre x suf : String) (a y : List Char)
    (hpre : pre.data = a ++ ['/']) (hsuf : suf.data = '/' :: y)
    (hx : '/' ∉ x.data) (hy : '/' ∉ y) (h : HasSuffix (pre ++ x) suf = true) :
    x.data = y := by
  obtain ⟨t, ht⟩ := (HasSuffix_iff _ _).1 h
  have hd := congrArg String.data ht
  simp only [String.data_append, hpre, hsuf, List.append_assoc, List.singleton_append] at hd
  exact last_segment_unique a t.data x.data y hx hy hd

theorem route_page (x : String) (hx : isPathValue x = true) (hne : x ≠ "posts") :
    route ("/api/pages/" ++ x) = .getPage := by
  obtain ⟨_, hs⟩ := (isPathValue_iff x).1 hx
  have e1 : "/api/pages/" ++ x ≠ "/health" := by
    apply ne_of_length_lt
    simp only [String.length_append]
    have : "/api/pages/".length = 11 := rfl
    have : "/health".length = 7 := rfl
    omega
  have s1 : HasSuffix ("/api/pages/" ++ x) "/posts" = false := by
    cases h : HasSuffix ("/api/pages/" ++ x) "/posts" with
    | false => rfl
    | true =>
      have := HasSuffix_value "/api/pages/" x "/posts" "/api/pages".data "posts".data rfl rfl
        hs (by decide) h
      exact absurd (String.ext this) hne
  have hc : Contains x "/" = false := by
    simp only [isPathValue, Bool.and_eq_true, Bool.not_eq_true'] at hx
    exact hx.2
  have hd : String.mk (("/api/pages/" ++ x).data.drop 11) = x :=
    drop_prefix_append "/api/pages/" x
  simp [route, e1, s1, hd, hc, HasPrefix_append]

theorem route_posts (x : String) : route ("/api/pages/" ++ x ++ "/posts") = .getPosts := by
  have h1 : "/api/pages/" ++ x ++ "/posts" ≠ "/health" := by
    apply ne_of_length_lt
    simp only [String.length_append]
    have : "/api/pages/".length = 11 := rfl
    have : "/posts".length = 6 := rfl
    have : "/health".length = 7 := rfl
    omega
  have h2 : HasPrefix ("/api/pages/" ++ x ++ "/posts") "/api/pages/" = true := by
    rw [String.append_assoc]
    exact HasPrefix_append _ _
  simp [route, h1, h2, HasSuffix_append]

theorem route_post_comments (x : String) :
    route ("/api/posts/" ++ x ++ "/comments") = .getPostComments := by
  have h1 : "/api/posts/" ++ x ++ "/comments" ≠ "/health" := by
    apply ne_of_length_lt
    simp only [String.length_append]
    have : "/api/posts/".length = 11 := rfl
    have : "/comments".length = 9 := rfl
    have : "/health".length = 7 := rfl
    omega
  have h4 : "/api/posts/" ++ x ++ "/comments" ≠ "/api/pages" := by
    apply ne_of_length_lt
    simp only [String.length_append]
    have : "/api/posts/".length = 11 := rfl
    have : "/comments".length = 9 := rfl
    have : "/api/pages".length = 10 := rfl
    omega
  have p1 : HasPrefix ("/api/posts/" ++ x ++ "/comments") "/api/pages/" = false := by
    rw [String.append_assoc]
    exact HasPrefix_append_false _ _ _ (by decide) (by decide)
  have p2 : HasPrefix ("/api/posts/" ++ x ++ "/comments") "/api/posts/" = true := by
    rw [String.append_assoc]
    exact HasPrefix_append _ _
  simp [route, h1, h4, p1, p2, HasSuffix_append]

theorem route_replies (x : String) :
    route ("/api/comments/" ++ x ++ "/replies") = .getCommentReplies := by
  have h1 : "/api/comments/" ++ x ++ "/replies" ≠ "/health" := by
    apply ne_of_length_lt
    simp only [String.length_append]
    have : "/api/comments/".length = 14 := rfl
    have : "/replies".length = 8 := rfl
    have : "/health".length = 7 := rfl
    omega
  have h4 : "/api/comments/" ++ x ++ "/replies" ≠ "/api/pages" := by
    apply ne_of_length_lt
    simp only [String.length_append]
    have : "/api/comments/".length = 14 := rfl
    have : "/replies".length = 8 := rfl
    have : "/api/pages".length = 10 := rfl
    omega
  have p1 : HasPrefix ("/api/comments/" ++ x ++ "/replies") "/api/pages/" = false := by
    rw [String.append_assoc]
    exact HasPrefix_append_false _ _ _ (by decide) (by decide)
  have p2 : HasPrefix ("/api/comments/" ++ x ++ "/replies") "/api/posts/" = false := by
    rw [String.append_assoc]
    exact HasPrefix_append_false _ _ _ (by decide) (by decide)
  have p3 : HasPrefix ("/api/comments/" ++ x ++ "/replies") "/api/comments/" = true := by
    rw [String.append_assoc]
    exact HasPrefix_append _ _
  simp [route, h1, h4, p1, p2, p3, HasSuffix_append]

theorem route_comment (x : String) (hx : isPathValue x = true) (hne : x ≠ "replies") :
    route ("/api/comments/" ++ x) = .getComment := by
  obtain ⟨_, hs⟩ := (isPathValue_iff x).1 hx
  apply route_comment_guard
  cases h : HasSuffix ("/api/comments/" ++ x) "/replies" with
  | false => rfl
  | true =>
    have := HasSuffix_value "/api/comments/" x "/replies" "/api/comments".data "replies".data
      rfl rfl hs (by decide) h
    exact absurd (String.ext this) hne

/-- With `PAGE_ACCESS_TOKEN` unset and the same default client, the two routers resolve
the same client, or both fail. -/
theorem getClient_agree (d : Option Client) (env : Env) (req req' : Request)
    (hq : req'.Query = req.Query) (hh : req'.Header = req.Header)
    (henv : env "PAGE_ACCESS_TOKEN" = "") :
    (∃ c : Client, Router.getClientFromRequest ⟨d⟩ req' = .ok c
        ∧ SimpleRouter.getClientFromRequest ⟨d⟩ env req = .ok c)
    ∨ (∃ e1 e2 : String, Router.getClientFromRequest ⟨d⟩ req' = .error e1
        ∧ SimpleRouter.getClientFromRequest ⟨d⟩ env req = .error e2) := by
  have ht := requestToken_cases (req.Query.Get "access_token") (req.Header.Get "Authorization")
  simp only [Router.getClientFromRequest, SimpleRouter.getClientFromRequest, hq, hh, henv, ht]
  generalize (if (req.Query.Get "access_token" == "") = true then
      (if (req.Header.Get "Authorization" != ""
          && HasPrefix (req.Header.Get "Authorization") "Bearer ") = true then
        TrimPrefix (req.Header.Get "Authorization") "Bearer "
      else req.Query.Get "access_token")
    else req.Query.Get "access_token") = tk
  by_cases h0 : tk = ""
  · subst h0
    cases d with
    | none => exact Or.inr ⟨_, _, rfl, rfl⟩
    | some c => exact Or.inl ⟨c, rfl, rfl⟩
  · have hb : (tk == "") = false := by simp [h0]
    have hb' : (tk != "") = true := by simp [h0]
    simp only [hb, hb', Bool.false_eq_true, if_false, if_true]
    exact Or.inl ⟨_, rfl, rfl⟩

theorem finish_status (api : API) (w : ResponseWriter) (call : Call) (errFormat : String)
    (wrap : Json → Json) :
    (finish api w call errFormat wrap).w.StatusCode
      = match api call with
        | .error _ => 500
        | .ok _ => 200 := by
  unfold finish
  split <;> rfl

theorem finish_sameAnswer (api : API) (w1 w2 : ResponseWriter) (call : Call)
    (f1 f2 : String) (wrap1 wrap2 : Json → Json) :
    (finish api w1 call f1 wrap1).sameAnswer (finish api w2 call f2 wrap2) := by
  constructor
  · rw [finish_calls, finish_calls]
  · rw [finish_status, finish_status]

theorem append_left_cancel_string (p a b : String) (h : p ++ a = p ++ b) : a = b := by
  have hd := congrArg String.data h
  simp only [String.data_append, List.append_cancel_left_eq] at hd
  exact String.ext hd

/-- A mux template without suffix does not match a path with a slash after the
prefix. -/
theorem muxVar_none_of_slash (pre rest : String) (h : '/' ∈ rest.data) :
    muxVar (pre ++ rest) pre "" = none := by
  cases hm : muxVar (pre ++ rest) pre "" with
  | none => rfl
  | some v =>
    obtain ⟨hv, hp⟩ := muxVar_eq_some _ _ _ _ hm
    have hp' : pre ++ rest = pre ++ v := by
      rw [hp]
      apply String.ext
      simp
    have : rest = v := append_left_cancel_string pre rest v hp'
    rw [this] at h
    exact absurd h ((isPathValue_iff v).1 hv).2

theorem slash_mem_append_suffix (x suf : String) (h : '/' ∈ suf.data) :
    '/' ∈ (x ++ suf).data := by
  rw [String.data_append]
  exact List.mem_append_right _ h

theorem matchRoute_page (r : Router) (api : API) (w : ResponseWriter) (req : Request)
    (x : String) (hp : req.Path = "/api/pages/" ++ x) (hx : isPathValue x = true) :
    r.matchRoute api w req = some (r.getPage api w { req with Vars := [("pageId", x)] }) := by
  have m1 : muxVar req.Path "/api/pages/" "" = some x := by
    rw [hp]
    have := muxVar_some "/api/pages/" x "" hx
    rw [String.append_empty] at this
    exact this
  simp only [Router.matchRoute, m1]

theorem matchRoute_posts (r : Router) (api : API) (w : ResponseWriter) (req : Request)
    (x : String) (hp : req.Path = "/api/pages/" ++ x ++ "/posts") (hx : isPathValue x = true) :
    r.matchRoute api w req = some (r.getPosts api w { req with Vars := [("pageId", x)] }) := by
  have m1 : muxVar req.Path "/api/pages/" "" = none := by
    rw [hp, String.append_assoc]
    exact muxVar_none_of_slash _ _ (slash_mem_append_suffix x "/posts" (by decide))
  have e2 : (req.Path == "/api/pages") = false := by
    have : req.Path ≠ "/api/pages" := by
      rw [hp]
      apply ne_of_length_lt
      simp only [String.length_append]
      have : "/api/pages/".length = 11 := rfl
      have : "/api/pages".length = 10 := rfl
      omega
    simp [this]
  have m3 : muxVar req.Path "/api/pages/" "/posts" = some x := by
    rw [hp]
    exact muxVar_some _ _ _ hx
  simp only [Router.matchRoute, m1, e2, m3, Bool.false_eq_true, if_false]

theorem matchRoute_post_comments (r : Router) (api : API) (w : ResponseWriter)
    (req : Request) (x : String) (hp : req.Path = "/api/posts/" ++ x ++ "/comments")
    (hx : isPathValue x = true) :
    r.matchRoute api w req
      = some (r.getPostComments api w { req with Vars := [("postId", x)] }) := by
  have p1 : HasPrefix req.Path "/api/pages/" = false := by
    rw [hp, String.append_assoc]
    exact HasPrefix_append_false _ _ _ (by decide) (by decide)
  have e2 : (req.Path == "/api/pages") = false := by
    have : req.Path ≠ "/api/pages" := by
      rw [hp]
      apply ne_of_length_lt
      simp only [String.length_append]
      have : "/api/posts/".length = 11 := rfl
      have : "/api/pages".length = 10 := rfl
      omega
    simp [this]
  have m4 : muxVar req.Path "/api/posts/" "/comments" = some x := by
    rw [hp]
    exact muxVar_some _ _ _ hx
  simp only [Router.matchRoute, muxVar_prefix_false _ _ _ p1, e2, m4, Bool.false_eq_true,
    if_false]

theorem comments_prefixes (req : Request) (rest : String)
    (hp : req.Path = "/api/comments/" ++ rest) :
    HasPrefix req.Path "/api/pages/" = false ∧ HasPrefix req.Path "/api/posts/" = false
    ∧ (req.Path == "/api/pages") = false := by
  refine ⟨?_, ?_, ?_⟩
  · rw [hp]
    exact HasPrefix_append_false _ _ _ (by decide) (by decide)
  · rw [hp]
    exact HasPrefix_append_false _ _ _ (by decide) (by decide)
  · have : req.Path ≠ "/api/pages" := by
      rw [hp]
      apply ne_of_length_lt
      simp only [String.length_append]
      have : "/api/comments/".length = 14 := rfl
      have : "/api/pages".length = 10 := rfl
      omega
    simp [this]

theorem matchRoute_comment (r : Router) (api : API) (w : ResponseWriter) (req : Request)
    (x : String) (hp : req.Path = "/api/comments/" ++ x) (hx : isPathValue x = true) :
    r.matchRoute api w req
      = some (r.getComment api w { req with Vars := [("commentId", x)] }) := by
  obtain ⟨p1, p2, e2⟩ := comments_prefixes req x hp
  have m5 : muxVar req.Path "/api/comments/" "" = some x := by
    rw [hp]
    have := muxVar_some "/api/comments/" x "" hx
    rw [String.append_empty] at this
    exact this
  simp only [Router.matchRoute, muxVar_prefix_false _ _ _ p1, muxVar_prefix_false _ _ _ p2, e2,
    m5, Bool.false_eq_true, if_false]

theorem matchRoute_replies (r : Router) (api : API) (w : ResponseWriter) (req : Request)
    (x : String) (hp : req.Path = "/api/comments/" ++ x ++ "/replies")
    (hx : isPathValue x = true) :
    r.matchRoute api w req
      = some (r.getCommentReplies api w { req with Vars := [("commentId", x)] }) := by
  obtain ⟨p1, p2, e2⟩ := comments_prefixes req (x ++ "/replies")
    (by rw [hp, String.append_assoc])
  have m5 : muxVar req.Path "/api/comments/" "" = none := by
    rw [hp, String.append_assoc]
    exact muxVar_none_of_slash _ _ (slash_mem_append_suffix x "/replies" (by decide))
  have m6 : muxVar req.Path "/api/comments/" "/replies" = some x := by
    rw [hp]
    exact muxVar_some _ _ _ hx
  simp only [Router.matchRoute, muxVar_prefix_false _ _ _ p1, muxVar_prefix_false _ _ _ p2, e2,
    m5, m6, Bool.false_eq_true, if_false]

/-- A path that the switch of `SimpleRouter.ServeHTTP` leaves to its default case
matches no route of `SetupRoutes`. -/
theorem matchRoute_none (r : Router) (api : API) (w : ResponseWriter) (req : Request)
    (h : route req.Path = .notFound) : r.matchRoute api w req = none := by
  unfold route at h
  split_ifs at h with h1 h2 h3 h4 h5 h6 h7
  have m1 : muxVar req.Path "/api/pages/" "" = none := by
    cases hm : muxVar req.Path "/api/pages/" "" with
    | none => rfl
    | some v =>
      exfalso
      obtain ⟨hv, hp⟩ := muxVar_eq_some _ _ _ _ hm
      rw [String.append_empty] at hp
      apply h3
      have hc : Contains v "/" = false := by
        simp only [isPathValue, Bool.and_eq_true, Bool.not_eq_true'] at hv
        exact hv.2
      have hd : String.mk (req.Path.data.drop 11) = v := by
        rw [hp]
        exact drop_prefix_append "/api/pages/" v
      rw [hd, hc, hp, HasPrefix_append]
      rfl
  have m3 : muxVar req.Path "/api/pages/" "/posts" = none := by
    cases hm : muxVar req.Path "/api/pages/" "/posts" with
    | none => rfl
    | some v =>
      exfalso
      obtain ⟨_, hp⟩ := muxVar_eq_some _ _ _ _ hm
      apply h2
      rw [hp, HasSuffix_append, String.append_assoc, HasPrefix_append]
      rfl
  have m4 : muxVar req.Path "/api/posts/" "/comments" = none := by
    cases hm : muxVar req.Path "/api/posts/" "/comments" with
    | none => rfl
    | some v =>
      exfalso
      obtain ⟨_, hp⟩ := muxVar_eq_some _ _ _ _ hm
      apply h5
      rw [hp, HasSuffix_append, String.append_assoc, HasPrefix_append]
      rfl
  have m5 : muxVar req.Path "/api/comments/" "" = none := by
    cases hm : muxVar req.Path "/api/comments/" "" with
    | none => rfl
    | some v =>
      exfalso
      obtain ⟨_, hp⟩ := muxVar_eq_some _ _ _ _ hm
      apply h7
      rw [hp, String.append_assoc, HasPrefix_append]
  have m6 : muxVar req.Path "/api/comments/" "/replies" = none := by
    cases hm : muxVar req.Path "/api/comments/" "/replies" with
    | none => rfl
    | some v =>
      exfalso
      obtain ⟨_, hp⟩ := muxVar_eq_some _ _ _ _ hm
      apply h7
      rw [hp, String.append_assoc, HasPrefix_append]
  simp only [Router.matchRoute, m1, m3, m4, m5, m6, h1, h4, Bool.false_eq_true, if_false]

theorem var_single (req : Request) (name x : String) :
    Request.var { req with Vars := [(name, x)] } name = x := by
  simp [Request.var, List.lookup]

theorem agree_getPage (d : Option Client) (env : Env) (api : API) (w1 w2 : ResponseWriter)
    (req : Request) (x : String) (hm : req.Method = "GET")
    (henv : env "PAGE_ACCESS_TOKEN" = "") (hp : req.Path = "/api/pages/" ++ x)
    (hx : isPathValue x = true) :
    (Router.getPage ⟨d⟩ api w1 { req with Vars := [("pageId", x)] }).sameAnswer
      (SimpleRouter.getPage ⟨d⟩ env api w2 req) := by
  have hget : (req.Method != "GET") = false := by rw [hm]; rfl
  have he : extractPathParam req.Path "/api/pages/" "" = x := by
    rw [hp]
    exact extractPathParam_rest _ _
  have hxb : (x == "") = false := by
    have := ((isPathValue_iff x).1 hx).1
    have hne : x ≠ "" := by
      rintro rfl
      exact this rfl
    simp [hne]
  rcases getClient_agree d env req { req with Vars := [("pageId", x)] } rfl rfl henv
    with ⟨c, h1, h2⟩ | ⟨e1, e2, h1, h2⟩
  · simp only [Router.getPage, SimpleRouter.getPage, hget, var_single, he, hxb, h1, h2,
      Bool.false_eq_true, if_false]
    exact finish_sameAnswer _ _ _ _ _ _ _ _
  · simp only [Router.getPage, SimpleRouter.getPage, hget, var_single, he, hxb, h1, h2,
      Bool.false_eq_true, if_false]
    exact ⟨rfl, rfl⟩

theorem agree_getPages (d : Option Client) (env : Env) (api : API) (w1 w2 : ResponseWriter)
    (req : Request) (hm : req.Method = "GET") (henv : env "PAGE_ACCESS_TOKEN" = "") :
    (Router.getPages ⟨d⟩ api w1 { req with Vars := [] }).sameAnswer
      (SimpleRouter.getPages ⟨d⟩ env api w2 req) := by
  have hget : (req.Method != "GET") = false := by rw [hm]; rfl
  rcases getClient_agree d env req { req with Vars := [] } rfl rfl henv
    with ⟨c, h1, h2⟩ | ⟨e1, e2, h1, h2⟩
  · simp only [Router.getPages, SimpleRouter.getPages, hget, h1, h2, Bool.false_eq_true,
      if_false]
    exact finish_sameAnswer _ _ _ _ _ _ _ _
  · simp only [Router.getPages, SimpleRouter.getPages, hget, h1, h2, Bool.false_eq_true,
      if_false]
    exact ⟨rfl, rfl⟩

theorem agree_getPosts (d : Option Client) (env : Env) (api : API) (w1 w2 : ResponseWriter)
    (req : Request) (x : String) (hm : req.Method = "GET")
    (henv : env "PAGE_ACCESS_TOKEN" = "") (hp : req.Path = "/api/pages/" ++ x ++ "/posts")
    (hx : isPathValue x = true) :
    (Router.getPosts ⟨d⟩ api w1 { req with Vars := [("pageId", x)] }).sameAnswer
      (SimpleRouter.getPosts ⟨d⟩ env api w2 req) := by
  have hget : (req.Method != "GET") = false := by rw [hm]; rfl
  have he : extractPathParam req.Path "/api/pages/" "/posts" = x := by
    rw [hp]
    exact extractPathParam_between _ _ _ (by decide)
  have hxb : (x == "") = false := by
    have := ((isPathValue_iff x).1 hx).1
    have hne : x ≠ "" := by
      rintro rfl
      exact this rfl
    simp [hne]
  rcases getClient_agree d env req { req with Vars := [("pageId", x)] } rfl rfl henv
    with ⟨c, h1, h2⟩ | ⟨e1, e2, h1, h2⟩
  · simp only [Router.getPosts, SimpleRouter.getPosts, hget, var_single, he, hxb, h1, h2,
      Bool.false_eq_true, if_false]
    exact finish_sameAnswer _ _ _ _ _ _ _ _
  · simp only [Router.getPosts, SimpleRouter.getPosts, hget, var_single, he, hxb, h1, h2,
      Bool.false_eq_true, if_false]
    exact ⟨rfl, rfl⟩

theorem agree_getPostComments (d : Option Client) (env : Env) (api : API)
    (w1 w2 : ResponseWriter) (req : Request) (x : String) (hm : req.Method = "GET")
    (henv : env "PAGE_ACCESS_TOKEN" = "")
    (hp : req.Path = "/api/posts/" ++ x ++ "/comments") (hx : isPathValue x = true) :
    (Router.getPostComments ⟨d⟩ api w1 { req with Vars := [("postId", x)] }).sameAnswer
      (SimpleRouter.getPostComments ⟨d⟩ env api w2 req) := by
  have hget : (req.Method != "GET") = false := by rw [hm]; rfl
  have he : extractPathParam req.Path "/api/posts/" "/comments" = x := by
    rw [hp]
    exact extractPathParam_between _ _ _ (by decide)
  have hxb : (x == "") = false := by
    have := ((isPathValue_iff x).1 hx).1
    have hne : x ≠ "" := by
      rintro rfl
      exact this rfl
    simp [hne]
  rcases getClient_agree d env req { req with Vars := [("postId", x)] } rfl rfl henv
    with ⟨c, h1, h2⟩ | ⟨e1, e2, h1, h2⟩
  · simp only [Router.getPostComments, SimpleRouter.getPostComments, hget, var_single, he, hxb,
      h1, h2, Bool.false_eq_true, if_false]
    exact finish_sameAnswer _ _ _ _ _ _ _ _
  · simp only [Router.getPostComments, SimpleRouter.getPostComments, hget, var_single, he, hxb,
      h1, h2, Bool.false_eq_true, if_false]
    exact ⟨rfl, rfl⟩

theorem agree_getComment (d : Option Client) (env : Env) (api : API)
    (w1 w2 : ResponseWriter) (req : Request) (x : String) (hm : req.Method = "GET")
    (henv : env "PAGE_ACCESS_TOKEN" = "") (hp : req.Path = "/api/comments/" ++ x)
    (hx : isPathValue x = true) :
    (Router.getComment ⟨d⟩ api w1 { req with Vars := [("commentId", x)] }).sameAnswer
      (SimpleRouter.getComment ⟨d⟩ env api w2 req) := by
  have hget : (req.Method != "GET") = false := by rw [hm]; rfl
  have he : extractPathParam req.Path "/api/comments/" "" = x := by
    rw [hp]
    exact extractPathParam_rest _ _
  have hxb : (x == "") = false := by
    have := ((isPathValue_iff x).1 hx).1
    have hne : x ≠ "" := by
      rintro rfl
      exact this rfl
    simp [hne]
  have hc : Contains x "/" = false := by
    simp only [isPathValue, Bool.and_eq_true, Bool.not_eq_true'] at hx
    exact hx.2
  rcases getClient_agree d env req { req with Vars := [("commentId", x)] } rfl rfl henv
    with ⟨c, h1, h2⟩ | ⟨e1, e2, h1, h2⟩
  · simp only [Router.getComment, SimpleRouter.getComment, hget, var_single, he, hxb, hc, h1,
      h2, Bool.or_self, Bool.false_eq_true, if_false]
    exact finish_sameAnswer _ _ _ _ _ _ _ _
  · simp only [Router.getComment, SimpleRouter.getComment, hget, var_single, he, hxb, hc, h1,
      h2, Bool.or_self, Bool.false_eq_true, if_false]
    exact ⟨rfl, rfl⟩

theorem agree_getCommentReplies (d : Option Client) (env : Env) (api : API)
    (w1 w2 : ResponseWriter) (req : Request) (x : String) (hm : req.Method = "GET")
    (henv : env "PAGE_ACCESS_TOKEN" = "")
    (hp : req.Path = "/api/comments/" ++ x ++ "/replies") (hx : isPathValue x = true) :
    (Router.getCommentReplies ⟨d⟩ api w1 { req with Vars := [("commentId", x)] }).sameAnswer
      (SimpleRouter.getCommentReplies ⟨d⟩ env api w2 req) := by
  have hget : (req.Method != "GET") = false := by rw [hm]; rfl
  have he : extractPathParam req.Path "/api/comments/" "/replies" = x := by
    rw [hp]
    exact extractPathParam_between _ _ _ (by decide)
  have hxb : (x == "") = false := by
    have := ((isPathValue_iff x).1 hx).1
    have hne : x ≠ "" := by
      rintro rfl
      exact this rfl
    simp [hne]
  rcases getClient_agree d env req { req with Vars := [("commentId", x)] } rfl rfl henv
    with ⟨c, h1, h2⟩ | ⟨e1, e2, h1, h2⟩
  · simp only [Router.getCommentReplies, SimpleRouter.getCommentReplies, hget, var_single, he,
      hxb, h1, h2, Bool.false_eq_true, if_false]
    exact finish_sameAnswer _ _ _ _ _ _ _ _
  · simp only [Router.getCommentReplies, SimpleRouter.getCommentReplies, hget, var_single, he,
      hxb, h1, h2, Bool.false_eq_true, if_false]
    exact ⟨rfl, rfl⟩

/-- C25: for every GET request, default token and environment without
`PAGE_ACCESS_TOKEN`, whose path mux leaves as it is (`cleanPath` does not change it),
the router of `SetupRoutes` and `SimpleRouter.ServeHTTP` invoke the same Resource Method
with the same arguments, or invoke none and answer with the same status code, provided
the path matches one of the seven patterns of the route table and is neither
`/api/pages/posts` nor `/api/comments/replies`, or the switch of `ServeHTTP` leaves the
path to its default case. -/
theorem routers_agree (tok : String) (env : Env) (api : API) (req : Request)
    (hm : req.Method = "GET") (henv : env "PAGE_ACCESS_TOKEN" = "")
    (hc : cleanPath req.Path = req.Path)
    (hdom : (matchesRouteTable req.Path = true ∧ req.Path ≠ "/api/pages/posts"
        ∧ req.Path ≠ "/api/comments/replies") ∨ route req.Path = .notFound) :
    ((NewRouter tok).SetupRoutes api req).agrees
        ((NewSimpleRouter tok).ServeHTTP env api req)
    ∧ ((NewRouter tok).SetupRoutes api req).sameAnswer
        ((NewSimpleRouter tok).ServeHTTP env api req) := by
  have hopt : (req.Method == "OPTIONS") = false := by rw [hm]; rfl
  have hget : (req.Method == "GET") = true := by rw [hm]; rfl
  have hnget : (req.Method != "GET") = false := by rw [hm]; rfl
  have hcb : (cleanPath req.Path != req.Path) = false := by rw [hc]; simp
  have hR : NewRouter tok
      = ⟨if (tok != "") = true then some (NewClient tok) else none⟩ := rfl
  have hS : NewSimpleRouter tok
      = ⟨if (tok != "") = true then some (NewClient tok) else none⟩ := rfl
  have matched : ∀ (o : Outcome) (handler : Route),
      (NewRouter tok).matchRoute api {} req = some o → route req.Path = handler →
      (o.sameAnswer (match handler with
        | .healthCheck => (NewSimpleRouter tok).healthCheck (enableCORS {}) req
        | .getPosts => (NewSimpleRouter tok).getPosts env api (enableCORS {}) req
        | .getPage => (NewSimpleRouter tok).getPage env api (enableCORS {}) req
        | .getPages => (NewSimpleRouter tok).getPages env api (enableCORS {}) req
        | .getPostComments =>
          (NewSimpleRouter tok).getPostComments env api (enableCORS {}) req
        | .getCommentReplies =>
          (NewSimpleRouter tok).getCommentReplies env api (enableCORS {}) req
        | .getComment => (NewSimpleRouter tok).getComment env api (enableCORS {}) req
        | .notFound => ⟨writeError (enableCORS {}) 404 "Endpoint not found", []⟩)) →
      ((NewRouter tok).SetupRoutes api req).sameAnswer
        ((NewSimpleRouter tok).ServeHTTP env api req) := by
    intro o handler h1 h2 h3
    simp only [Router.SetupRoutes, SimpleRouter.ServeHTTP, hcb, h1, hget, hopt, h2,
      Bool.false_eq_true, if_false, if_true]
    exact h3
  have main : ((NewRouter tok).SetupRoutes api req).sameAnswer
      ((NewSimpleRouter tok).ServeHTTP env api req) := by
    rcases hdom with ⟨ht, n1, n2⟩ | hnf
    · simp only [matchesRouteTable, Bool.or_eq_true, beq_iff_eq] at ht
      rcases ht with (((((ht | ht) | ht) | ht) | ht) | ht) | ht
      · obtain ⟨x, hx, hp⟩ := (matchesPattern_iff _ _ _).1 ht
        rw [String.append_empty] at hp
        have hne : x ≠ "posts" := by
          rintro rfl
          exact n1 hp
        refine matched _ .getPage (matchRoute_page _ api {} req x hp hx)
          (by rw [hp]; exact route_page x hx hne) ?_
        rw [hR, hS]
        exact agree_getPage _ env api _ _ req x hm henv hp hx
      · refine matched ((NewRouter tok).getPages api {} { req with Vars := [] }) .getPages ?_
          (by rw [ht]; decide) ?_
        · have m1 : muxVar "/api/pages" "/api/pages/" "" = none := by decide
          simp only [Router.matchRoute, ht, m1, beq_self_eq_true, if_true]
        · rw [hR, hS]
          exact agree_getPages _ env api _ _ req hm henv
      · obtain ⟨x, hx, hp⟩ := (matchesPattern_iff _ _ _).1 ht
        refine matched _ .getPosts (matchRoute_posts _ api {} req x hp hx)
          (by rw [hp]; exact route_posts x) ?_
        rw [hR, hS]
        exact agree_getPosts _ env api _ _ req x hm henv hp hx
      · obtain ⟨x, hx, hp⟩ := (matchesPattern_iff _ _ _).1 ht
        refine matched _ .getPostComments (matchRoute_post_comments _ api {} req x hp hx)
          (by rw [hp]; exact route_post_comments x) ?_
        rw [hR, hS]
        exact agree_getPostComments _ env api _ _ req x hm henv hp hx
      · obtain ⟨x, hx, hp⟩ := (matchesPattern_iff _ _ _).1 ht
        rw [String.append_empty] at hp
        have hne : x ≠ "replies" := by
          rintro rfl
          exact n2 hp
        refine matched _ .getComment (matchRoute_comment _ api {} req x hp hx)
          (by rw [hp]; exact route_comment x hx hne) ?_
        rw [hR, hS]
        exact agree_getComment _ env api _ _ req x hm henv hp hx
      · obtain ⟨x, hx, hp⟩ := (matchesPattern_iff _ _ _).1 ht
        refine matched _ .getCommentReplies (matchRoute_replies _ api {} req x hp hx)
          (by rw [hp]; exact route_replies x) ?_
        rw [hR, hS]
        exact agree_getCommentReplies _ env api _ _ req x hm henv hp hx
      · refine matched ((NewRouter tok).healthCheck {}) .healthCheck ?_
          (by rw [ht]; decide) ?_
        · have m1 : muxVar "/health" "/api/pages/" "" = none := by decide
          have m3 : muxVar "/health" "/api/pages/" "/posts" = none := by decide
          have m4 : muxVar "/health" "/api/posts/" "/comments" = none := by decide
          have m5 : muxVar "/health" "/api/comments/" "" = none := by decide
          have m6 : muxVar "/health" "/api/comments/" "/replies" = none := by decide
          have e2 : (("/health" : String) == "/api/pages") = false := by decide
          simp only [Router.matchRoute, ht, m1, m3, m4, m5, m6, e2, beq_self_eq_true, if_true,
            Bool.false_eq_true, if_false]
        · simp only [Router.healthCheck, SimpleRouter.healthCheck, hnget, Bool.false_eq_true,
            if_false]
          exact ⟨rfl, rfl⟩
    · have hmr := matchRoute_none (NewRouter tok) api {} req hnf
      simp only [Router.SetupRoutes, SimpleRouter.ServeHTTP, hcb, hmr, hopt, hnf,
        Bool.false_eq_true, if_false]
      exact ⟨rfl, rfl⟩
  exact ⟨sameAnswer_agrees _ _ main, main⟩

/-- C25 at a concrete request: `GET /api/pages/123/posts?limit=2` with the default token
`D` makes both front ends call `GetPosts("123", 2)`. -/
theorem routers_agree_witness :
    (Router.SetupRoutes (NewRouter "D") (fun _ => .ok .null)
        { Method := "GET", Path := "/api/pages/123/posts",
          Query := ⟨[("limit", ["2"])]⟩, Header := ⟨[]⟩ }).agrees
      (SimpleRouter.ServeHTTP (NewSimpleRouter "D") (fun _ => "") (fun _ => .ok .null)
        { Method := "GET", Path := "/api/pages/123/posts",
          Query := ⟨[("limit", ["2"])]⟩, Header := ⟨[]⟩ })
    ∧ (Router.SetupRoutes (NewRouter "D") (fun _ => .ok .null)
        { Method := "GET", Path := "/api/pages/123/posts",
          Query := ⟨[("limit", ["2"])]⟩, Header := ⟨[]⟩ }).calls
      = [.GetPosts (NewClient "D") "123" 2 []] :=
  ⟨(routers_agree "D" (fun _ => "") (fun _ => .ok .null)
      { Method := "GET", Path := "/api/pages/123/posts",
        Query := ⟨[("limit", ["2"])]⟩, Header := ⟨[]⟩ }
      rfl rfl (by decide) (Or.inl ⟨by decide, by decide, by decide⟩)).1,
   by decide⟩

/-- C25, inputs where the claim fails. For `GET /api/pages/posts` with the default token
`D`, the router of `SetupRoutes` calls `GetPage("posts")` and `SimpleRouter` calls
`GetPosts("posts", 10)`; for `GET /api/comments/a/b` the first answers 404 and the second
400, and for `GET /api/posts/comments` the first answers 404 while the second calls
`GetPostComments("comments", ...)`. -/
theorem routers_disagree :
    ((Router.SetupRoutes (NewRouter "D") (fun _ => .ok .null)
        { Method := "GET", Path := "/api/pages/posts", Query := ⟨[]⟩, Header := ⟨[]⟩ }).calls
      = [.GetPage (NewClient "D") "posts" []]
    ∧ (SimpleRouter.ServeHTTP (NewSimpleRouter "D") (fun _ => "") (fun _ => .ok .null)
        { Method := "GET", Path := "/api/pages/posts", Query := ⟨[]⟩, Header := ⟨[]⟩ }).calls
      = [.GetPosts (NewClient "D") "posts" 10 []]
    ∧ ¬ (Router.SetupRoutes (NewRouter "D") (fun _ => .ok .null)
        { Method := "GET", Path := "/api/pages/posts", Query := ⟨[]⟩, Header := ⟨[]⟩ }).agrees
      (SimpleRouter.ServeHTTP (NewSimpleRouter "D") (fun _ => "") (fun _ => .ok .null)
        { Method := "GET", Path := "/api/pages/posts", Query := ⟨[]⟩, Header := ⟨[]⟩ }))
    ∧ ((Router.SetupRoutes (NewRouter "D") (fun _ => .ok .null)
        { Method := "GET", Path := "/api/comments/a/b", Query := ⟨[]⟩,
          Header := ⟨[]⟩ }).w.StatusCode = 404
      ∧ (SimpleRouter.ServeHTTP (NewSimpleRouter "D") (fun _ => "") (fun _ => .ok .null)
        { Method := "GET", Path := "/api/comments/a/b", Query := ⟨[]⟩,
          Header := ⟨[]⟩ }).w.StatusCode = 400)
    ∧ ((Router.SetupRoutes (NewRouter "D") (fun _ => .ok .null)
        { Method := "GET", Path := "/api/posts/comments", Query := ⟨[]⟩,
          Header := ⟨[]⟩ }).w.StatusCode = 404
      ∧ (SimpleRouter.ServeHTTP (NewSimpleRouter "D") (fun _ => "") (fun _ => .ok .null)
        { Method := "GET", Path := "/api/posts/comments", Query := ⟨[]⟩,
          Header := ⟨[]⟩ }).calls
        = [.GetPostComments (NewClient "D") "comments" 10 "reverse_chronological" []]) := by
  refine ⟨⟨by decide, by decide, ?_⟩, ⟨by decide, by decide⟩, ⟨by decide, by decide⟩⟩
  rintro (⟨_, h⟩ | ⟨h, _, _⟩)
  · exact absurd h (by decide)
  · exact absurd h (by decide)

/-- C6: `buildURL` is `BaseURL + "/" + APIVersion + "/" + endpoint` for every client
and endpoint; a client fresh from `NewClient` yields
`https://graph.facebook.com/v23.0/<endpoint>` and after `SetAPIVersion v` it yields
`https://graph.facebook.com/<v>/<endpoint>`. -/
theorem buildURL_eq (c : Client) (endpoint tok v : String) :
    c.buildURL endpoint = c.BaseURL ++ "/" ++ c.APIVersion ++ "/" ++ endpoint
    ∧ (NewClient tok).buildURL endpoint = "https://graph.facebook.com/v23.0/" ++ endpoint
    ∧ ((NewClient tok).SetAPIVersion v).buildURL endpoint
        = "https://graph.facebook.com/" ++ v ++ "/" ++ endpoint := by
  have key : ∀ a b e : String,
      Sprintf "%s/%s/%s" [.str a, .str b, .str e] = a ++ "/" ++ b ++ "/" ++ e := by
    intro a b e
    apply String.ext
    have h : "%s/%s/%s".data = ['%', 's', '/', '%', 's', '/', '%', 's'] := rfl
    simp [Sprintf, h, sprintfAux, FmtArg.format, fmtExtra]
  refine ⟨key _ _ _, ?_, ?_⟩
  · rw [Client.buildURL, key]
    apply String.ext
    simp [NewClient, BaseURL, DefaultAPIVersion]
  · rw [Client.buildURL, key]
    apply String.ext
    simp [NewClient, BaseURL, Client.SetAPIVersion]

end FbPageService
